import Mathlib

/-!
# webServer: the per-connection HTTP state machine

A shallow embedding of class `http_conn` (src/http_conn.h, src/http_conn.cpp):
the incremental request parser (`parse_line`, `parse_request_line`,
`parse_headers`, `parse_content`, `process_read`), resource resolution
(`do_request`), the response builder (`add_response`, `process_write`) and the
scatter/gather transmission loop (`write`).

Conventions of the embedding

* a byte is a `Nat` below 256; a C buffer is a `List Nat` of the declared size;
* a `char*` into the read buffer is an offset (`Nat`), a null pointer is `none`;
* a C string at offset `p` is the run of non-zero bytes starting at `p` (`cstr`);
* system calls (`recv`, `writev`, `stat`) are oracles passed as arguments;
* `int` values that never leave the range of a buffer index are `Nat`, the
  others are `Int`, with an explicit 32-bit wrap where a wider value is stored;
* where the behaviour of the code is undefined (a store outside a buffer, a signed
  overflow, a value-returning function left without `return`) or the process is
  killed, the result is `none`.
-/

namespace WebServer

/-! ## Constants and enumerations (src/http_conn.h) -/

def FILENAME_LEN : Nat := 200
def READ_BUFFER_SIZE : Nat := 2048
def WRITE_BUFFER_SIZE : Nat := 1024

inductive METHOD where
  | GET | POST | HEAD | PUT | DELETE | TRACE | OPTIONS | CONNECT
  deriving DecidableEq, Repr

inductive CHECK_STATE where
  | CHECK_STATE_REQUESTLINE | CHECK_STATE_HEADER | CHECK_STATE_CONTENT
  deriving DecidableEq, Repr

inductive HTTP_CODE where
  | NO_REQUEST | GET_REQUEST | BAD_REQUEST | NO_RESOURCE | FORBIDDEN_REQUEST
  | FILE_REQUEST | INTERNAL_ERROR | CLOSED_CONNECTION
  deriving DecidableEq, Repr

inductive LINE_STATUS where
  | LINE_OK | LINE_BAD | LINE_OPEN
  deriving DecidableEq, Repr

/-- Interest set passed to `modfd` (the source only passes EPOLLIN or EPOLLOUT). -/
inductive EPOLL_EV where
  | EPOLLIN | EPOLLOUT
  deriving DecidableEq, Repr

open METHOD CHECK_STATE HTTP_CODE LINE_STATUS EPOLL_EV

/-! ## Bytes, C strings and the libc string functions the parser calls -/

/-- Bytes of a string literal. -/
def B (s : String) : List Nat := s.toList.map Char.toNat

/-- The C string that starts at offset `p` of `buf`: the bytes before the first NUL. -/
def cstr (buf : List Nat) (p : Nat) : List Nat :=
  (buf.drop p).takeWhile (fun c => c != 0)

/-- Store `data` at offset `p` of `buf`; only the part inside the buffer is stored. -/
def store (buf : List Nat) (p : Nat) (data : List Nat) : List Nat :=
  (buf.take p ++ data ++ buf.drop (p + data.length)).take buf.length

/-- The function `tolower` of the C locale. -/
def tolower (c : Nat) : Nat := if 65 ≤ c ∧ c ≤ 90 then c + 32 else c

/-- The function `strcasecmp` on the contents of two C strings. -/
def strcasecmp : List Nat → List Nat → Int
  | [], [] => 0
  | [], b :: _ => - (tolower b : Int)
  | a :: _, [] => (tolower a : Int)
  | a :: as, b :: bs =>
    if tolower a = tolower b then strcasecmp as bs else (tolower a : Int) - (tolower b : Int)

/-- The function `strncasecmp`: at most `n` bytes of each string are compared. -/
def strncasecmp (a b : List Nat) (n : Nat) : Int := strcasecmp (a.take n) (b.take n)

/-- Index of the first element satisfying `p`. -/
def find_first (p : Nat → Bool) : List Nat → Option Nat
  | [] => none
  | c :: cs => if p c then some 0 else (find_first p cs).map (fun k => k + 1)

/-- The function `strpbrk(buf + p, accept)`: offset of the first byte of the C string
that belongs to `accept`, or null. -/
def strpbrk (buf : List Nat) (p : Nat) (accept : List Nat) : Option Nat :=
  (find_first (fun c => accept.contains c) (cstr buf p)).map (fun k => p + k)

/-- The function `strchr(buf + p, ch)` for a non-zero `ch`. -/
def strchr (buf : List Nat) (p : Nat) (ch : Nat) : Option Nat :=
  (find_first (fun c => c == ch) (cstr buf p)).map (fun k => p + k)

/-- The function `strspn(str, accept)`: length of the leading run of bytes in `accept`. -/
def strspn (str : List Nat) (accept : List Nat) : Nat :=
  (str.takeWhile (fun c => accept.contains c)).length

/-- The function `isspace` of the C locale. -/
def isspace (c : Nat) : Bool := c == 32 || (9 ≤ c && c ≤ 13)

/-- Value of the leading run of decimal digits, accumulated on `acc`. -/
def atol_digits : List Nat → Nat → Nat
  | [], acc => acc
  | c :: cs, acc => if 48 ≤ c ∧ c ≤ 57 then atol_digits cs (acc * 10 + (c - 48)) else acc

/-- Saturation of `strtol` to the range of a 64-bit `long`. -/
def clamp_long (i : Int) : Int :=
  if i < -(2 : Int) ^ 63 then -(2 : Int) ^ 63 else if (2 : Int) ^ 63 - 1 < i then (2 : Int) ^ 63 - 1 else i

/-- The function `atol` (glibc: `strtol(s, 0, 10)`): leading white space, an optional
sign, then decimal digits. -/
def atol (str : List Nat) : Int :=
  match str.dropWhile isspace with
  | 45 :: r => clamp_long (- (atol_digits r 0 : Int))
  | 43 :: r => clamp_long (atol_digits r 0 : Int)
  | t => clamp_long (atol_digits t 0 : Int)

/-- Conversion of a wider integer to a 32-bit `int` (two's complement wrap). -/
def to_int (i : Int) : Int := (i + 2 ^ 31) % 2 ^ 32 - 2 ^ 31

/-- Conversion of an integer to `size_t` (64 bits, modular). -/
def to_size_t (i : Int) : Nat := (i % 2 ^ 64).toNat

/-- Decimal digits of a natural number, most significant first (`fuel` bounds the
number of digits; `n + 1` is always enough). -/
def dec_digits : Nat → Nat → List Nat → List Nat
  | 0, _, acc => acc
  | fuel + 1, n, acc =>
    if n / 10 = 0 then (48 + n % 10) :: acc
    else dec_digits fuel (n / 10) ((48 + n % 10) :: acc)

/-- Output of the `printf` conversion `%d`. -/
def fmt_d (i : Int) : List Nat :=
  if i < 0 then 45 :: dec_digits (i.natAbs + 1) i.natAbs []
  else dec_digits (i.toNat + 1) i.toNat []

/-! ## Connection state (src/http_conn.h) -/

/-- One `struct iovec`: `base` is the offset of `iov_base` from the start of the
region it points into (the write buffer for segment 0, the file mapping for
segment 1); `len` is `iov_len`. -/
structure IoVec where
  base : Int
  len : Nat
  deriving DecidableEq, Repr

/-- The fields of `struct stat` the server reads. -/
structure Stat where
  st_mode : Nat
  st_size : Nat
  deriving DecidableEq, Repr

/-- The data members of `http_conn`. `m_file_address` is `none` when the pointer is
null and `some n` when it is the result of `mmap` for a file of `n` bytes: a mapping of
`n` bytes for `n > 0`, and `MAP_FAILED` for `n = 0` (`mmap` rejects the length 0);
`munmap_calls` counts the calls of `munmap`; `epoll_ev` is the interest registered for
the socket, `none` once a one-shot event has fired; `m_user_count` is the static
connection counter. -/
structure Conn where
  m_user_count : Int
  m_sockfd : Int
  m_read_buf : List Nat
  m_read_idx : Nat
  m_checked_idx : Nat
  m_start_line : Nat
  m_check_state : CHECK_STATE
  m_method : METHOD
  m_url : Option Nat
  m_version : Option Nat
  m_host : Option Nat
  m_content_length : Int
  m_linger : Bool
  m_real_file : List Nat
  m_file_stat : Stat
  m_file_address : Option Nat
  munmap_calls : Nat
  m_write_buf : List Nat
  m_write_idx : Nat
  m_iv0 : IoVec
  m_iv1 : IoVec
  m_iv_count : Nat
  bytes_to_send : Int
  bytes_have_send : Int
  epoll_ev : Option EPOLL_EV
  deriving DecidableEq, Repr

/-- Zero `n` bytes of `buf` from its start (`bzero(buf, n)`), as far as they lie
inside `buf`. -/
def bzero (buf : List Nat) (n : Nat) : List Nat :=
  List.replicate (min n buf.length) 0 ++ buf.drop n

/-- Number of bytes `init()` zeroes starting at `m_write_buf`
(`bzero(m_write_buf, READ_BUFFER_SIZE)`). -/
def init_write_bzero_len : Nat := READ_BUFFER_SIZE

/-- The function `http_conn::init()`. The call `bzero(m_write_buf, READ_BUFFER_SIZE)`
runs `init_write_bzero_len - WRITE_BUFFER_SIZE` = 1024 bytes past the write buffer: it
clears the members declared after it (`m_write_idx`, `m_iv`, `m_iv_count`,
`bytes_to_send`, `bytes_have_send`, 56 bytes at most), so both segments of the
descriptor and the segment count are zero after `init()`; the bytes beyond the object
belong to the next connection of the table and are not part of this state. -/
def init (s : Conn) : Conn :=
  { s with
    m_check_state := CHECK_STATE_REQUESTLINE
    m_start_line := 0
    m_checked_idx := 0
    m_read_idx := 0
    m_method := GET
    m_url := none
    m_version := none
    m_linger := false
    m_read_buf := bzero s.m_read_buf READ_BUFFER_SIZE
    m_content_length := 0
    m_host := none
    m_write_idx := 0
    m_write_buf := bzero s.m_write_buf init_write_bzero_len
    m_iv0 := { base := 0, len := 0 }
    m_iv1 := { base := 0, len := 0 }
    m_iv_count := 0
    m_real_file := bzero s.m_real_file FILENAME_LEN
    bytes_to_send := 0
    bytes_have_send := 0 }

/-- The function `modfd(m_epollfd, m_sockfd, ev)`: registers interest `ev` (one-shot);
`epoll_ctl` fails without effect on a closed descriptor. -/
def modfd (s : Conn) (ev : EPOLL_EV) : Conn :=
  if s.m_sockfd = -1 then s else { s with epoll_ev := some ev }

/-- The function `http_conn::close_conn()`. -/
def close_conn (s : Conn) : Conn :=
  if s.m_sockfd ≠ -1 then
    { s with m_sockfd := -1, m_user_count := s.m_user_count - 1, epoll_ev := none }
  else s

/-- The function `http_conn::unmap()`. -/
def unmap (s : Conn) : Conn :=
  match s.m_file_address with
  | some _ => { s with m_file_address := none, munmap_calls := s.munmap_calls + 1 }
  | none => s

/-! ## Reading (http_conn::read) -/

/-- Result of one `recv` call: bytes delivered by the peer (an empty delivery is the
peer closing), `EAGAIN`/`EWOULDBLOCK`, or another error. -/
inductive RECV where
  | bytes (d : List Nat)
  | eagain
  | fail
  deriving DecidableEq, Repr

/-- The `while(true)` loop of `read()`, one `recv` result per iteration. `none`: the
list of results ended before the loop did. -/
def read_loop : List RECV → Conn → Option (Bool × Conn)
  | [], _ => none
  | RECV.fail :: _, s => some (false, s)
  | RECV.eagain :: _, s => some (true, s)
  | RECV.bytes d :: rs, s =>
    let got := d.take (READ_BUFFER_SIZE - s.m_read_idx)
    if got.length = 0 then some (false, s)
    else read_loop rs { s with
      m_read_buf := store s.m_read_buf s.m_read_idx got
      m_read_idx := s.m_read_idx + got.length }

/-- The function `http_conn::read()`. -/
def read (rs : List RECV) (s : Conn) : Option (Bool × Conn) :=
  if s.m_read_idx ≥ READ_BUFFER_SIZE then some (false, s) else read_loop rs s

/-! ## The line scanner (http_conn::parse_line) -/

/-- The `for` loop of `parse_line()`; `n` is the number of bytes still to scan,
`m_read_idx - m_checked_idx`. -/
def parse_line_scan : Nat → Conn → LINE_STATUS × Conn
  | 0, s => (LINE_OPEN, s)
  | n + 1, s =>
    if s.m_checked_idx < s.m_read_idx then
      let temp := s.m_read_buf.getD s.m_checked_idx 0
      if temp = 13 then
        if s.m_checked_idx + 1 = s.m_read_idx then (LINE_OPEN, s)
        else if s.m_read_buf.getD (s.m_checked_idx + 1) 0 = 10 then
          (LINE_OK, { s with
            m_read_buf := (s.m_read_buf.set s.m_checked_idx 0).set (s.m_checked_idx + 1) 0
            m_checked_idx := s.m_checked_idx + 2 })
        else (LINE_BAD, s)
      else if temp = 10 then
        if s.m_checked_idx > 1 ∧ s.m_read_buf.getD (s.m_checked_idx - 1) 0 = 13 then
          (LINE_OK, { s with
            m_read_buf := (s.m_read_buf.set (s.m_checked_idx - 1) 0).set s.m_checked_idx 0
            m_checked_idx := s.m_checked_idx + 1 })
        else (LINE_BAD, s)
      else parse_line_scan n { s with m_checked_idx := s.m_checked_idx + 1 }
    else (LINE_OPEN, s)

/-- The function `http_conn::parse_line()`. -/
def parse_line (s : Conn) : LINE_STATUS × Conn :=
  parse_line_scan (s.m_read_idx - s.m_checked_idx) s

/-! ## The request-line, header and body parsers -/

/-- Steps 3 and 4 of `parse_request_line`: an optional `http://host` is skipped, the
target must start with `/`, then the state moves to the headers. `u` is `m_url`. -/
def parse_request_target (s : Conn) (u : Nat) : HTTP_CODE × Conn :=
  let s4 :=
    if strncasecmp (cstr s.m_read_buf u) (B "http://") 7 = 0 then
      { s with m_url := strchr s.m_read_buf (u + 7) 47 }
    else s
  match s4.m_url with
  | none => (BAD_REQUEST, s4)
  | some w =>
    if s4.m_read_buf.getD w 0 ≠ 47 then (BAD_REQUEST, s4)
    else (NO_REQUEST, { s4 with m_check_state := CHECK_STATE_HEADER })

/-- Step 2 of `parse_request_line`: the target ends at the next space or tab, what
follows is the version. `u` is `m_url`. -/
def parse_request_version (s : Conn) (u : Nat) : HTTP_CODE × Conn :=
  match strpbrk s.m_read_buf u (B " \t") with
  | none => (BAD_REQUEST, { s with m_version := none })
  | some v =>
    let s3 := { s with m_read_buf := s.m_read_buf.set v 0, m_version := some (v + 1) }
    if strcasecmp (cstr s3.m_read_buf (v + 1)) (B "HTTP/1.1") ≠ 0 then (BAD_REQUEST, s3)
    else parse_request_target s3 u

/-- The function `http_conn::parse_request_line(text)`; `text` is an offset into the
read buffer. Step 1 (the method) is here, steps 2 to 4 in the two functions above. -/
def parse_request_line (s : Conn) (text : Nat) : HTTP_CODE × Conn :=
  match strpbrk s.m_read_buf text (B " \t") with
  | none => (BAD_REQUEST, { s with m_url := none })
  | some u =>
    let s1 := { s with m_read_buf := s.m_read_buf.set u 0, m_url := some (u + 1) }
    if strcasecmp (cstr s1.m_read_buf text) (B "GET") = 0 then
      parse_request_version { s1 with m_method := GET } (u + 1)
    else (BAD_REQUEST, s1)

/-- The function `http_conn::parse_headers(text)`. -/
def parse_headers (s : Conn) (text : Nat) : HTTP_CODE × Conn :=
  let line := cstr s.m_read_buf text
  if s.m_read_buf.getD text 0 = 0 then
    if s.m_content_length ≠ 0 then
      (NO_REQUEST, { s with m_check_state := CHECK_STATE_CONTENT })
    else (GET_REQUEST, s)
  else if strncasecmp line (B "Connection:") 11 = 0 then
    let v := line.drop 11
    let v := v.drop (strspn v (B " \t"))
    if strcasecmp v (B "keep-alive") = 0 then (NO_REQUEST, { s with m_linger := true })
    else (NO_REQUEST, s)
  else if strncasecmp line (B "Content-Length:") 15 = 0 then
    let v := line.drop 15
    let v := v.drop (strspn v (B " \t"))
    (NO_REQUEST, { s with m_content_length := to_int (atol v) })
  else if strncasecmp line (B "Host:") 5 = 0 then
    let v := line.drop 5
    (NO_REQUEST, { s with m_host := some (text + 5 + strspn v (B " \t")) })
  else (NO_REQUEST, s)

/-- The function `http_conn::parse_content(text)`. `none`: the behaviour is undefined,
because the `int` sum `m_content_length + m_checked_idx` overflows, or because the byte
`text[m_content_length]` that is cleared lies outside `m_read_buf` (before its start or
past its end). -/
def parse_content (s : Conn) (text : Nat) : Option (HTTP_CODE × Conn) :=
  if (2 : Int) ^ 31 ≤ s.m_content_length + (s.m_checked_idx : Int) then none
  else if (s.m_read_idx : Int) ≥ s.m_content_length + (s.m_checked_idx : Int) then
    if 0 ≤ (text : Int) + s.m_content_length ∧
        (text : Int) + s.m_content_length < (s.m_read_buf.length : Int) then
      some (GET_REQUEST, { s with
        m_read_buf := s.m_read_buf.set ((text : Int) + s.m_content_length).toNat 0 })
    else none
  else some (NO_REQUEST, s)

/-! ## Resource resolution (http_conn::do_request) -/

/-- Server root dir (`doc_root`). -/
def doc_root : List Nat := B "/home/yufei/code2025/resources"

/-- The permission bit `S_IROTH` of `<sys/stat.h>`. -/
def S_IROTH : Nat := 4

/-- The macro `S_ISDIR` of `<sys/stat.h>`: `(mode & S_IFMT) == S_IFDIR`. -/
def S_ISDIR (mode : Nat) : Bool := mode &&& 0o170000 == 0o040000

/-- The bytes `strncpy(dst, src, n)` writes: the string cut to `n` bytes, padded with
NUL bytes up to `n`. -/
def strncpy_bytes (src : List Nat) (n : Nat) : List Nat :=
  src.take n ++ List.replicate (n - src.length) 0

/-- The function `http_conn::do_request()`; `fs` is the `stat` oracle, from a path to
the metadata of the file there (`none`: `stat` fails). `open` and, for a file that is
not empty, `mmap` are taken to succeed; for an empty file `mmap` fails and
`m_file_address` is `MAP_FAILED`, written `some 0` (the result of `mmap` is not tested
and FILE_REQUEST is returned all the same). `none`: `m_url` is null (no path of
`process_read` calls `do_request` so). -/
def do_request (fs : List Nat → Option Stat) (s : Conn) : Option (HTTP_CODE × Conn) :=
  match s.m_url with
  | none => none
  | some u =>
    let len := doc_root.length
    let f1 := store s.m_real_file 0 (doc_root ++ [0])
    let f2 := store f1 len (strncpy_bytes (cstr s.m_read_buf u) (FILENAME_LEN - len - 1))
    let s1 := { s with m_real_file := f2 }
    match fs (cstr f2 0) with
    | none => some (NO_RESOURCE, s1)
    | some st =>
      let s2 := { s1 with m_file_stat := st }
      if st.st_mode &&& S_IROTH = 0 then some (FORBIDDEN_REQUEST, s2)
      else if S_ISDIR st.st_mode then some (BAD_REQUEST, s2)
      else some (FILE_REQUEST, { s2 with m_file_address := some st.st_size })

/-! ## The main state machine (http_conn::process_read) -/

/-- The loop condition of `process_read()`: the body state with a line already
accepted skips the scanner, otherwise `parse_line()` runs. The result is the new
`line_status`; the loop continues when it is LINE_OK. -/
def process_read_cond (ls : LINE_STATUS) (s : Conn) : LINE_STATUS × Conn :=
  if s.m_check_state = CHECK_STATE_CONTENT ∧ ls = LINE_OK then (ls, s) else parse_line s

/-- The loop body of `process_read()`: `inl r` is `return r` (`inl none`: the behaviour
is undefined), `inr (ls, s)` goes on to the next test of the loop condition with
`line_status = ls`. -/
def process_read_body (fs : List Nat → Option Stat) (s : Conn) :
    Option (HTTP_CODE × Conn) ⊕ (LINE_STATUS × Conn) :=
  let text := s.m_start_line
  let s1 := { s with m_start_line := s.m_checked_idx }
  match s1.m_check_state with
  | CHECK_STATE_REQUESTLINE =>
    let r := parse_request_line s1 text
    if r.1 = BAD_REQUEST then Sum.inl (some (BAD_REQUEST, r.2))
    else Sum.inr (LINE_OK, r.2)
  | CHECK_STATE_HEADER =>
    let r := parse_headers s1 text
    if r.1 = BAD_REQUEST then Sum.inl (some (BAD_REQUEST, r.2))
    else if r.1 = GET_REQUEST then Sum.inl (do_request fs r.2)
    else Sum.inr (LINE_OK, r.2)
  | CHECK_STATE_CONTENT =>
    match parse_content s1 text with
    | none => Sum.inl none
    | some r =>
      if r.1 = GET_REQUEST then Sum.inl (do_request fs r.2)
      else Sum.inr (LINE_OPEN, r.2)

/-- The `while` loop of `process_read()`; `ls` is the local `line_status`. One unit of
`fuel` is one test of the loop condition; `none`: out of fuel, or the behaviour of
`parse_content` or `do_request` is undefined. -/
def process_read_loop (fs : List Nat → Option Stat) :
    Nat → LINE_STATUS → Conn → Option (HTTP_CODE × Conn)
  | 0, _, _ => none
  | fuel + 1, ls, s =>
    let c := process_read_cond ls s
    if c.1 ≠ LINE_OK then some (NO_REQUEST, c.2)
    else
      match process_read_body fs c.2 with
      | Sum.inl r => r
      | Sum.inr n => process_read_loop fs fuel n.1 n.2

/-- The function `http_conn::process_read()`. Every pass of the loop that continues
consumes a byte, except one pass in the body state, so the fuel given is enough
(theorem `process_read_fuel`). -/
def process_read (fs : List Nat → Option Stat) (s : Conn) : Option (HTTP_CODE × Conn) :=
  process_read_loop fs (s.m_read_idx - s.m_checked_idx + 3) LINE_OK s

/-! ## The response builder (add_response, process_write) -/

def ok_200_title : List Nat := B "OK"
def error_400_title : List Nat := B "Bad Request"
def error_400_form : List Nat :=
  B "Your request has bad syntax or is inherently impossible to satisfy.\n"
def error_403_title : List Nat := B "Forbidden"
def error_403_form : List Nat :=
  B "You do not have permission to get file from this server.\n"
def error_404_title : List Nat := B "Not Found"
def error_404_form : List Nat := B "The requested file was not found on this server.\n"
def error_500_title : List Nat := B "Internal Error"
def error_500_form : List Nat :=
  B "There was an unusual problem serving the requested file.\n"

/-- The function `http_conn::add_response(format, ...)`; `out` is the text the format
and its arguments expand to. `vsnprintf` with size `cap` stores at most `cap - 1`
bytes of it and a NUL, and returns the full length of `out`. -/
def add_response (s : Conn) (out : List Nat) : Bool × Conn :=
  if s.m_write_idx ≥ WRITE_BUFFER_SIZE then (false, s)
  else
    let cap := WRITE_BUFFER_SIZE - 1 - s.m_write_idx
    let s1 :=
      if cap = 0 then s
      else { s with
        m_write_buf := store s.m_write_buf s.m_write_idx (out.take (cap - 1) ++ [0]) }
    if out.length ≥ cap then (false, s1)
    else (true, { s1 with m_write_idx := s.m_write_idx + out.length })

/-- The function `add_status_line(status, title)`: format `"%s %d %s\r\n"`. -/
def add_status_line (s : Conn) (status : Int) (title : List Nat) : Bool × Conn :=
  add_response s (B "HTTP/1.1" ++ B " " ++ fmt_d status ++ B " " ++ title ++ B "\r\n")

/-- The function `add_content_length(content_len)`: format `"Content-Length: %d\r\n"`. -/
def add_content_length (s : Conn) (content_len : Int) : Bool × Conn :=
  add_response s (B "Content-Length: " ++ fmt_d content_len ++ B "\r\n")

/-- The function `add_content_type()`: format `"Content-Type:%s\r\n"`. -/
def add_content_type (s : Conn) : Bool × Conn :=
  add_response s (B "Content-Type:" ++ B "text/html" ++ B "\r\n")

/-- The function `add_linger()`: format `"Connection: %s\r\n"`. -/
def add_linger (s : Conn) : Bool × Conn :=
  add_response s
    (B "Connection: " ++ (if s.m_linger = true then B "keep-alive" else B "close") ++ B "\r\n")

/-- The function `add_blank_line()`. -/
def add_blank_line (s : Conn) : Bool × Conn := add_response s (B "\r\n")

/-- The function `add_content(content)`. -/
def add_content (s : Conn) (content : List Nat) : Bool × Conn := add_response s content

/-- The statements of `add_headers(content_len)`: four calls whose results are
discarded. The argument is an `int`. The function is declared `bool` and has no
`return` statement; how the call ends is in `add_headers_call`. -/
def add_headers (s : Conn) (content_len : Int) : Conn :=
  let s1 := (add_content_length s content_len).2
  let s2 := (add_content_type s1).2
  let s3 := (add_linger s2).2
  (add_blank_line s3).2

/-- How a call of `add_headers` ends. Control flows off the end of a function that is
declared `bool` and has no `return` statement, and the C++ standard leaves the behaviour
undefined. `call_returns`: the call returns to `process_write`, which does not read
the value (g++ without optimisation); `call_undefined`: it does not return (g++ -O1
and -O2 emit no return instruction and no code after the call in `process_write`), and
nothing is defined from there on. -/
inductive BUILD where
  | call_returns | call_undefined
  deriving DecidableEq, Repr

/-- A call of `add_headers(content_len)` in the build `b`; `none`: undefined. -/
def add_headers_call (b : BUILD) (s : Conn) (content_len : Int) : Option Conn :=
  match b with
  | BUILD.call_returns => some (add_headers s content_len)
  | BUILD.call_undefined => none

/-- The common tail of `process_write` for the error responses. -/
def process_write_single (s : Conn) : Bool × Conn :=
  (true, { s with
    m_iv0 := { base := 0, len := s.m_write_idx }
    m_iv_count := 1
    bytes_to_send := s.m_write_idx })

/-- One error case of `process_write`: status line, headers, fixed body. -/
def process_write_error (s : Conn) (status : Int) (title form : List Nat) : Bool × Conn :=
  let s1 := (add_status_line s status title).2
  let s2 := add_headers s1 (to_int form.length)
  let r := add_content s2 form
  if r.1 = false then (false, r.2) else process_write_single r.2

/-- The function `http_conn::process_write(ret)` in a build in which the call of
`add_headers` returns (`BUILD.call_returns`); `process_write_in` has both builds. -/
def process_write (s : Conn) (ret : HTTP_CODE) : Bool × Conn :=
  match ret with
  | INTERNAL_ERROR => process_write_error s 500 error_500_title error_500_form
  | BAD_REQUEST => process_write_error s 400 error_400_title error_400_form
  | NO_RESOURCE => process_write_error s 404 error_404_title error_404_form
  | FORBIDDEN_REQUEST => process_write_error s 403 error_403_title error_403_form
  | FILE_REQUEST =>
    let s1 := (add_status_line s 200 ok_200_title).2
    let s2 := add_headers s1 (to_int s1.m_file_stat.st_size)
    (true, { s2 with
      m_iv0 := { base := 0, len := s2.m_write_idx }
      m_iv1 := { base := 0, len := s2.m_file_stat.st_size }
      m_iv_count := 2
      bytes_to_send := to_int ((s2.m_write_idx : Int) + (s2.m_file_stat.st_size : Int)) })
  | _ => (false, s)

/-- One error case of `process_write` in the build `b`; `none`: undefined. -/
def process_write_error_in (b : BUILD) (s : Conn) (status : Int) (title form : List Nat) :
    Option (Bool × Conn) :=
  let s1 := (add_status_line s status title).2
  match add_headers_call b s1 (to_int form.length) with
  | none => none
  | some s2 =>
    let r := add_content s2 form
    some (if r.1 = false then (false, r.2) else process_write_single r.2)

/-- The function `http_conn::process_write(ret)` in the build `b`; `none`: undefined
(the call of `add_headers` does not return). -/
def process_write_in (b : BUILD) (s : Conn) (ret : HTTP_CODE) : Option (Bool × Conn) :=
  match ret with
  | INTERNAL_ERROR => process_write_error_in b s 500 error_500_title error_500_form
  | BAD_REQUEST => process_write_error_in b s 400 error_400_title error_400_form
  | NO_RESOURCE => process_write_error_in b s 404 error_404_title error_404_form
  | FORBIDDEN_REQUEST => process_write_error_in b s 403 error_403_title error_403_form
  | FILE_REQUEST =>
    let s1 := (add_status_line s 200 ok_200_title).2
    match add_headers_call b s1 (to_int s1.m_file_stat.st_size) with
    | none => none
    | some s2 =>
      some (true, { s2 with
        m_iv0 := { base := 0, len := s2.m_write_idx }
        m_iv1 := { base := 0, len := s2.m_file_stat.st_size }
        m_iv_count := 2
        bytes_to_send := to_int ((s2.m_write_idx : Int) + (s2.m_file_stat.st_size : Int)) })
  | _ => some (false, s)

/-- The function `http_conn::process()` in a build in which the call of `add_headers`
returns. -/
def process (fs : List Nat → Option Stat) (s : Conn) : Option Conn :=
  match process_read fs s with
  | none => none
  | some (NO_REQUEST, s1) => some (modfd s1 EPOLLIN)
  | some (read_ret, s1) =>
    let w := process_write s1 read_ret
    let s2 := if w.1 = false then close_conn w.2 else w.2
    some (modfd s2 EPOLLOUT)

/-! ## Transmission (http_conn::write) -/

/-- Result of one `writev` call: the number of bytes accepted, `EAGAIN`, or another
error. -/
inductive WRITEV where
  | sent (n : Nat)
  | eagain
  | fail
  deriving DecidableEq, Repr

/-- The statements of `write()` between a `writev` that accepted `temp` bytes and the
completion test: the two counters and the descriptor are updated. -/
def write_sent (temp : Nat) (s : Conn) : Conn :=
  let s1 := { s with
    bytes_to_send := s.bytes_to_send - (temp : Int)
    bytes_have_send := s.bytes_have_send + (temp : Int) }
  if to_size_t s1.bytes_have_send ≥ s1.m_iv0.len then
    { s1 with
      m_iv0 := { s1.m_iv0 with len := 0 }
      m_iv1 := { base := s1.bytes_have_send - (s1.m_write_idx : Int)
                 len := to_size_t s1.bytes_to_send } }
  else
    { s1 with
      m_iv0 := { base := s1.bytes_have_send
                 len := to_size_t ((s1.m_iv0.len : Int) - (temp : Int)) } }

/-- The `while(1)` loop of `write()`, one `writev` result per iteration. Each pass
starts with `printf("%s", m_file_address)`: with `MAP_FAILED` (`some 0`) the pointer
cannot be read and the process is killed, before any `writev`; a null pointer is
printed as `(null)`; the text of a mapped file is not part of the state. `none`: the
process is killed, or the list of results ended before the loop did. -/
def write_loop : List WRITEV → Conn → Option (Bool × Conn)
  | [], _ => none
  | w :: ws, s =>
    if s.m_file_address = some 0 then none
    else
      match w with
      | WRITEV.eagain => some (true, modfd s EPOLLOUT)
      | WRITEV.fail => some (false, unmap s)
      | WRITEV.sent temp =>
        if (write_sent temp s).bytes_to_send ≤ (write_sent temp s).bytes_have_send then
          if (unmap (write_sent temp s)).m_linger = true then
            some (true, init (unmap (write_sent temp s)))
          else some (false, unmap (write_sent temp s))
        else write_loop ws (write_sent temp s)

/-- The function `http_conn::write()`; `ws` lists the results of the `writev` calls. -/
def write (ws : List WRITEV) (s : Conn) : Option (Bool × Conn) :=
  if s.bytes_to_send = 0 then some (true, init (modfd s EPOLLIN))
  else write_loop ws s

/-- Bytes offered to `writev` by the descriptor `m_iv`, `m_iv_count` segments. -/
def iv_offered (s : Conn) : Nat :=
  if s.m_iv_count = 0 then 0
  else if s.m_iv_count = 1 then s.m_iv0.len
  else s.m_iv0.len + s.m_iv1.len

/-! ## Well-formed and fresh connections -/

/-- The three buffers have their declared sizes. -/
def WF (s : Conn) : Prop :=
  s.m_read_buf.length = READ_BUFFER_SIZE ∧ s.m_write_buf.length = WRITE_BUFFER_SIZE ∧
    s.m_real_file.length = FILENAME_LEN

instance (s : Conn) : Decidable (WF s) := by unfold WF; infer_instance

/-- A connection object with every field zero: the element of the table `users`
before its first `init`. -/
def conn0 : Conn :=
  { m_user_count := 0, m_sockfd := 0
    m_read_buf := List.replicate READ_BUFFER_SIZE 0
    m_read_idx := 0, m_checked_idx := 0, m_start_line := 0
    m_check_state := CHECK_STATE_REQUESTLINE, m_method := GET
    m_url := none, m_version := none, m_host := none
    m_content_length := 0, m_linger := false
    m_real_file := List.replicate FILENAME_LEN 0
    m_file_stat := { st_mode := 0, st_size := 0 }
    m_file_address := none, munmap_calls := 0
    m_write_buf := List.replicate WRITE_BUFFER_SIZE 0
    m_write_idx := 0
    m_iv0 := { base := 0, len := 0 }, m_iv1 := { base := 0, len := 0 }
    m_iv_count := 0, bytes_to_send := 0, bytes_have_send := 0
    epoll_ev := none }

/-- The read event of the reactor for one delivery `chunk` (src/main.cpp, read event):
`read()` drains the socket, then the worker runs `process_read()`. -/
def read_event (fs : List Nat → Option Stat) (chunk : List Nat) (s : Conn) :
    Option (HTTP_CODE × Conn) :=
  match read [RECV.bytes chunk, RECV.eagain] s with
  | some (true, s1) => process_read fs s1
  | _ => none

/-- Deliver the chunks one read event at a time, stopping at the first result other
than `NO_REQUEST`. -/
def read_events (fs : List Nat → Option Stat) : List (List Nat) → Conn → Option (HTTP_CODE × Conn)
  | [], s => some (NO_REQUEST, s)
  | c :: cs, s =>
    match read_event fs c s with
    | some (NO_REQUEST, s1) => if cs = [] then some (NO_REQUEST, s1) else read_events fs cs s1
    | r => r

/-- A sample document tree: a world-readable regular file `/index.html` of 5 bytes, a
regular file `/secret.html` without the other-read bit, and the root directory. -/
def fs_sample (path : List Nat) : Option Stat :=
  if path = doc_root ++ B "/index.html" then some { st_mode := 0o100644, st_size := 5 }
  else if path = doc_root ++ B "/secret.html" then some { st_mode := 0o100640, st_size := 7 }
  else if path = doc_root ++ B "/" then some { st_mode := 0o040755, st_size := 4096 }
  else none

/-! ## Accepting a connection and the events of the reactor (src/http_conn.cpp, src/main.cpp) -/

/-- The function `addfd(m_epollfd, fd, one_shot)`: the descriptor is registered for read
readiness. -/
def addfd (s : Conn) : Conn := { s with epoll_ev := some EPOLLIN }

/-- The function `http_conn::init(int sockfd, const sockaddr_in & addr)`; the peer
address is not part of the state. -/
def init_sockfd (s : Conn) (sockfd : Int) : Conn :=
  let s1 := addfd { s with m_sockfd := sockfd }
  init { s1 with m_user_count := s1.m_user_count + 1 }

/-- One successful `recv` of the loop of `read()`: the bytes delivered, as far as the
room `READ_BUFFER_SIZE - m_read_idx` allows, are stored at the read cursor, which moves
past them. -/
def read_append (d : List Nat) (s : Conn) : Conn :=
  { s with
    m_read_buf := store s.m_read_buf s.m_read_idx (d.take (READ_BUFFER_SIZE - s.m_read_idx))
    m_read_idx := s.m_read_idx + (d.take (READ_BUFFER_SIZE - s.m_read_idx)).length }

/-- Delivery of a one-shot event (EPOLLONESHOT): the kernel disables the interest of the
descriptor until the next `modfd`. -/
def oneshot_fired (s : Conn) : Conn := { s with epoll_ev := none }

/-- The write event of the reactor (src/main.cpp): `write()` runs, and the connection
is closed when it returns false. -/
def write_event (ws : List WRITEV) (s : Conn) : Option Conn :=
  match write ws (oneshot_fired s) with
  | some (true, s1) => some s1
  | some (false, s1) => some (close_conn s1)
  | none => none

/-! ## The thread pool (src/threadpool.h) -/

/-- The data members of `threadpool<T>` that `append` reads and writes. A request (a
`T*`) is a `Nat`; `m_queuestat` is the count of the semaphore. The mutex
`m_queuelocker` is taken and released inside each operation and carries no state from
one call to the next. -/
structure threadpool where
  m_thread_number : Int
  m_max_requests : Int
  m_workqueue : List Nat
  m_queuestat : Nat
  m_stop : Bool
  deriving DecidableEq, Repr

/-- Modelled from the spec: the operation `post()` of the class `sem` (locker.h), the
counting signal of the task queue: it adds one to the count and never blocks. -/
def sem_post (count : Nat) : Nat := count + 1

/-- The constructor `threadpool(thread_number, max_requests)`; `none`: it throws. The
creation of the worker threads is taken to succeed. -/
def threadpool_ctor (thread_number max_requests : Int) : Option threadpool :=
  if thread_number ≤ 0 ∨ max_requests ≤ 0 then none
  else some
    { m_thread_number := thread_number, m_max_requests := max_requests
      m_workqueue := [], m_queuestat := 0, m_stop := false }

/-- The function `threadpool<T>::append(request)`. The test compares the unsigned
`size()` with `m_max_requests` converted to unsigned. -/
def append (p : threadpool) (request : Nat) : Bool × threadpool :=
  if p.m_workqueue.length > to_size_t p.m_max_requests then (false, p)
  else (true, { p with
    m_workqueue := p.m_workqueue ++ [request]
    m_queuestat := sem_post p.m_queuestat })

/-! ## Notions used to state the properties -/

/-- The method token of a request line: the text before the first space or tab. -/
def method_token (line : List Nat) : List Nat :=
  line.takeWhile (fun c => !(B " \t").contains c)

/-- Two byte strings are equal up to the case of ASCII letters. -/
def eq_ignore_case (a b : List Nat) : Prop := a.map tolower = b.map tolower

instance (a b : List Nat) : Decidable (eq_ignore_case a b) := by
  unfold eq_ignore_case; infer_instance

/-- The target with a leading `http://` (any letter case) removed together with
everything up to the next `/`. -/
def strip_http (target : List Nat) : List Nat :=
  if eq_ignore_case (target.take 7) (B "http://") then
    (target.drop 7).dropWhile (fun c => c != 47)
  else target

/-- The state in which `process_read` hands the first line of the delivery `req` to
`parse_request_line`: `req` read into a reset connection and scanned by `parse_line`. -/
def first_line_state (req : List Nat) : Conn :=
  match read [RECV.bytes req, RECV.eagain] (init conn0) with
  | some (_, s) => (parse_line s).2
  | none => init conn0

/-- The path `do_request` resolves a target to: the server root followed by the target,
the target cut to the room left in `m_real_file`. -/
def resolved_path (target : List Nat) : List Nat :=
  doc_root ++ target.take (FILENAME_LEN - doc_root.length - 1)

/-- A line as the parser sees it once `parse_line` has cleared its terminator: the
bytes before the first NUL. -/
def c_line (l : List Nat) : List Nat := l.takeWhile (fun c => c != 0)

/-- What the builder of an error response reads of the connection. -/
def out_view (s : Conn) : List Nat × Nat × Bool := (s.m_write_buf, s.m_write_idx, s.m_linger)

/-- What `process_write` hands to `write()`: the buffer, its fill, the first segment,
the segment count and the byte total. -/
def resp_view (s : Conn) : List Nat × Nat × IoVec × Nat × Int :=
  (s.m_write_buf, s.m_write_idx, s.m_iv0, s.m_iv_count, s.bytes_to_send)

/-- The error response for `status`: status line, header block of a connection that is
not kept alive, blank line, then the fixed body `form`. -/
def error_response (status : Nat) (title form : List Nat) : List Nat :=
  B "HTTP/1.1 " ++ B (toString status) ++ B " " ++ title ++ B "\r\n" ++
  B "Content-Length: " ++ B (toString form.length) ++ B "\r\n" ++
  B "Content-Type:text/html\r\n" ++ B "Connection: close\r\n" ++ B "\r\n" ++ form

/-- The header block of the 200 response for a file of `n` bytes on a connection that
is not kept alive. -/
def file_header (n : Nat) : List Nat :=
  B "HTTP/1.1 200 OK\r\nContent-Length: " ++ B (toString n) ++
  B "\r\nContent-Type:text/html\r\nConnection: close\r\n\r\n"

/-- The result `r` of `process_write` is the error response for `status`: success, the
bytes of `error_response` in the write buffer, and a single segment covering them whose
length is both `m_write_idx` and `bytes_to_send`. -/
def is_error_response (r : Bool × Conn) (status : Nat) (title form : List Nat) : Prop :=
  r.1 = true ∧
  r.2.m_write_buf.take r.2.m_write_idx = error_response status title form ∧
  r.2.m_iv_count = 1 ∧ r.2.m_iv0 = { base := 0, len := r.2.m_write_idx } ∧
  r.2.bytes_to_send = (r.2.m_write_idx : Int)

instance (r : Bool × Conn) (status : Nat) (title form : List Nat) :
    Decidable (is_error_response r status title form) := by
  unfold is_error_response; infer_instance

/-- The state after the request line of the delivery `req` is parsed. -/
def request_line_state (req : List Nat) : Conn :=
  (parse_request_line (first_line_state req) 0).2

/-- A target of 170 bytes: `/` followed by 169 letters `a`. -/
def long_target : List Nat := 47 :: List.replicate 169 97

/-- The header line `line` asks to keep the connection: its name is `Connection` (any
letter case), and the value, after spaces and tabs, is `keep-alive` up to letter case. -/
def header_linger (line : List Nat) : Bool :=
  decide (eq_ignore_case (line.take 11) (B "Connection:") ∧
    eq_ignore_case ((line.drop 11).dropWhile (fun c => (B " \t").contains c)) (B "keep-alive"))

/-- The declared body length after the header line `line`, `old` before it: a line
named `Content-Length` (any letter case) sets it to the value read by `atol`, stored
in an `int`. -/
def header_length (line : List Nat) (old : Int) : Int :=
  if eq_ignore_case (line.take 11) (B "Connection:") then old
  else if eq_ignore_case (line.take 15) (B "Content-Length:") then
    to_int (atol ((line.drop 15).dropWhile (fun c => (B " \t").contains c)))
  else old

/-- The header lines `hs`, each followed by CR LF, followed by `rest`. -/
def header_block (hs : List (List Nat)) (rest : List Nat) : List Nat :=
  match hs with
  | [] => rest
  | l :: ls => l ++ 13 :: 10 :: header_block ls rest

/-- Some header line of `hs` asks to keep the connection. -/
def headers_linger (hs : List (List Nat)) : Bool := hs.any (fun l => header_linger (c_line l))

/-- The declared body length after the header lines `hs`, `old` before them. -/
def headers_length (hs : List (List Nat)) (old : Int) : Int :=
  hs.foldl (fun cl l => header_length (c_line l) cl) old

/-- A header line as `parse_line` delimits it and `parse_headers` takes it for a
header: no CR or LF inside, and a first byte that is not NUL. -/
def header_line_ok (l : List Nat) : Prop := (∀ c ∈ l, c ≠ 13 ∧ c ≠ 10) ∧ l.headD 0 ≠ 0

instance (l : List Nat) : Decidable (header_line_ok l) := by
  unfold header_line_ok; infer_instance

/-- A document tree whose only file is at the path of `long_target` cut to 169 bytes. -/
def fs_cut (path : List Nat) : Option Stat :=
  if path = doc_root ++ long_target.take 169 then some { st_mode := 0o100644, st_size := 5 }
  else none

/-- A document tree whose only file is at the server root followed by the whole of
`long_target`: world-readable, regular, 5 bytes. -/
def fs_long (path : List Nat) : Option Stat :=
  if path = doc_root ++ long_target then some { st_mode := 0o100644, st_size := 5 } else none

/-- A document tree with a world-readable regular file `/index.html` of 2^31 bytes. -/
def fs_big (path : List Nat) : Option Stat :=
  if path = doc_root ++ B "/index.html" then some { st_mode := 0o100644, st_size := 2147483648 }
  else none

/-- A document tree with a world-readable regular file whose name is `/a`, a NUL byte,
`b`. -/
def fs_nul (path : List Nat) : Option Stat :=
  if path = doc_root ++ [47, 97, 0, 98] then some { st_mode := 0o100644, st_size := 5 } else none

/-- Bound on the number of further passes of the loop of `process_read()` that
continue: one per unscanned byte, and one more while the body state can still skip
the scanner. -/
def loop_bound (ls : LINE_STATUS) (s : Conn) : Nat :=
  s.m_read_idx - s.m_checked_idx +
    (if s.m_check_state = CHECK_STATE_CONTENT ∧ ls ≠ LINE_OK then 0 else 1)

/-- A sequence of `append` calls with no worker running: the results in order, and the
pool after the last call. -/
def append_all : threadpool → List Nat → List Bool × threadpool
  | p, [] => ([], p)
  | p, r :: rs => ((append p r).1 :: (append_all (append p r).2 rs).1,
      (append_all (append p r).2 rs).2)

/-- A document tree with a world-readable regular file `/index.html` of 1000 bytes. -/
def fs_page (path : List Nat) : Option Stat :=
  if path = doc_root ++ B "/index.html" then some { st_mode := 0o100644, st_size := 1000 }
  else none

/-- The cursor invariant of the read buffer: line start, parse cursor, read cursor and
the capacity, in this order. -/
def cursors_ok (s : Conn) : Prop :=
  s.m_start_line ≤ s.m_checked_idx ∧ s.m_checked_idx ≤ s.m_read_idx ∧
    s.m_read_idx ≤ READ_BUFFER_SIZE

instance (s : Conn) : Decidable (cursors_ok s) := by unfold cursors_ok; infer_instance

/-- The states reachable from `init()` by read steps (one `recv`, or a whole call of
`read()`) and calls of `parse_line()` and `process_read()`, in any order. With
`loop_body`, a pass of the loop body of `process_read()` that goes on to the next test
of the loop condition, the states inside a call of `process_read()` are reachable too. -/
inductive Reachable : Conn → Prop where
  | init (s0 : Conn) : Reachable (init s0)
  | recv (d : List Nat) (s : Conn) : Reachable s → Reachable (read_append d s)
  | read (rs : List RECV) (s : Conn) (r : Bool × Conn) :
      Reachable s → read rs s = some r → Reachable r.2
  | parse_line (s : Conn) : Reachable s → Reachable (parse_line s).2
  | loop_body (fs : List Nat → Option Stat) (s : Conn) (n : LINE_STATUS × Conn) :
      Reachable s → process_read_body fs s = Sum.inr n → Reachable n.2
  | process_read (fs : List Nat → Option Stat) (s : Conn) (r : HTTP_CODE × Conn) :
      Reachable s → process_read fs s = some r → Reachable r.2

/-- The run of C12: a connection accepted on socket 5 receives `GET /index.html`, the
response is built, and `writev` accepts 10 bytes and then would block. -/
def unfinished_run : Option (Bool × Conn) :=
  (read_event fs_sample (B "GET /index.html HTTP/1.1\r\n\r\n") (init_sockfd conn0 5)).bind
    (fun r => write [WRITEV.sent 10, WRITEV.eagain] (process_write r.2 r.1).2)

/-- The run of C13: `GET /index.html` on the tree `fs_page`, the response built, then
`write()` with the `writev` results `ws`; with no result, the state `write()` starts
from. -/
def page_run (ws : List WRITEV) : Option (Bool × Conn) :=
  (read_event fs_page (B "GET /index.html HTTP/1.1\r\n\r\n") (init conn0)).bind
    (fun r => if ws = [] then some (true, (process_write r.2 r.1).2)
      else write ws (process_write r.2 r.1).2)

/-- The run of C14: a connection accepted on socket 5, the read event with
`GET /index.html` and `Connection: keep-alive`, then `process()`. -/
def keep_alive_run : Option Conn :=
  (read [RECV.bytes (B "GET /index.html HTTP/1.1\r\nConnection: keep-alive\r\n\r\n"),
      RECV.eagain] (oneshot_fired (init_sockfd conn0 5))).bind
    (fun r => process fs_sample r.2)

/-- A document tree with an empty world-readable regular file `/empty.html`. -/
def fs_empty (path : List Nat) : Option Stat :=
  if path = doc_root ++ B "/empty.html" then some { st_mode := 0o100644, st_size := 0 }
  else none

/-- The line that a pass of the loop body of `process_read()` in state `s` hands to
`parse_headers` is a header line `Connection: keep-alive` (up to letter case). -/
def pass_linger (s : Conn) : Bool :=
  decide (s.m_check_state = CHECK_STATE_HEADER) &&
    header_linger (cstr s.m_read_buf s.m_start_line)

/-- The course of a connection from a reset on: `Serving s ka` says that the state `s`
is reached from `init()` by reads, calls of `parse_line()`, passes of the loop body of
`process_read()` (so by whole calls of `process_read()` too), `process_write` in either
build, `modfd`, the firing of a one-shot event and accounted `writev` results, in any
order and for whatever bytes arrive in whatever deliveries; and `ka` says whether one
of the lines handed to `parse_headers` since the reset was a header line
`Connection: keep-alive`. -/
inductive Serving : Conn → Bool → Prop where
  | init (s0 : Conn) : Serving (init s0) false
  | recv (d : List Nat) (s : Conn) (ka : Bool) : Serving s ka → Serving (read_append d s) ka
  | read (rs : List RECV) (s : Conn) (r : Bool × Conn) (ka : Bool) :
      Serving s ka → read rs s = some r → Serving r.2 ka
  | parse_line (s : Conn) (ka : Bool) : Serving s ka → Serving (parse_line s).2 ka
  | loop_body (fs : List Nat → Option Stat) (s : Conn) (n : LINE_STATUS × Conn) (ka : Bool) :
      Serving s ka → process_read_body fs s = Sum.inr n → Serving n.2 (ka || pass_linger s)
  | loop_return (fs : List Nat → Option Stat) (s : Conn) (r : HTTP_CODE × Conn) (ka : Bool) :
      Serving s ka → process_read_body fs s = Sum.inl (some r) →
      Serving r.2 (ka || pass_linger s)
  | process_write (b : BUILD) (s : Conn) (code : HTTP_CODE) (r : Bool × Conn) (ka : Bool) :
      Serving s ka → process_write_in b s code = some r → Serving r.2 ka
  | modfd (s : Conn) (ev : EPOLL_EV) (ka : Bool) : Serving s ka → Serving (modfd s ev) ka
  | fired (s : Conn) (ka : Bool) : Serving s ka → Serving (oneshot_fired s) ka
  | sent (temp : Nat) (s : Conn) (ka : Bool) : Serving s ka → Serving (write_sent temp s) ka

/-- The request `GET /index.html` with `Connection: keep-alive`, delivered in two reads
cut inside the header line, as `process_read` leaves it. -/
def two_reads : HTTP_CODE × Conn :=
  (read_events fs_sample
    [B "GET /index.html HTTP/1.1\r\nConnec", B "tion: keep-alive\r\n\r\n"] (init conn0)).getD
    (NO_REQUEST, init conn0)

/-! # Theorems -/

/-! ## Lemmas on buffers and C strings -/

theorem set_at (l1 l2 : List Nat) (c v i : Nat) (h : i = l1.length) :
    (l1 ++ c :: l2).set i v = l1 ++ v :: l2 := by
  subst h
  induction l1 with
  | nil => rfl
  | cons a l ih => simp [List.set, ih]

theorem getD_at (l1 l2 : List Nat) (c d i : Nat) (h : i = l1.length) :
    (l1 ++ c :: l2).getD i d = c := by
  subst h
  induction l1 with
  | nil => rfl
  | cons a l ih => simpa using ih

theorem drop_at (l1 l2 : List Nat) (i : Nat) (h : i = l1.length) :
    (l1 ++ l2).drop i = l2 := by
  subst h; simp

theorem takeWhile_nz_append (a tl : List Nat) (ha : ∀ c ∈ a, c ≠ 0)
    (ht : tl.takeWhile (fun c => c != 0) = []) :
    (a ++ tl).takeWhile (fun c => c != 0) = a := by
  induction a with
  | nil => simpa using ht
  | cons x xs ih =>
    have hx : x ≠ 0 := ha x (by simp)
    have hx' : (x != 0) = true := by simpa using hx
    rw [List.cons_append, List.takeWhile_cons, hx']
    simp only [if_true]
    rw [ih (fun c hc => ha c (by simp [hc]))]

theorem cstr_at (l1 a tl : List Nat) (i : Nat) (h : i = l1.length) (ha : ∀ c ∈ a, c ≠ 0)
    (ht : tl.takeWhile (fun c => c != 0) = []) :
    cstr (l1 ++ (a ++ tl)) i = a := by
  unfold cstr
  rw [drop_at _ _ _ h]
  exact takeWhile_nz_append a tl ha ht

theorem cstr_nz (buf : List Nat) (p : Nat) : ∀ c ∈ cstr buf p, c ≠ 0 := by
  intro c hc
  have := List.mem_takeWhile_imp hc
  simpa using this

/-- A buffer splits around the C string at `p`. -/
theorem cstr_split (buf : List Nat) (p : Nat) (h : cstr buf p ≠ []) :
    ∃ tl, buf = buf.take p ++ (cstr buf p ++ tl) ∧ (buf.take p).length = p ∧
      tl.takeWhile (fun c => c != 0) = [] := by
  refine ⟨(buf.drop p).dropWhile (fun c => c != 0), ?_, ?_, ?_⟩
  · unfold cstr
    rw [List.takeWhile_append_dropWhile, List.take_append_drop]
  · have : p < buf.length := by
      by_contra hlt
      apply h
      unfold cstr
      rw [List.drop_of_length_le (by omega)]
      rfl
    simp; omega
  · generalize (buf.drop p) = l
    induction l with
    | nil => rfl
    | cons x xs ih =>
      by_cases hx : x = 0
      · subst hx
        rfl
      · have hx' : (x != 0) = true := by simpa using hx
        rw [List.dropWhile_cons, hx']
        exact ih

theorem find_first_append (p : Nat → Bool) (a : List Nat) (c : Nat) (b : List Nat)
    (ha : ∀ x ∈ a, p x = false) (hc : p c = true) :
    find_first p (a ++ c :: b) = some a.length := by
  induction a with
  | nil => simp [find_first, hc]
  | cons x xs ih =>
    have hx : p x = false := ha x (by simp)
    simp [find_first, hx, ih (fun y hy => ha y (by simp [hy]))]

theorem find_first_none (p : Nat → Bool) (a : List Nat) (ha : ∀ x ∈ a, p x = false) :
    find_first p a = none := by
  induction a with
  | nil => rfl
  | cons x xs ih =>
    have hx : p x = false := ha x (by simp)
    simp [find_first, hx, ih (fun y hy => ha y (by simp [hy]))]

/-- What `find_first` finds: the list splits at the first element satisfying `p`. -/
theorem find_first_split (p : Nat → Bool) (l : List Nat) :
    (find_first p l = none ∧ ∀ x ∈ l, p x = false) ∨
    ∃ a c b, l = a ++ c :: b ∧ (∀ x ∈ a, p x = false) ∧ p c = true ∧
      find_first p l = some a.length := by
  induction l with
  | nil => left; simp [find_first]
  | cons x xs ih =>
    by_cases hx : p x = true
    · right
      exact ⟨[], x, xs, rfl, by simp, hx, by simp [find_first, hx]⟩
    · have hx' : p x = false := by simpa using hx
      rcases ih with ⟨h1, h2⟩ | ⟨a, c, b, h1, h2, h3, h4⟩
      · left
        refine ⟨by simp [find_first, hx', h1], ?_⟩
        intro y hy
        rcases List.mem_cons.mp hy with rfl | hy
        · exact hx'
        · exact h2 y hy
      · right
        refine ⟨x :: a, c, b, by simp [h1], ?_, h3, by simp [find_first, hx', h4]⟩
        intro y hy
        rcases List.mem_cons.mp hy with rfl | hy
        · exact hx'
        · exact h2 y hy

theorem tolower_ne_zero (c : Nat) (h : c ≠ 0) : tolower c ≠ 0 := by
  unfold tolower; split <;> omega

/-- On strings without NUL bytes `strcasecmp` returns 0 exactly when the two strings
are equal up to letter case. -/
theorem strcasecmp_eq_zero (a b : List Nat) (ha : ∀ c ∈ a, c ≠ 0) (hb : ∀ c ∈ b, c ≠ 0) :
    strcasecmp a b = 0 ↔ a.map tolower = b.map tolower := by
  induction a generalizing b with
  | nil =>
    cases b with
    | nil => simp [strcasecmp]
    | cons y ys =>
      have := tolower_ne_zero y (hb y (by simp))
      simp [strcasecmp]; omega
  | cons x xs ih =>
    cases b with
    | nil =>
      have := tolower_ne_zero x (ha x (by simp))
      simp [strcasecmp]; omega
    | cons y ys =>
      have ih' := ih ys (fun c hc => ha c (by simp [hc])) (fun c hc => hb c (by simp [hc]))
      by_cases hxy : tolower x = tolower y
      · simp [strcasecmp, hxy, ih']
      · simp [strcasecmp, hxy]; omega

theorem takeWhile_not_append (p : Nat → Bool) (a : List Nat) (c : Nat) (b : List Nat)
    (ha : ∀ x ∈ a, p x = false) (hc : p c = true) :
    (a ++ c :: b).takeWhile (fun x => !p x) = a := by
  induction a with
  | nil => simp [List.takeWhile_cons, hc]
  | cons x xs ih =>
    have hx : p x = false := ha x (by simp)
    rw [List.cons_append, List.takeWhile_cons]
    simp only [hx, Bool.not_false, if_true]
    rw [ih (fun y hy => ha y (by simp [hy]))]

theorem takeWhile_not_all (p : Nat → Bool) (a : List Nat) (ha : ∀ x ∈ a, p x = false) :
    a.takeWhile (fun x => !p x) = a := by
  induction a with
  | nil => rfl
  | cons x xs ih =>
    have hx : p x = false := ha x (by simp)
    rw [List.takeWhile_cons]
    simp only [hx, Bool.not_false, if_true]
    rw [ih (fun y hy => ha y (by simp [hy]))]

/-- Clearing the byte at position `a.length` of the C string `a ++ c :: b` at `p`
leaves the C string `a` at `p` and the C string `b` right after the cleared byte. -/
theorem cstr_cut (buf : List Nat) (p : Nat) (a : List Nat) (c : Nat) (b : List Nat)
    (h : cstr buf p = a ++ c :: b) :
    ∃ pre tl, pre.length = p ∧ tl.takeWhile (fun x => x != 0) = [] ∧
      buf = pre ++ (a ++ c :: (b ++ tl)) ∧
      buf.set (p + a.length) 0 = pre ++ (a ++ 0 :: (b ++ tl)) := by
  obtain ⟨tl, h1, h2, h3⟩ := cstr_split buf p (by rw [h]; simp)
  rw [h] at h1
  refine ⟨buf.take p, tl, h2, h3, by simpa using h1, ?_⟩
  have e : buf.set (p + a.length) 0 =
      ((buf.take p ++ a) ++ c :: (b ++ tl)).set (p + a.length) 0 := by
    congr 1
    simpa using h1
  rw [e, set_at _ _ _ _ _ (by simp [h2])]
  simp

theorem B_sp_tab : B " \t" = [32, 9] := by decide
theorem B_GET : B "GET" = [71, 69, 84] := by decide



/-! ## C1: a body delivered in two reads is not recognised as complete -/

/-- C1 (failing input). The request `GET /index.html` with `Content-Length: 2` and
body `ab`: delivered in one read, `process_read` returns FILE_REQUEST; delivered with
a cut inside the body (`...a` then `b`), every `process_read` returns NO_REQUEST and
the request is never completed, although the same bytes are in the buffer. -/
theorem C1_body_cut_not_resumed :
    (read_events fs_sample
        [B "GET /index.html HTTP/1.1\r\nContent-Length: 2\r\n\r\nab"] (init conn0)).map
        (fun r => (r.1, r.2.m_check_state, r.2.m_read_idx))
      = some (FILE_REQUEST, CHECK_STATE_CONTENT, 49) ∧
    (read_events fs_sample
        [B "GET /index.html HTTP/1.1\r\nContent-Length: 2\r\n\r\na", B "b"] (init conn0)).map
        (fun r => (r.1, r.2.m_check_state, r.2.m_read_idx))
      = some (NO_REQUEST, CHECK_STATE_CONTENT, 49) := by
  decide!

/-! ## C2: a malformed line is reported as an incomplete request -/

/-- Whenever the line scanner reports anything but LINE_OK at the first test of the loop
condition (LINE_BAD included), `process_read` returns NO_REQUEST. -/
theorem process_read_line_not_ok (fs : List Nat → Option Stat) (s : Conn)
    (hs : s.m_check_state ≠ CHECK_STATE_CONTENT) (h : (parse_line s).1 ≠ LINE_OK) :
    process_read fs s = some (NO_REQUEST, (parse_line s).2) := by
  simp [process_read, process_read_loop, process_read_cond, hs, h]

/-- C2 (failing input). A header line ended by a bare `\n`: after the request line the
scanner reports LINE_BAD, yet `process_read` returns NO_REQUEST, and `process()` only
re-arms the socket for reading: no byte of a 400 response is built. -/
theorem C2_bare_lf_gives_no_request :
    (read_event fs_sample (B "GET /index.html HTTP/1.1\r\nHost: x\n\r\n") (init conn0)).map
        (fun r => (r.1, (parse_line { r.2 with m_checked_idx := r.2.m_start_line }).1))
      = some (NO_REQUEST, LINE_BAD) ∧
    ((read [RECV.bytes (B "GET /index.html HTTP/1.1\r\nHost: x\n\r\n"), RECV.eagain]
        (init conn0)).bind (fun r => process fs_sample r.2)).map
        (fun s => (s.epoll_ev, s.m_write_idx, s.bytes_to_send))
      = some (some EPOLLIN, 0, 0) := by
  decide!

/-! ## C3: transmission is declared complete with bytes unsent -/

/-- C3 (failing input). The 404 response has 138 bytes. When the first `writev` accepts
100 of them, `write()` takes the completion branch and returns false (the reactor
closes the connection) with `bytes_to_send` = 38 bytes never sent. -/
theorem C3_write_completes_early :
    (process_write (init conn0) NO_RESOURCE).2.bytes_to_send = 138 ∧
    (write [WRITEV.sent 100] (process_write (init conn0) NO_RESOURCE).2).map
        (fun r => (r.1, r.2.bytes_to_send, r.2.bytes_have_send)) = some (false, 38, 100) := by
  decide!

/-! ## C7: the method token -/

/-- A method token that is not GET up to letter case is rejected, the main state kept. -/
theorem parse_request_line_not_get (s : Conn) (text : Nat)
    (h : ¬ eq_ignore_case (method_token (cstr s.m_read_buf text)) (B "GET")) :
    (parse_request_line s text).1 = BAD_REQUEST ∧
      (parse_request_line s text).2.m_check_state = s.m_check_state := by
  unfold parse_request_line strpbrk
  rcases find_first_split (fun c => (B " \t").contains c) (cstr s.m_read_buf text) with
    ⟨h1, _⟩ | ⟨a, c, b, h1, h2, h3, h4⟩
  · rw [h1]
    simp
  · rw [h4]
    obtain ⟨pre, tl, hp, ht, _, hset⟩ := cstr_cut _ _ _ _ _ h1
    have hnz : ∀ x ∈ a, x ≠ 0 := fun x hx =>
      cstr_nz s.m_read_buf text x (by rw [h1]; simp [hx])
    have hcs : cstr (s.m_read_buf.set (text + a.length) 0) text = a := by
      rw [hset]
      exact cstr_at pre a _ text hp.symm hnz (by simp [List.takeWhile_cons])
    have htok : method_token (cstr s.m_read_buf text) = a := by
      rw [h1]
      exact takeWhile_not_append _ a c b h2 h3
    have hne : strcasecmp a (B "GET") ≠ 0 := by
      intro h0
      apply h
      rw [htok]
      exact (strcasecmp_eq_zero a (B "GET") hnz (by decide)).mp h0
    simp [hcs, hne]

/-- C7 (amended). For every request line (the C string at `text`), if its method token
is not GET up to letter case, `parse_request_line` returns BAD_REQUEST and leaves the
main state as it was. -/
theorem C7_method_not_get (s : Conn) (text : Nat)
    (h : ¬ eq_ignore_case (method_token (cstr s.m_read_buf text)) (B "GET")) :
    (parse_request_line s text).1 = BAD_REQUEST ∧
      (parse_request_line s text).2.m_check_state = s.m_check_state := by
  have hres := parse_request_line_not_get s text h
  exact ⟨hres.1, hres.2⟩

/-- C7 (counterexample). The request line `get / HTTP/1.1`: its method token `get` is a
string other than `GET`, and `parse_request_line` returns NO_REQUEST and moves to the
header state. -/
theorem C7_lowercase_get_accepted :
    method_token (cstr (first_line_state (B "get / HTTP/1.1\r\n")).m_read_buf 0) = B "get" ∧
    B "get" ≠ B "GET" ∧
    (parse_request_line (first_line_state (B "get / HTTP/1.1\r\n")) 0).1 = NO_REQUEST ∧
    (parse_request_line (first_line_state (B "get / HTTP/1.1\r\n")) 0).2.m_check_state
      = CHECK_STATE_HEADER := by
  decide!

/-- C7 (witness): the request line `PUT /index.html HTTP/1.1`. -/
theorem C7_method_not_get_witness :
    ¬ eq_ignore_case
        (method_token (cstr (first_line_state (B "PUT /index.html HTTP/1.1\r\n")).m_read_buf 0))
        (B "GET") ∧
    (parse_request_line (first_line_state (B "PUT /index.html HTTP/1.1\r\n")) 0).1
      = BAD_REQUEST ∧
    (parse_request_line (first_line_state (B "PUT /index.html HTTP/1.1\r\n")) 0).2.m_check_state
      = (first_line_state (B "PUT /index.html HTTP/1.1\r\n")).m_check_state :=
  ⟨by decide!, C7_method_not_get _ 0 (by decide!)⟩

/-! ## C8: target and version of the request line -/

theorem getD_ends (pre tl : List Nat) (i : Nat) (h : i = pre.length)
    (ht : tl.takeWhile (fun c => c != 0) = []) : (pre ++ tl).getD i 0 = 0 := by
  subst h
  cases tl with
  | nil => simp [List.getD]
  | cons x xs =>
    rw [getD_at _ _ _ _ _ rfl]
    by_contra hx
    have hx' : (x != 0) = true := by simpa using hx
    rw [List.takeWhile_cons, hx'] at ht
    simp at ht

theorem strncasecmp_http (target : List Nat) (ht : ∀ c ∈ target, c ≠ 0) :
    strncasecmp target (B "http://") 7 = 0 ↔ eq_ignore_case (target.take 7) (B "http://") := by
  unfold strncasecmp eq_ignore_case
  have e : (B "http://").take 7 = B "http://" := by decide
  rw [e]
  exact strcasecmp_eq_zero _ _ (fun c hc => ht c (List.mem_of_mem_take hc)) (by decide)

theorem dropWhile_ne_all (a : List Nat) (ch : Nat) (ha : ∀ x ∈ a, (x == ch) = false) :
    a.dropWhile (fun c => c != ch) = [] := by
  induction a with
  | nil => rfl
  | cons x xs ih =>
    have hx : (x == ch) = false := ha x (by simp)
    have hx' : (x != ch) = true := by simp [bne, hx]
    rw [List.dropWhile_cons, hx']
    exact ih (fun y hy => ha y (by simp [hy]))

theorem dropWhile_ne_append (a : List Nat) (ch : Nat) (b : List Nat)
    (ha : ∀ x ∈ a, (x == ch) = false) :
    (a ++ ch :: b).dropWhile (fun c => c != ch) = ch :: b := by
  induction a with
  | nil => simp [List.dropWhile_cons]
  | cons x xs ih =>
    have hx : (x == ch) = false := ha x (by simp)
    have hx' : (x != ch) = true := by simp [bne, hx]
    rw [List.cons_append, List.dropWhile_cons, hx']
    exact ih (fun y hy => ha y (by simp [hy]))

/-- Steps 3 and 4 on a buffer holding the C string `target` at `u`. -/
theorem parse_request_target_spec (s : Conn) (u : Nat) (pre target tl : List Nat)
    (hb : s.m_read_buf = pre ++ (target ++ tl)) (hu : u = pre.length)
    (hnz : ∀ c ∈ target, c ≠ 0) (htl : tl.takeWhile (fun c => c != 0) = [])
    (hurl : s.m_url = some u) :
    ((strip_http target).head? = some 47 →
      (parse_request_target s u).1 = NO_REQUEST ∧
      (parse_request_target s u).2.m_check_state = CHECK_STATE_HEADER ∧
      ∃ w, (parse_request_target s u).2.m_url = some w ∧
        cstr (parse_request_target s u).2.m_read_buf w = strip_http target ∧
        w + (strip_http target).length = u + target.length) ∧
    ((strip_http target).head? ≠ some 47 →
      (parse_request_target s u).1 = BAD_REQUEST ∧
      (parse_request_target s u).2.m_check_state = s.m_check_state) := by
  have hc : cstr s.m_read_buf u = target := by rw [hb]; exact cstr_at _ _ _ _ hu hnz htl
  unfold parse_request_target strip_http
  rw [hc]
  by_cases hp : eq_ignore_case (target.take 7) (B "http://")
  · have hp' := (strncasecmp_http target hnz).mpr hp
    have hlen : (target.take 7).length = 7 := by
      have := congrArg List.length hp
      simpa [B] using this
    have hsplit : target = target.take 7 ++ target.drop 7 := (List.take_append_drop 7 target).symm
    have hb7 : s.m_read_buf = (pre ++ target.take 7) ++ (target.drop 7 ++ tl) := by
      rw [hb, List.append_assoc]
      congr 1
      rw [← List.append_assoc, List.take_append_drop]
    have hnz7 : ∀ c ∈ target.drop 7, c ≠ 0 := fun c hc => hnz c (List.mem_of_mem_drop hc)
    have hc7 : cstr s.m_read_buf (u + 7) = target.drop 7 := by
      rw [hb7]
      exact cstr_at _ _ _ _ (by simp only [List.length_append]; omega) hnz7 htl
    simp only [hp', hp, if_true]
    unfold strchr
    rw [hc7]
    rcases find_first_split (fun c => c == 47) (target.drop 7) with
      ⟨h1, h2⟩ | ⟨a, c, b, h1, h2, h3, h4⟩
    · rw [h1, dropWhile_ne_all _ 47 h2]
      simp
    · have hc47 : c = 47 := by simpa using h3
      subst hc47
      rw [h4, h1, dropWhile_ne_append _ 47 _ h2]
      have hb' : s.m_read_buf = (pre ++ target.take 7 ++ a) ++ (47 :: (b ++ tl)) := by
        rw [hb7, h1]; simp
      have hg : s.m_read_buf.getD (u + 7 + a.length) 0 = 47 := by
        rw [hb']
        exact getD_at _ _ _ _ _ (by simp only [List.length_append]; omega)
      have hcw : cstr s.m_read_buf (u + 7 + a.length) = 47 :: b := by
        have hb'' : s.m_read_buf = (pre ++ target.take 7 ++ a) ++ ((47 :: b) ++ tl) := by
          rw [hb']; simp
        rw [hb'']
        refine cstr_at _ _ _ _ (by simp only [List.length_append]; omega) ?_ htl
        intro x hx
        exact hnz7 x (by rw [h1]; simp; right; simpa using hx)
      have hl7 : target.length = 7 + (a.length + (b.length + 1)) := by
        have e := congrArg List.length hsplit
        rw [List.length_append, hlen, h1] at e
        simpa using e
      simp [hg, hcw, -List.getD_eq_getElem?_getD]
      omega
  · have hp' : strncasecmp target (B "http://") 7 ≠ 0 := fun h0 =>
      hp ((strncasecmp_http target hnz).mp h0)
    simp only [hp', hp, if_false, hurl]
    cases target with
    | nil =>
      have hg : s.m_read_buf.getD u 0 = 0 := by
        rw [hb]; exact getD_ends _ _ _ hu (by simpa using htl)
      simp [hg, -List.getD_eq_getElem?_getD]
    | cons x xs =>
      have hg : s.m_read_buf.getD u 0 = x := by
        rw [hb]; exact getD_at _ _ _ _ _ hu
      by_cases hx : x = 47
      · subst hx
        simp [hg, hc, -List.getD_eq_getElem?_getD]
      · simp [hg, hx, -List.getD_eq_getElem?_getD]

theorem sep_contains (c : Nat) (h : c = 32 ∨ c = 9) : (B " \t").contains c = true := by
  rcases h with rfl | rfl <;> decide

theorem not_sep_contains (c : Nat) (h : c ≠ 32 ∧ c ≠ 9) : (B " \t").contains c = false := by
  rw [B_sp_tab]
  simp [h.1, h.2]

/-- Step 2 on a buffer holding `target`, a separator and `version` at `u`. -/
theorem parse_request_version_spec (s : Conn) (u sep : Nat) (pre target version tl : List Nat)
    (hb : s.m_read_buf = pre ++ (target ++ sep :: (version ++ tl))) (hu : u = pre.length)
    (hsep : sep = 32 ∨ sep = 9)
    (ht : ∀ c ∈ target, c ≠ 0 ∧ c ≠ 32 ∧ c ≠ 9) (hv : ∀ c ∈ version, c ≠ 0)
    (htl : tl.takeWhile (fun c => c != 0) = []) (hurl : s.m_url = some u) :
    (eq_ignore_case version (B "HTTP/1.1") ∧ (strip_http target).head? = some 47 →
      (parse_request_version s u).1 = NO_REQUEST ∧
      (parse_request_version s u).2.m_check_state = CHECK_STATE_HEADER ∧
      ∃ w, (parse_request_version s u).2.m_url = some w ∧
        cstr (parse_request_version s u).2.m_read_buf w = strip_http target ∧
        w + (strip_http target).length = u + target.length) ∧
    (¬ (eq_ignore_case version (B "HTTP/1.1") ∧ (strip_http target).head? = some 47) →
      (parse_request_version s u).1 = BAD_REQUEST ∧
      (parse_request_version s u).2.m_check_state = s.m_check_state) := by
  have hsep0 : sep ≠ 0 := by rcases hsep with rfl | rfl <;> decide
  have hnzl : ∀ c ∈ target ++ sep :: version, c ≠ 0 := by
    intro c hc
    rcases List.mem_append.mp hc with h | h
    · exact (ht c h).1
    · rcases List.mem_cons.mp h with rfl | h
      · exact hsep0
      · exact hv c h
  have hc : cstr s.m_read_buf u = target ++ sep :: version := by
    have e : s.m_read_buf = pre ++ ((target ++ sep :: version) ++ tl) := by rw [hb]; simp
    rw [e]
    exact cstr_at _ _ _ _ hu hnzl htl
  have hf : find_first (fun c => (B " \t").contains c) (target ++ sep :: version)
      = some target.length :=
    find_first_append _ _ _ _ (fun x hx => not_sep_contains x (ht x hx).2) (sep_contains sep hsep)
  have hset : s.m_read_buf.set (u + target.length) 0 = pre ++ (target ++ 0 :: (version ++ tl)) := by
    have e : s.m_read_buf = (pre ++ target) ++ sep :: (version ++ tl) := by rw [hb]; simp
    rw [e, set_at _ _ _ _ _ (by simp only [List.length_append]; omega)]
    simp
  have hcv : cstr (s.m_read_buf.set (u + target.length) 0) (u + target.length + 1) = version := by
    have e : pre ++ (target ++ 0 :: (version ++ tl)) = (pre ++ target ++ [0]) ++ (version ++ tl) := by
      simp
    rw [hset, e]
    exact cstr_at _ _ _ _ (by simp only [List.length_append, List.length_singleton]; omega) hv htl
  have htgt := parse_request_target_spec
    { s with m_read_buf := s.m_read_buf.set (u + target.length) 0
             m_version := some (u + target.length + 1) }
    u pre target (0 :: (version ++ tl)) hset hu (fun c h => (ht c h).1)
    (by simp [List.takeWhile_cons]) hurl
  have hcase : strcasecmp version (B "HTTP/1.1") = 0 ↔ eq_ignore_case version (B "HTTP/1.1") :=
    strcasecmp_eq_zero _ _ hv (by decide)
  unfold parse_request_version strpbrk
  rw [hc, hf]
  simp only [Option.map_some']
  rw [hcv]
  by_cases hver : eq_ignore_case version (B "HTTP/1.1")
  · have h0 := hcase.mpr hver
    simp only [h0, ne_eq, not_true_eq_false, if_false]
    refine ⟨fun hok => htgt.1 hok.2, fun hnok => ?_⟩
    exact htgt.2 (fun h47 => hnok ⟨hver, h47⟩)
  · have h0 : strcasecmp version (B "HTTP/1.1") ≠ 0 := fun h => hver (hcase.mp h)
    simp only [h0, ne_eq, not_false_eq_true, if_true]
    exact ⟨fun hok => absurd hok.1 hver, fun _ => by simp⟩

theorem eq_GET_facts (meth : List Nat) (hm : eq_ignore_case meth (B "GET")) :
    meth.length = 3 ∧ ∀ c ∈ meth, (B " \t").contains c = false := by
  unfold eq_ignore_case at hm
  refine ⟨by simpa [B] using congrArg List.length hm, fun c hc => ?_⟩
  have hmem : tolower c ∈ (B "GET").map tolower := by
    rw [← hm]; exact List.mem_map_of_mem _ hc
  by_contra hcon
  have hcon' : (B " \t").contains c = true := by simpa using hcon
  rw [B_sp_tab] at hcon'
  have hc2 : c = 32 ∨ c = 9 := by simpa using hcon'
  rcases hc2 with rfl | rfl <;> revert hmem <;> decide

/-- The request line `meth sep target sep version` with `meth` equal to GET up to
letter case: accepted exactly when the version is `HTTP/1.1` up to letter case and the
stripped target begins with `/`; `m_url` then is the stripped target, which ends where
the target ends. -/
theorem parse_request_line_accept (s : Conn) (text sep1 sep2 : Nat)
    (meth target version : List Nat)
    (hline : cstr s.m_read_buf text = meth ++ sep1 :: (target ++ sep2 :: version))
    (hm : eq_ignore_case meth (B "GET"))
    (h1 : sep1 = 32 ∨ sep1 = 9) (h2 : sep2 = 32 ∨ sep2 = 9)
    (ht : ∀ c ∈ target, c ≠ 32 ∧ c ≠ 9) :
    (eq_ignore_case version (B "HTTP/1.1") ∧ (strip_http target).head? = some 47 →
      (parse_request_line s text).1 = NO_REQUEST ∧
      (parse_request_line s text).2.m_check_state = CHECK_STATE_HEADER ∧
      ∃ w, (parse_request_line s text).2.m_url = some w ∧
        cstr (parse_request_line s text).2.m_read_buf w = strip_http target ∧
        w + (strip_http target).length = text + meth.length + 1 + target.length) ∧
    (¬ (eq_ignore_case version (B "HTTP/1.1") ∧ (strip_http target).head? = some 47) →
      (parse_request_line s text).1 = BAD_REQUEST ∧
      (parse_request_line s text).2.m_check_state = s.m_check_state) := by
  have hnz := cstr_nz s.m_read_buf text
  rw [hline] at hnz
  obtain ⟨hlen, hmsep⟩ := eq_GET_facts meth hm
  have hmnz : ∀ c ∈ meth, c ≠ 0 := fun c hc => hnz c (by simp [hc])
  have hf : find_first (fun c => (B " \t").contains c)
      (meth ++ sep1 :: (target ++ sep2 :: version)) = some meth.length :=
    find_first_append _ _ _ _ hmsep (sep_contains sep1 h1)
  obtain ⟨pre, tl, hp, htl, _, hset⟩ := cstr_cut _ _ _ _ _ hline
  have hcs : cstr (s.m_read_buf.set (text + meth.length) 0) text = meth := by
    rw [hset]
    exact cstr_at pre _ _ text hp.symm hmnz (by simp [List.takeWhile_cons])
  have hget : strcasecmp meth (B "GET") = 0 :=
    (strcasecmp_eq_zero meth (B "GET") hmnz (by decide)).mpr hm
  have hver := parse_request_version_spec
    { s with m_read_buf := s.m_read_buf.set (text + meth.length) 0
             m_url := some (text + meth.length + 1)
             m_method := GET }
    (text + meth.length + 1) sep2 (pre ++ meth ++ [0]) target version tl
    (by rw [hset]; simp)
    (by simp only [List.length_append, List.length_singleton]; omega) h2
    (fun c hc => ⟨hnz c (by simp [hc]), ht c hc⟩)
    (fun c hc => hnz c (by simp [hc])) htl rfl
  have hres : parse_request_line s text = parse_request_version
      { s with m_read_buf := s.m_read_buf.set (text + meth.length) 0
               m_url := some (text + meth.length + 1)
               m_method := GET } (text + meth.length + 1) := by
    unfold parse_request_line strpbrk
    rw [hline, hf]
    simp only [Option.map_some']
    rw [hcs, hget]
    simp
  rw [hres]
  exact hver

/-- C8. A request line `GET`, one space or tab, a target without space or tab, one
space or tab, a version: `parse_request_line` returns NO_REQUEST and moves to the
header state exactly when the version is `HTTP/1.1` up to letter case and the target,
stripped of a leading `http://` and what precedes the next `/`, begins with `/`;
otherwise it returns BAD_REQUEST and the state stays RequestLine. On success `m_url`
is the stripped target. -/
theorem C8_request_line (s : Conn) (text sep1 sep2 : Nat) (target version : List Nat)
    (hline : cstr s.m_read_buf text = B "GET" ++ sep1 :: (target ++ sep2 :: version))
    (h1 : sep1 = 32 ∨ sep1 = 9) (h2 : sep2 = 32 ∨ sep2 = 9)
    (ht : ∀ c ∈ target, c ≠ 32 ∧ c ≠ 9)
    (hs : s.m_check_state = CHECK_STATE_REQUESTLINE) :
    (((parse_request_line s text).1 = NO_REQUEST ∧
        (parse_request_line s text).2.m_check_state = CHECK_STATE_HEADER) ↔
      (eq_ignore_case version (B "HTTP/1.1") ∧ (strip_http target).head? = some 47)) ∧
    (¬ (eq_ignore_case version (B "HTTP/1.1") ∧ (strip_http target).head? = some 47) →
      (parse_request_line s text).1 = BAD_REQUEST ∧
      (parse_request_line s text).2.m_check_state = CHECK_STATE_REQUESTLINE) ∧
    (eq_ignore_case version (B "HTTP/1.1") ∧ (strip_http target).head? = some 47 →
      ∃ w, (parse_request_line s text).2.m_url = some w ∧
        cstr (parse_request_line s text).2.m_read_buf w = strip_http target) := by
  have hacc := parse_request_line_accept s text sep1 sep2 (B "GET") target version hline
    (by decide) h1 h2 ht
  refine ⟨⟨fun h => ?_, fun h => ⟨(hacc.1 h).1, (hacc.1 h).2.1⟩⟩, fun h => ?_, fun h => ?_⟩
  · by_contra hnok
    have := (hacc.2 hnok).1
    rw [h.1] at this
    exact absurd this (by decide)
  · have := hacc.2 h
    exact ⟨this.1, by rw [this.2]; exact hs⟩
  · obtain ⟨w, hw1, hw2, _⟩ := (hacc.1 h).2.2
    exact ⟨w, hw1, hw2⟩

/-! ## C10: resource resolution -/

theorem store_eq (buf : List Nat) (p : Nat) (data : List Nat)
    (h : p + data.length ≤ buf.length) :
    store buf p data = buf.take p ++ data ++ buf.drop (p + data.length) := by
  unfold store
  apply List.take_of_length_le
  simp only [List.length_append, List.length_take, List.length_drop]
  omega

theorem strncpy_bytes_length (src : List Nat) (n : Nat) : (strncpy_bytes src n).length = n := by
  unfold strncpy_bytes
  simp only [List.length_append, List.length_take, List.length_replicate]
  omega

theorem takeWhile_replicate_zero (k : Nat) (l : List Nat) :
    (List.replicate k 0 ++ 0 :: l).takeWhile (fun c => c != 0) = [] := by
  cases k with
  | zero => simp [List.takeWhile_cons]
  | succ n => simp [List.replicate_succ, List.takeWhile_cons]

theorem real_file_cstr_aux (root rf target : List Nat) (hr : root.length = 30)
    (hrnz : ∀ c ∈ root, c ≠ 0) (hlen : rf.length = 200) (hlast : rf.getD 199 0 = 0)
    (hnz : ∀ c ∈ target, c ≠ 0) :
    cstr (store (store rf 0 (root ++ [0])) 30 (strncpy_bytes target 169)) 0
      = root ++ target.take 169 := by
  have h1 : store rf 0 (root ++ [0]) = root ++ ([0] ++ rf.drop 31) := by
    rw [store_eq _ _ _ (by simp only [List.length_append, List.length_singleton]; omega)]
    simp [hr]
  have hcp := strncpy_bytes_length target 169
  have hd : rf.drop 199 = [0] := by
    have hl : (rf.drop 199).length = 1 := by simp only [List.length_drop]; omega
    match hrd : rf.drop 199, hl with
    | [x], _ =>
      have : rf.getD 199 0 = x := by
        rw [← List.take_append_drop 199 rf, hrd]
        exact getD_at _ _ _ _ _ (by simp only [List.length_take]; omega)
      rw [← this, hlast]
  have h2 : store (root ++ ([0] ++ rf.drop 31)) 30 (strncpy_bytes target 169)
      = root ++ (strncpy_bytes target 169 ++ [0]) := by
    rw [store_eq _ _ _ (by
      simp only [List.length_append, List.length_singleton, List.length_drop, hcp]; omega)]
    rw [hcp]
    have e1 : (root ++ ([0] ++ rf.drop 31)).take 30 = root := by
      rw [List.take_append_of_le_length (by omega), List.take_of_length_le (by omega)]
    have e2 : (root ++ ([0] ++ rf.drop 31)).drop (30 + 169) = [0] := by
      rw [← List.append_assoc, List.drop_append_eq_append_drop]
      rw [List.drop_of_length_le (by simp only [List.length_append, List.length_singleton]; omega)]
      simp only [List.length_append, List.length_singleton, hr, Nat.reduceAdd, Nat.reduceSub,
        List.drop_drop, List.nil_append]
      exact hd
    rw [e1, e2, List.append_assoc]
  rw [h1, h2]
  unfold cstr strncpy_bytes
  rw [List.drop_zero]
  have e : root ++ (List.take 169 target ++ List.replicate (169 - target.length) 0 ++ [0])
      = (root ++ List.take 169 target) ++
        (List.replicate (169 - target.length) 0 ++ 0 :: []) := by simp
  rw [e]
  apply takeWhile_nz_append
  · intro c hc
    rcases List.mem_append.mp hc with h | h
    · exact hrnz c h
    · exact hnz c (List.mem_of_mem_take h)
  · exact takeWhile_replicate_zero _ _

/-- The file name `do_request` builds in `m_real_file`, read back as a C string. -/
theorem real_file_cstr (rf target : List Nat) (hlen : rf.length = FILENAME_LEN)
    (hlast : rf.getD (FILENAME_LEN - 1) 0 = 0) (hnz : ∀ c ∈ target, c ≠ 0) :
    cstr (store (store rf 0 (doc_root ++ [0])) doc_root.length
      (strncpy_bytes target (FILENAME_LEN - doc_root.length - 1))) 0 = resolved_path target := by
  have hr : doc_root.length = 30 := by decide
  have e : FILENAME_LEN - doc_root.length - 1 = 169 := by rw [hr]; rfl
  unfold resolved_path
  rw [e, hr]
  exact real_file_cstr_aux doc_root rf target hr (by decide) hlen hlast hnz

/-- C10 (amended). With the filesystem a function `fs` from a path to optional metadata,
and the resolved path the server root followed by the parsed target cut to the
169 bytes left in `m_real_file`: `do_request` returns NO_RESOURCE when that path has no
metadata, otherwise FORBIDDEN_REQUEST when the other-read bit is clear, otherwise
BAD_REQUEST when it is a directory, and FILE_REQUEST only in the remaining case. -/
theorem C10_do_request (fs : List Nat → Option Stat) (s : Conn) (u : Nat)
    (hu : s.m_url = some u) (hlen : s.m_real_file.length = FILENAME_LEN)
    (hlast : s.m_real_file.getD (FILENAME_LEN - 1) 0 = 0) :
    (do_request fs s).map Prod.fst = some
      (match fs (resolved_path (cstr s.m_read_buf u)) with
       | none => NO_RESOURCE
       | some st =>
         if st.st_mode &&& S_IROTH = 0 then FORBIDDEN_REQUEST
         else if S_ISDIR st.st_mode = true then BAD_REQUEST
         else FILE_REQUEST) := by
  unfold do_request
  rw [hu]
  simp only
  rw [real_file_cstr _ _ hlen hlast (cstr_nz _ _)]
  cases fs (resolved_path (cstr s.m_read_buf u)) with
  | none => rfl
  | some st =>
    simp only
    by_cases h1 : st.st_mode &&& S_IROTH = 0
    · simp only [h1, if_true, Option.map_some']
    · by_cases h2 : S_ISDIR st.st_mode = true
      · simp [h1, h2]
      · simp [h1, h2]

/-- C10 (counterexample). The target `long_target` has 170 bytes; the server root
followed by it has no metadata in `fs_cut`, yet the request is answered FILE_REQUEST:
`do_request` looked up the path cut to 199 bytes. -/
theorem C10_long_target_cut :
    fs_cut (doc_root ++ long_target) = none ∧
    (read_event fs_cut (B "GET " ++ long_target ++ B " HTTP/1.1\r\n\r\n") (init conn0)).map
      (fun r => (r.1, r.2.m_url.map (cstr r.2.m_read_buf))) =
      some (FILE_REQUEST, some long_target) := by
  decide!

/-- C10 (witness): the parsed request `GET /index.html HTTP/1.1` on the sample tree. -/
theorem C10_do_request_witness :
    (request_line_state (B "GET /index.html HTTP/1.1\r\n\r\n")).m_url = some 4 ∧
    (request_line_state (B "GET /index.html HTTP/1.1\r\n\r\n")).m_real_file.length
      = FILENAME_LEN ∧
    (do_request fs_sample (request_line_state (B "GET /index.html HTTP/1.1\r\n\r\n"))).map
      Prod.fst = some
      (match fs_sample (resolved_path
          (cstr (request_line_state (B "GET /index.html HTTP/1.1\r\n\r\n")).m_read_buf 4)) with
       | none => NO_RESOURCE
       | some st =>
         if st.st_mode &&& S_IROTH = 0 then FORBIDDEN_REQUEST
         else if S_ISDIR st.st_mode = true then BAD_REQUEST
         else FILE_REQUEST) :=
  ⟨by decide!, by decide!, C10_do_request fs_sample _ 4 (by decide!) (by decide!) (by decide!)⟩

/-- C8 (witness): the request line `GET http://host/index.html HTTP/1.1`. -/
theorem C8_request_line_witness :
    cstr (first_line_state (B "GET http://host/index.html HTTP/1.1\r\n")).m_read_buf 0
      = B "GET" ++ 32 :: (B "http://host/index.html" ++ 32 :: B "HTTP/1.1") ∧
    (parse_request_line (first_line_state (B "GET http://host/index.html HTTP/1.1\r\n")) 0).1
      = NO_REQUEST ∧
    (parse_request_line
      (first_line_state (B "GET http://host/index.html HTTP/1.1\r\n")) 0).2.m_check_state
      = CHECK_STATE_HEADER :=
  ⟨by decide!,
   (C8_request_line (first_line_state (B "GET http://host/index.html HTTP/1.1\r\n")) 0 32 32
      (B "http://host/index.html") (B "HTTP/1.1") (by decide!) (by decide) (by decide)
      (by decide) (by decide!)).1.mpr ⟨by decide, by decide⟩⟩

/-! ## The line scanner on a complete line -/

/-- Scanning a line without CR or LF that is followed by CR LF: LINE_OK, the two
terminator bytes cleared, the parse cursor after them. -/
theorem parse_line_scan_ok (rest : List Nat) (line : List Nat) :
    ∀ (n : Nat) (s : Conn) (pre : List Nat),
      s.m_read_buf = pre ++ (line ++ 13 :: 10 :: rest) → s.m_checked_idx = pre.length →
      (∀ c ∈ line, c ≠ 13 ∧ c ≠ 10) → pre.length + line.length + 2 ≤ s.m_read_idx →
      line.length + 1 ≤ n →
      parse_line_scan n s = (LINE_OK, { s with
        m_read_buf := pre ++ (line ++ 0 :: 0 :: rest)
        m_checked_idx := pre.length + line.length + 2 }) := by
  induction line with
  | nil =>
    intro n s pre hb hc _ hr hn
    obtain ⟨m, rfl⟩ : ∃ m, n = m + 1 := ⟨n - 1, by omega⟩
    simp only [List.length_nil, Nat.add_zero, List.nil_append] at hr hb ⊢
    have g0 : s.m_read_buf.getD s.m_checked_idx 0 = 13 := by
      rw [hb]; exact getD_at _ _ _ _ _ hc
    have g1 : s.m_read_buf.getD (s.m_checked_idx + 1) 0 = 10 := by
      have e : s.m_read_buf = (pre ++ [13]) ++ 10 :: rest := by rw [hb]; simp
      rw [e]; exact getD_at _ _ _ _ _ (by simp [hc])
    have hset : (s.m_read_buf.set s.m_checked_idx 0).set (s.m_checked_idx + 1) 0
        = pre ++ 0 :: 0 :: rest := by
      rw [hb, set_at _ _ _ _ _ hc]
      have e : pre ++ 0 :: 10 :: rest = (pre ++ [0]) ++ 10 :: rest := by simp
      rw [e, set_at _ _ _ _ _ (by simp [hc])]
      simp
    have hlt : s.m_checked_idx < s.m_read_idx := by omega
    have hne : s.m_checked_idx + 1 ≠ s.m_read_idx := by omega
    simp only [parse_line_scan, hlt, if_true, g0, hne, if_false, g1, hset]
    rw [hc]
  | cons x xs ih =>
    intro n s pre hb hc hl hr hn
    obtain ⟨m, rfl⟩ : ∃ m, n = m + 1 := ⟨n - 1, by simp at hn; omega⟩
    have hx := hl x (by simp)
    have g0 : s.m_read_buf.getD s.m_checked_idx 0 = x := by
      rw [hb]; exact getD_at _ _ _ _ _ hc
    have hlt : s.m_checked_idx < s.m_read_idx := by simp at hr; omega
    have hrec := ih m { s with m_checked_idx := s.m_checked_idx + 1 } (pre ++ [x])
      (by simp [hb]) (by simp [hc]) (fun c h => hl c (by simp [h]))
      (by simp at hr ⊢; omega) (by simp at hn; omega)
    simp only [parse_line_scan, hlt, if_true, g0, hx.1, hx.2, if_false]
    rw [hrec]
    simp
    omega

/-- The function `parse_line` on a buffer whose unscanned part starts with a line
without CR or LF followed by CR LF. -/
theorem parse_line_ok (s : Conn) (line rest : List Nat)
    (hb : s.m_read_buf.drop s.m_checked_idx = line ++ 13 :: 10 :: rest)
    (hl : ∀ c ∈ line, c ≠ 13 ∧ c ≠ 10)
    (hr : s.m_checked_idx + line.length + 2 ≤ s.m_read_idx) :
    parse_line s = (LINE_OK, { s with
      m_read_buf := s.m_read_buf.take s.m_checked_idx ++ (line ++ 0 :: 0 :: rest)
      m_checked_idx := s.m_checked_idx + line.length + 2 }) := by
  have hlen : s.m_checked_idx ≤ s.m_read_buf.length := by
    by_contra h
    rw [List.drop_of_length_le (by omega)] at hb
    simp at hb
  have hpre : (s.m_read_buf.take s.m_checked_idx).length = s.m_checked_idx := by
    simp only [List.length_take]; omega
  have h := parse_line_scan_ok rest line (s.m_read_idx - s.m_checked_idx) s
    (s.m_read_buf.take s.m_checked_idx)
    (by rw [← hb, List.take_append_drop]) hpre.symm hl (by rw [hpre]; exact hr) (by omega)
  rw [hpre] at h
  exact h

/-! ## What the parser functions leave unchanged -/

theorem parse_request_target_frame (s : Conn) (u : Nat) :
    ∃ url cs, (parse_request_target s u).2 = { s with m_url := url, m_check_state := cs } := by
  unfold parse_request_target
  simp only
  repeat' first | exact ⟨_, _, rfl⟩ | split

theorem parse_request_version_frame (s : Conn) (u : Nat) :
    ∃ buf ver url cs, (parse_request_version s u).2 =
      { s with m_read_buf := buf, m_version := ver, m_url := url, m_check_state := cs } := by
  unfold parse_request_version
  simp only
  split
  · exact ⟨_, _, _, _, rfl⟩
  · split
    · exact ⟨_, _, _, _, rfl⟩
    · obtain ⟨url, cs, h⟩ := parse_request_target_frame
        { s with m_read_buf := s.m_read_buf.set _ 0, m_version := some (_ + 1) } u
      rw [h]
      exact ⟨_, _, _, _, rfl⟩

theorem parse_request_line_frame (s : Conn) (text : Nat) :
    ∃ buf meth ver url cs, (parse_request_line s text).2 =
      { s with m_read_buf := buf, m_method := meth, m_version := ver, m_url := url,
               m_check_state := cs } := by
  unfold parse_request_line
  simp only
  split
  · exact ⟨_, _, _, _, _, rfl⟩
  · split
    · obtain ⟨buf, ver, url, cs, h⟩ := parse_request_version_frame
        { s with m_read_buf := s.m_read_buf.set _ 0, m_url := some (_ + 1), m_method := GET }
        (_ + 1)
      rw [h]
      exact ⟨_, _, _, _, _, rfl⟩
    · exact ⟨_, _, _, _, _, rfl⟩

/-! ## C5: the error responses -/

theorem WF_conn0 : WF conn0 :=
  ⟨List.length_replicate _ _, List.length_replicate _ _, List.length_replicate _ _⟩

theorem bzero_full (buf : List Nat) (n : Nat) (h : buf.length ≤ n) :
    bzero buf n = List.replicate buf.length 0 := by
  unfold bzero
  rw [Nat.min_eq_right h, List.drop_of_length_le h, List.append_nil]

theorem init_bufs (s0 : Conn) (hwf : WF s0) :
    (init s0).m_read_buf = List.replicate READ_BUFFER_SIZE 0 ∧
    (init s0).m_write_buf = List.replicate WRITE_BUFFER_SIZE 0 ∧
    (init s0).m_real_file = List.replicate FILENAME_LEN 0 := by
  obtain ⟨h1, h2, h3⟩ := hwf
  have hle : WRITE_BUFFER_SIZE ≤ init_write_bzero_len := by decide
  refine ⟨?_, ?_, ?_⟩
  · show bzero s0.m_read_buf READ_BUFFER_SIZE = _
    rw [bzero_full _ _ (by rw [h1]), h1]
  · show bzero s0.m_write_buf init_write_bzero_len = _
    rw [bzero_full _ _ (by rw [h2]; exact hle), h2]
  · show bzero s0.m_real_file FILENAME_LEN = _
    rw [bzero_full _ _ (by rw [h3]), h3]

theorem add_response_congr (s t : Conn) (out : List Nat) (h : out_view s = out_view t) :
    (add_response s out).1 = (add_response t out).1 ∧
    out_view (add_response s out).2 = out_view (add_response t out).2 := by
  simp only [out_view, Prod.mk.injEq] at h
  obtain ⟨h1, h2, h3⟩ := h
  unfold add_response
  simp only [h1, h2]
  split_ifs <;> simp only [out_view, h1, h2, h3, and_self]

theorem add_linger_congr (s t : Conn) (h : out_view s = out_view t) :
    out_view (add_linger s).2 = out_view (add_linger t).2 := by
  have hl : s.m_linger = t.m_linger := by
    simp only [out_view, Prod.mk.injEq] at h
    exact h.2.2
  unfold add_linger
  rw [hl]
  exact (add_response_congr _ _ _ h).2

theorem add_headers_congr (s t : Conn) (n : Int) (h : out_view s = out_view t) :
    out_view (add_headers s n) = out_view (add_headers t n) := by
  unfold add_headers add_blank_line add_content_type add_content_length
  have h1 := (add_response_congr s t (B "Content-Length: " ++ fmt_d n ++ B "\r\n") h).2
  have h2 := (add_response_congr _ _ (B "Content-Type:" ++ B "text/html" ++ B "\r\n") h1).2
  have h3 := add_linger_congr _ _ h2
  exact (add_response_congr _ _ (B "\r\n") h3).2

theorem process_write_error_congr (s t : Conn) (status : Int) (title form : List Nat)
    (h : out_view s = out_view t) :
    (process_write_error s status title form).1 = (process_write_error t status title form).1 ∧
    ((process_write_error s status title form).1 = true →
      resp_view (process_write_error s status title form).2
        = resp_view (process_write_error t status title form).2) := by
  unfold process_write_error add_status_line add_content
  have h1 := (add_response_congr s t
    (B "HTTP/1.1" ++ B " " ++ fmt_d status ++ B " " ++ title ++ B "\r\n") h).2
  have h2 := add_headers_congr _ _ (to_int form.length) h1
  have h3 := add_response_congr _ _ form h2
  simp only
  rw [h3.1]
  split_ifs with hc
  · exact ⟨rfl, fun h => h.elim⟩
  · have := h3.2
    simp only [out_view, Prod.mk.injEq] at this
    simp only [process_write_single, resp_view, this.1, this.2.1, true_and, implies_true]

theorem out_view_init (s0 : Conn) (hwf : WF s0) : out_view (init s0) = out_view (init conn0) := by
  have h1 := (init_bufs s0 hwf).2.1
  have h2 := (init_bufs conn0 WF_conn0).2.1
  simp only [out_view, h1, h2]
  rfl

theorem is_error_response_of_view (r r' : Bool × Conn) (status : Nat) (title form : List Nat)
    (h1 : r.1 = r'.1) (h2 : resp_view r.2 = resp_view r'.2)
    (h : is_error_response r' status title form) : is_error_response r status title form := by
  simp only [resp_view, Prod.mk.injEq] at h2
  obtain ⟨e1, e2, e3, e4, e5⟩ := h2
  unfold is_error_response at h ⊢
  rw [h1, e1, e2, e3, e4, e5]
  exact h

theorem process_write_error_fresh (s0 : Conn) (hwf : WF s0) (status : Int) (n : Nat)
    (title form : List Nat)
    (h : is_error_response (process_write_error (init conn0) status title form) n title form) :
    is_error_response (process_write_error (init s0) status title form) n title form := by
  have hc := process_write_error_congr (init s0) (init conn0) status title form
    (out_view_init s0 hwf)
  exact is_error_response_of_view _ _ _ _ _ hc.1 (hc.2 (by rw [hc.1]; exact h.1)) h

theorem process_write_codes (s : Conn) :
    process_write s BAD_REQUEST = process_write_error s 400 error_400_title error_400_form ∧
    process_write s NO_RESOURCE = process_write_error s 404 error_404_title error_404_form ∧
    process_write s FORBIDDEN_REQUEST
      = process_write_error s 403 error_403_title error_403_form ∧
    process_write s INTERNAL_ERROR = process_write_error s 500 error_500_title error_500_form :=
  ⟨rfl, rfl, rfl, rfl⟩

/-- In a build in which the call of `add_headers` returns, `process_write` on a freshly
reset connection answers BAD_REQUEST, NO_RESOURCE, FORBIDDEN_REQUEST and INTERNAL_ERROR
with status 400, 404, 403 and 500: it returns true, the write buffer holds the status
line, the header block, a blank line and exactly the fixed body, the Content-Length
printed is the length of that body, and the descriptor has one segment whose length is
both `m_write_idx` and `bytes_to_send`. -/
theorem error_responses_built (s0 : Conn) (hwf : WF s0) :
    is_error_response (process_write (init s0) BAD_REQUEST) 400 error_400_title error_400_form ∧
    is_error_response (process_write (init s0) NO_RESOURCE) 404 error_404_title error_404_form ∧
    is_error_response (process_write (init s0) FORBIDDEN_REQUEST) 403 error_403_title
      error_403_form ∧
    is_error_response (process_write (init s0) INTERNAL_ERROR) 500 error_500_title
      error_500_form := by
  obtain ⟨e1, e2, e3, e4⟩ := process_write_codes (init s0)
  rw [e1, e2, e3, e4]
  have h400 : is_error_response
      (process_write_error (init conn0) 400 error_400_title error_400_form) 400
      error_400_title error_400_form := by decide!
  have h404 : is_error_response
      (process_write_error (init conn0) 404 error_404_title error_404_form) 404
      error_404_title error_404_form := by decide!
  have h403 : is_error_response
      (process_write_error (init conn0) 403 error_403_title error_403_form) 403
      error_403_title error_403_form := by decide!
  have h500 : is_error_response
      (process_write_error (init conn0) 500 error_500_title error_500_form) 500
      error_500_title error_500_form := by decide!
  exact ⟨process_write_error_fresh s0 hwf _ _ _ _ h400,
    process_write_error_fresh s0 hwf _ _ _ _ h404,
    process_write_error_fresh s0 hwf _ _ _ _ h403,
    process_write_error_fresh s0 hwf _ _ _ _ h500⟩

/-- Where the call of `add_headers` returns, `process_write_in` is `process_write`. -/
theorem process_write_in_returns (s : Conn) (ret : HTTP_CODE) :
    process_write_in BUILD.call_returns s ret = some (process_write s ret) := by
  cases ret <;> rfl

/-- Where the call of `add_headers` does not return, `process_write` has a result only
for the codes it answers with `return false` before any call. -/
theorem process_write_in_undefined (s : Conn) (ret : HTTP_CODE) :
    process_write_in BUILD.call_undefined s ret =
      if ret = NO_REQUEST ∨ ret = GET_REQUEST ∨ ret = CLOSED_CONNECTION then some (false, s)
      else none := by
  cases ret <;> rfl

/-- C5 (failing input). `process_write(NO_RESOURCE)` on a freshly reset connection. The
call of `add_headers` flows off the end of a function declared `bool`: where the call
does not return, `process_write` returns nothing and neither the body text nor the
descriptor is built; only where it returns is the result the 404 response of the
claim. -/
theorem C5_response_lost_in_add_headers :
    process_write_in BUILD.call_undefined (init conn0) NO_RESOURCE = none ∧
    process_write_in BUILD.call_returns (init conn0) NO_RESOURCE
      = some (process_write (init conn0) NO_RESOURCE) ∧
    is_error_response (process_write (init conn0) NO_RESOURCE) 404 error_404_title
      error_404_form := by
  decide!

/-! ## One pass of the loop of `process_read` -/

theorem takeWhile_line (l r : List Nat) :
    (l ++ 0 :: r).takeWhile (fun c => c != 0) = l.takeWhile (fun c => c != 0) := by
  induction l with
  | nil => simp [List.takeWhile_cons]
  | cons x xs ih =>
    rw [List.cons_append, List.takeWhile_cons, List.takeWhile_cons, ih]

theorem cstr_line (pre l r : List Nat) (i : Nat) (h : i = pre.length) :
    cstr (pre ++ (l ++ 0 :: r)) i = c_line l := by
  unfold cstr c_line
  rw [drop_at _ _ _ h]
  exact takeWhile_line l r

theorem takeWhile_comm (p q : Nat → Bool) (l : List Nat) :
    (l.takeWhile p).takeWhile q = (l.takeWhile q).takeWhile p := by
  induction l with
  | nil => rfl
  | cons x xs ih =>
    by_cases hp : p x = true <;> by_cases hq : q x = true <;>
      simp [List.takeWhile_cons, hp, hq, ih]

theorem method_token_c_line (l : List Nat) : method_token (c_line l) = c_line (method_token l) := by
  unfold method_token c_line
  exact takeWhile_comm _ _ l

theorem process_read_loop_succ (fs : List Nat → Option Stat) (fuel : Nat) (ls : LINE_STATUS)
    (s : Conn) :
    process_read_loop fs (fuel + 1) ls s =
      if (process_read_cond ls s).1 ≠ LINE_OK then some (NO_REQUEST, (process_read_cond ls s).2)
      else
        match process_read_body fs (process_read_cond ls s).2 with
        | Sum.inl r => r
        | Sum.inr n => process_read_loop fs fuel n.1 n.2 := rfl

theorem process_read_cond_parse (ls : LINE_STATUS) (s : Conn)
    (h : s.m_check_state ≠ CHECK_STATE_CONTENT) : process_read_cond ls s = parse_line s := by
  simp [process_read_cond, h]

/-- The state in which the loop body runs after `parse_line` accepted `line`. -/
theorem loop_line_ok (fs : List Nat → Option Stat) (fuel : Nat) (s : Conn)
    (line rest : List Nat) (hs : s.m_check_state ≠ CHECK_STATE_CONTENT)
    (hb : s.m_read_buf.drop s.m_checked_idx = line ++ 13 :: 10 :: rest)
    (hl : ∀ c ∈ line, c ≠ 13 ∧ c ≠ 10)
    (hr : s.m_checked_idx + line.length + 2 ≤ s.m_read_idx) :
    process_read_loop fs (fuel + 1) LINE_OK s =
      match process_read_body fs { s with
          m_read_buf := s.m_read_buf.take s.m_checked_idx ++ (line ++ 0 :: 0 :: rest)
          m_checked_idx := s.m_checked_idx + line.length + 2 } with
      | Sum.inl r => r
      | Sum.inr n => process_read_loop fs fuel n.1 n.2 := by
  rw [process_read_loop_succ, process_read_cond_parse _ _ hs, parse_line_ok s line rest hb hl hr]
  simp

theorem read_fresh (s0 : Conn) (req : List Nat) (hwf : WF s0) (hne : req ≠ [])
    (hlen : req.length ≤ READ_BUFFER_SIZE) :
    read [RECV.bytes req, RECV.eagain] (init s0) = some (true, { init s0 with
      m_read_buf := req ++ List.replicate (READ_BUFFER_SIZE - req.length) 0
      m_read_idx := req.length }) := by
  have hb := (init_bufs s0 hwf).1
  have hi : (init s0).m_read_idx = 0 := rfl
  have hpos : 0 < req.length := List.length_pos.mpr hne
  have hR : READ_BUFFER_SIZE = 2048 := rfl
  have hst : store (List.replicate READ_BUFFER_SIZE 0) 0 req
      = req ++ List.replicate (READ_BUFFER_SIZE - req.length) 0 := by
    rw [store_eq _ _ _ (by rw [List.length_replicate]; omega)]
    rw [List.take_zero, List.nil_append, Nat.zero_add, List.drop_replicate]
  unfold read
  rw [hi]
  simp only [ge_iff_le, hR, Nat.le_zero_eq, OfNat.ofNat_ne_zero, if_false]
  unfold read_loop
  simp only [hi, Nat.sub_zero]
  rw [List.take_of_length_le (by omega)]
  have hne0 : req.length ≠ 0 := by omega
  simp only [hne0, if_false, read_loop, hb, Nat.zero_add]
  rw [← hR, hst]

theorem process_read_body_requestline (fs : List Nat → Option Stat) (s : Conn)
    (h : s.m_check_state = CHECK_STATE_REQUESTLINE) :
    process_read_body fs s =
      if (parse_request_line { s with m_start_line := s.m_checked_idx } s.m_start_line).1
          = BAD_REQUEST then
        Sum.inl (some (BAD_REQUEST,
          (parse_request_line { s with m_start_line := s.m_checked_idx } s.m_start_line).2))
      else Sum.inr (LINE_OK,
        (parse_request_line { s with m_start_line := s.m_checked_idx } s.m_start_line).2) := by
  unfold process_read_body
  simp only
  split
  · rfl
  · next heq => exact absurd (h.symm.trans heq) (by decide)
  · next heq => exact absurd (h.symm.trans heq) (by decide)

theorem process_read_body_header (fs : List Nat → Option Stat) (s : Conn)
    (h : s.m_check_state = CHECK_STATE_HEADER) :
    process_read_body fs s =
      if (parse_headers { s with m_start_line := s.m_checked_idx } s.m_start_line).1
          = BAD_REQUEST then
        Sum.inl (some (BAD_REQUEST,
          (parse_headers { s with m_start_line := s.m_checked_idx } s.m_start_line).2))
      else if (parse_headers { s with m_start_line := s.m_checked_idx } s.m_start_line).1
          = GET_REQUEST then
        Sum.inl (do_request fs
          (parse_headers { s with m_start_line := s.m_checked_idx } s.m_start_line).2)
      else Sum.inr (LINE_OK,
        (parse_headers { s with m_start_line := s.m_checked_idx } s.m_start_line).2) := by
  unfold process_read_body
  simp only
  split
  · next heq => exact absurd (h.symm.trans heq) (by decide)
  · rfl
  · next heq => exact absurd (h.symm.trans heq) (by decide)

theorem process_read_body_content (fs : List Nat → Option Stat) (s : Conn)
    (h : s.m_check_state = CHECK_STATE_CONTENT) :
    process_read_body fs s =
      match parse_content { s with m_start_line := s.m_checked_idx } s.m_start_line with
      | none => Sum.inl none
      | some r =>
        if r.1 = GET_REQUEST then Sum.inl (do_request fs r.2)
        else Sum.inr (LINE_OPEN, r.2) := by
  unfold process_read_body
  simp only
  split
  · next heq => exact absurd (h.symm.trans heq) (by decide)
  · next heq => exact absurd (h.symm.trans heq) (by decide)
  · rfl

/-! ## C6: a request line with method POST -/

theorem is_error_response_of_out_view (s : Conn) (h : out_view s = out_view (init conn0)) :
    is_error_response (process_write s BAD_REQUEST) 400 error_400_title error_400_form := by
  rw [(process_write_codes s).1]
  have h400 : is_error_response
      (process_write_error (init conn0) 400 error_400_title error_400_form) 400
      error_400_title error_400_form := by decide!
  have hc := process_write_error_congr s (init conn0) 400 error_400_title error_400_form h
  exact is_error_response_of_view _ _ _ _ _ hc.1 (hc.2 (by rw [hc.1]; exact h400.1)) h400

/-- A buffer on a freshly reset connection whose first line, ended by CR LF and with no
other CR or LF in it, has POST as its method token, whatever follows the line:
`process_read` returns BAD_REQUEST with the main state still RequestLine; and in a
build in which the call of `add_headers` returns, `process_write(BAD_REQUEST)` builds
the 400 response, whose status line is `HTTP/1.1 400 Bad Request`. -/
theorem post_line_bad_request (fs : List Nat → Option Stat) (s0 : Conn) (line rest : List Nat)
    (hwf : WF s0) (hl : ∀ c ∈ line, c ≠ 13 ∧ c ≠ 10) (hm : method_token line = B "POST")
    (hlen : (line ++ 13 :: 10 :: rest).length ≤ READ_BUFFER_SIZE) :
    ∃ s1, read_event fs (line ++ 13 :: 10 :: rest) (init s0) = some (BAD_REQUEST, s1) ∧
      s1.m_check_state = CHECK_STATE_REQUESTLINE ∧
      is_error_response (process_write s1 BAD_REQUEST) 400 error_400_title error_400_form ∧
      (error_response 400 error_400_title error_400_form).take 26
        = B "HTTP/1.1 400 Bad Request\r\n" := by
  have hne : line ++ 13 :: 10 :: rest ≠ [] := by simp
  have hread := read_fresh s0 _ hwf hne hlen
  have hlen' : line.length + 2 + rest.length ≤ READ_BUFFER_SIZE := by
    simp only [List.length_append, List.length_cons] at hlen; omega
  -- the state after the read
  generalize hs1 : ({ init s0 with
      m_read_buf := (line ++ 13 :: 10 :: rest) ++
        List.replicate (READ_BUFFER_SIZE - (line ++ 13 :: 10 :: rest).length) 0
      m_read_idx := (line ++ 13 :: 10 :: rest).length } : Conn) = s1 at hread
  have h1b : s1.m_read_buf.drop s1.m_checked_idx = line ++ 13 :: 10 ::
      (rest ++ List.replicate (READ_BUFFER_SIZE - (line ++ 13 :: 10 :: rest).length) 0) := by
    rw [← hs1]; simp [init]
  have h1c : s1.m_checked_idx = 0 := by rw [← hs1]; rfl
  have h1s : s1.m_start_line = 0 := by rw [← hs1]; rfl
  have h1r : s1.m_read_idx = (line ++ 13 :: 10 :: rest).length := by rw [← hs1]
  have h1st : s1.m_check_state = CHECK_STATE_REQUESTLINE := by rw [← hs1]; rfl
  have h1o : out_view s1 = out_view (init s0) := by rw [← hs1]; rfl
  have hstep := loop_line_ok fs (s1.m_read_idx - s1.m_checked_idx + 2) s1 line _
    (by rw [h1st]; decide) h1b hl
    (by rw [h1c, h1r]; simp only [List.length_append, List.length_cons]; omega)
  -- the state handed to the loop body
  generalize hs2 : ({ s1 with
      m_read_buf := s1.m_read_buf.take s1.m_checked_idx ++ (line ++ 0 :: 0 ::
        (rest ++ List.replicate (READ_BUFFER_SIZE - (line ++ 13 :: 10 :: rest).length) 0))
      m_checked_idx := s1.m_checked_idx + line.length + 2 } : Conn) = s2 at hstep
  have h2st : s2.m_check_state = CHECK_STATE_REQUESTLINE := by rw [← hs2]; exact h1st
  have h2s : s2.m_start_line = 0 := by rw [← hs2]; exact h1s
  have h2o : out_view s2 = out_view (init s0) := by rw [← hs2]; exact h1o
  have h2b : cstr s2.m_read_buf 0 = c_line line := by
    rw [← hs2]
    exact cstr_line _ _ _ _ (by rw [h1c]; simp)
  have hnot : ¬ eq_ignore_case (method_token (cstr s2.m_read_buf 0)) (B "GET") := by
    rw [h2b, method_token_c_line, hm]
    decide
  have hbad := parse_request_line_not_get { s2 with m_start_line := s2.m_checked_idx } 0 hnot
  obtain ⟨buf, meth, ver, url, cs, hfr⟩ :=
    parse_request_line_frame { s2 with m_start_line := s2.m_checked_idx } 0
  have hbody : process_read_body fs s2 = Sum.inl (some (BAD_REQUEST,
      (parse_request_line { s2 with m_start_line := s2.m_checked_idx } 0).2)) := by
    rw [process_read_body_requestline fs s2 h2st, h2s, hbad.1]
    rfl
  refine ⟨(parse_request_line { s2 with m_start_line := s2.m_checked_idx } 0).2, ?_, ?_, ?_, ?_⟩
  · unfold read_event
    rw [hread]
    simp only
    unfold process_read
    rw [hstep, hbody]
  · rw [hbad.2]; exact h2st
  · apply is_error_response_of_out_view
    rw [hfr, ← out_view_init s0 hwf, ← h2o]
    rfl
  · decide

/-- C6 (failing input). The first line `POST /a<CR>b HTTP/1.1`, ended by CR LF, has
the method token POST. The scanner stops at the CR inside the line with LINE_BAD, and
`process_read` returns NO_REQUEST, not BAD_REQUEST; no response is built
(`m_write_idx` = 0). -/
theorem C6_post_line_with_bare_cr :
    method_token (B "POST /a\rb HTTP/1.1") = B "POST" ∧
    (read [RECV.bytes (B "POST /a\rb HTTP/1.1\r\n\r\n"), RECV.eagain] (init conn0)).map
        (fun r => (parse_line r.2).1) = some LINE_BAD ∧
    (read_event fs_sample (B "POST /a\rb HTTP/1.1\r\n\r\n") (init conn0)).map
        (fun r => (r.1, r.2.m_check_state, r.2.m_write_idx))
      = some (NO_REQUEST, CHECK_STATE_REQUESTLINE, 0) ∧
    process_write_in BUILD.call_undefined (init conn0) BAD_REQUEST = none := by
  decide!

/-! ## The request line leaves the rest of the buffer alone -/

theorem strpbrk_some (buf : List Nat) (p : Nat) (acc : List Nat) (v : Nat)
    (h : strpbrk buf p acc = some v) :
    ∃ a c b, cstr buf p = a ++ c :: b ∧ v = p + a.length := by
  unfold strpbrk at h
  rcases find_first_split (fun c => acc.contains c) (cstr buf p) with
    ⟨h1, _⟩ | ⟨a, c, b, h1, _, _, h4⟩
  · rw [h1] at h; simp at h
  · rw [h4] at h
    simp only [Option.map_some', Option.some.injEq] at h
    exact ⟨a, c, b, h1, h.symm⟩

theorem parse_request_version_buf (s : Conn) (u k : Nat)
    (hk : u + (cstr s.m_read_buf u).length ≤ k) :
    (parse_request_version s u).2.m_read_buf.drop k = s.m_read_buf.drop k := by
  unfold parse_request_version
  simp only
  split
  · rfl
  · next v hv =>
    obtain ⟨a, c, b, h1, h2⟩ := strpbrk_some _ _ _ _ hv
    have hvk : v < k := by
      rw [h1] at hk
      simp only [List.length_append, List.length_cons] at hk
      omega
    split
    · exact List.drop_set_of_lt _ _ hvk
    · obtain ⟨url, cs, h⟩ := parse_request_target_frame
        { s with m_read_buf := s.m_read_buf.set v 0, m_version := some (v + 1) } u
      rw [h]
      exact List.drop_set_of_lt _ _ hvk

theorem parse_request_line_buf (s : Conn) (text k : Nat)
    (hk : text + (cstr s.m_read_buf text).length ≤ k) :
    (parse_request_line s text).2.m_read_buf.drop k = s.m_read_buf.drop k := by
  unfold parse_request_line
  simp only
  split
  · rfl
  · next u hu =>
    obtain ⟨a, c, b, h1, h2⟩ := strpbrk_some _ _ _ _ hu
    have huk : u < k := by
      rw [h1] at hk
      simp only [List.length_append, List.length_cons] at hk
      omega
    split
    · obtain ⟨pre, tl, hp, htl, _, hset⟩ := cstr_cut _ _ _ _ _ h1
      have hb : cstr (s.m_read_buf.set u 0) (u + 1) = b := by
        rw [h2, hset]
        have e : pre ++ (a ++ 0 :: (b ++ tl)) = (pre ++ a ++ [0]) ++ (b ++ tl) := by simp
        rw [e]
        refine cstr_at _ _ _ _ (by simp only [List.length_append, List.length_singleton]; omega)
          ?_ htl
        intro x hx
        exact cstr_nz s.m_read_buf text x (by rw [h1]; simp [hx])
      rw [parse_request_version_buf _ _ k (by
        show u + 1 + (cstr (s.m_read_buf.set u 0) (u + 1)).length ≤ k
        rw [hb]
        rw [h1] at hk
        simp only [List.length_append, List.length_cons] at hk
        omega)]
      exact List.drop_set_of_lt _ _ huk
    · exact List.drop_set_of_lt _ _ huk

/-! ## Header lines -/

theorem strncasecmp_key (line key : List Nat) (n : Nat) (hl : ∀ c ∈ line, c ≠ 0)
    (hk : ∀ c ∈ key, c ≠ 0) (hn : key.length ≤ n) :
    strncasecmp line key n = 0 ↔ eq_ignore_case (line.take n) key := by
  unfold strncasecmp eq_ignore_case
  rw [List.take_of_length_le hn]
  exact strcasecmp_eq_zero _ _ (fun c hc => hl c (List.mem_of_mem_take hc)) hk

theorem drop_strspn (l acc : List Nat) :
    l.drop (strspn l acc) = l.dropWhile (fun c => acc.contains c) := by
  unfold strspn
  induction l with
  | nil => rfl
  | cons x xs ih =>
    by_cases hx : acc.contains x = true
    · rw [List.takeWhile_cons, List.dropWhile_cons]
      simp only [hx, if_true, List.length_cons, List.drop_succ_cons]
      exact ih
    · rw [List.takeWhile_cons, List.dropWhile_cons]
      simp only [hx, if_false, List.length_nil, List.drop_zero]
      rfl

/-- The function `parse_headers` on a line that is not blank: NO_REQUEST, with the linger
flag, the declared body length and the host pointer updated from the line. -/
theorem parse_headers_line (s : Conn) (text : Nat) (hne : s.m_read_buf.getD text 0 ≠ 0) :
    ∃ h, parse_headers s text = (NO_REQUEST, { s with
      m_linger := s.m_linger || header_linger (cstr s.m_read_buf text)
      m_content_length := header_length (cstr s.m_read_buf text) s.m_content_length
      m_host := h }) := by
  have hnz := cstr_nz s.m_read_buf text
  have hnzd : ∀ (n : Nat), ∀ c ∈ ((cstr s.m_read_buf text).drop n).dropWhile
      (fun c => (B " \t").contains c), c ≠ 0 := fun n c hc =>
    hnz c (List.mem_of_mem_drop ((List.dropWhile_suffix _).subset hc))
  unfold parse_headers
  simp only [hne, if_false]
  by_cases hC : eq_ignore_case ((cstr s.m_read_buf text).take 11) (B "Connection:")
  · have hC' := (strncasecmp_key _ (B "Connection:") 11 hnz (by decide) (by decide)).mpr hC
    have e2 : header_length (cstr s.m_read_buf text) s.m_content_length = s.m_content_length := by
      simp only [header_length, hC, if_true]
    simp only [hC', if_true, drop_strspn]
    by_cases hK : eq_ignore_case (((cstr s.m_read_buf text).drop 11).dropWhile
        (fun c => (B " \t").contains c)) (B "keep-alive")
    · have hK' := (strcasecmp_eq_zero _ (B "keep-alive") (hnzd 11) (by decide)).mpr hK
      have e1 : header_linger (cstr s.m_read_buf text) = true := by
        simp only [header_linger, hC, hK, and_self, decide_True]
      refine ⟨s.m_host, ?_⟩
      rw [e1, e2, Bool.or_true]
      simp only [hK', if_true]
    · have hK' : strcasecmp (((cstr s.m_read_buf text).drop 11).dropWhile
          (fun c => (B " \t").contains c)) (B "keep-alive") ≠ 0 := fun h0 =>
        hK ((strcasecmp_eq_zero _ (B "keep-alive") (hnzd 11) (by decide)).mp h0)
      have e1 : header_linger (cstr s.m_read_buf text) = false := by
        simp only [header_linger, hC, hK, and_false, decide_False]
      refine ⟨s.m_host, ?_⟩
      rw [e1, e2, Bool.or_false]
      simp only [hK', if_false]
  · have hC' : strncasecmp (cstr s.m_read_buf text) (B "Connection:") 11 ≠ 0 := fun h0 =>
      hC ((strncasecmp_key _ (B "Connection:") 11 hnz (by decide) (by decide)).mp h0)
    have e1 : header_linger (cstr s.m_read_buf text) = false := by
      simp only [header_linger, hC, false_and, decide_False]
    simp only [hC', if_false, drop_strspn]
    rw [e1, Bool.or_false]
    by_cases hL : eq_ignore_case ((cstr s.m_read_buf text).take 15) (B "Content-Length:")
    · have hL' := (strncasecmp_key _ (B "Content-Length:") 15 hnz (by decide) (by decide)).mpr hL
      have e2 : header_length (cstr s.m_read_buf text) s.m_content_length
          = to_int (atol (((cstr s.m_read_buf text).drop 15).dropWhile
              (fun c => (B " \t").contains c))) := by
        simp only [header_length, hC, hL, if_true, if_false]
      refine ⟨s.m_host, ?_⟩
      rw [e2]
      simp only [hL', if_true]
    · have hL' : strncasecmp (cstr s.m_read_buf text) (B "Content-Length:") 15 ≠ 0 := fun h0 =>
        hL ((strncasecmp_key _ (B "Content-Length:") 15 hnz (by decide) (by decide)).mp h0)
      have e2 : header_length (cstr s.m_read_buf text) s.m_content_length
          = s.m_content_length := by
        simp only [header_length, hC, hL, if_false]
      rw [e2]
      simp only [hL', if_false]
      split
      · exact ⟨_, rfl⟩
      · exact ⟨_, rfl⟩

/-- One pass of the loop over a header line that is not blank. -/
theorem header_step (fs : List Nat → Option Stat) (fuel : Nat) (s : Conn) (l rest : List Nat)
    (hst : s.m_check_state = CHECK_STATE_HEADER) (hsl : s.m_start_line = s.m_checked_idx)
    (hb : s.m_read_buf.drop s.m_checked_idx = l ++ 13 :: 10 :: rest)
    (hl : header_line_ok l) (hr : s.m_checked_idx + l.length + 2 ≤ s.m_read_idx) :
    ∃ h, process_read_loop fs (fuel + 1) LINE_OK s = process_read_loop fs fuel LINE_OK
      { s with
        m_read_buf := s.m_read_buf.take s.m_checked_idx ++ (l ++ 0 :: 0 :: rest)
        m_checked_idx := s.m_checked_idx + l.length + 2
        m_start_line := s.m_checked_idx + l.length + 2
        m_linger := s.m_linger || header_linger (c_line l)
        m_content_length := header_length (c_line l) s.m_content_length
        m_host := h } := by
  have hlen : s.m_checked_idx ≤ s.m_read_buf.length := by
    by_contra h
    rw [List.drop_of_length_le (by omega)] at hb
    simp at hb
  have hpre : (s.m_read_buf.take s.m_checked_idx).length = s.m_checked_idx := by
    simp only [List.length_take]; omega
  rw [loop_line_ok fs fuel s l rest (by rw [hst]; decide) hb hl.1 hr,
    process_read_body_header fs { s with
      m_read_buf := s.m_read_buf.take s.m_checked_idx ++ (l ++ 0 :: 0 :: rest)
      m_checked_idx := s.m_checked_idx + l.length + 2 } hst]
  simp only [hsl]
  have hne : (s.m_read_buf.take s.m_checked_idx ++ (l ++ 0 :: 0 :: rest)).getD
      s.m_checked_idx 0 ≠ 0 := by
    cases l with
    | nil => exact absurd rfl hl.2
    | cons x xs =>
      rw [List.cons_append, getD_at _ _ _ _ _ hpre.symm]
      exact hl.2
  obtain ⟨h, hp⟩ := parse_headers_line
    { s with
      m_read_buf := s.m_read_buf.take s.m_checked_idx ++ (l ++ 0 :: 0 :: rest)
      m_checked_idx := s.m_checked_idx + l.length + 2
      m_start_line := s.m_checked_idx + l.length + 2 } s.m_checked_idx hne
  have hcl : cstr (s.m_read_buf.take s.m_checked_idx ++ (l ++ 0 :: 0 :: rest)) s.m_checked_idx
      = c_line l := cstr_line _ _ _ _ hpre.symm
  simp only [hcl] at hp
  refine ⟨h, ?_⟩
  rw [hp]
  rfl

theorem header_block_append (hs : List (List Nat)) (rest : List Nat) :
    header_block hs rest = header_block hs [] ++ rest := by
  induction hs with
  | nil => rfl
  | cons l ls ih =>
    simp only [header_block]
    rw [ih]
    simp

theorem header_block_length (hs : List (List Nat)) (rest : List Nat) :
    (header_block hs rest).length = (header_block hs []).length + rest.length := by
  rw [header_block_append, List.length_append]

/-- The passes of the loop over the header lines `hs`, none of them blank. -/
theorem headers_loop (fs : List Nat → Option Stat) (hs : List (List Nat)) :
    ∀ (fuel : Nat) (s : Conn) (rest : List Nat),
      s.m_check_state = CHECK_STATE_HEADER → s.m_start_line = s.m_checked_idx →
      s.m_read_buf.drop s.m_checked_idx = header_block hs rest →
      (∀ l ∈ hs, header_line_ok l) →
      s.m_checked_idx + (header_block hs []).length ≤ s.m_read_idx →
      ∃ buf host,
        process_read_loop fs (fuel + hs.length) LINE_OK s = process_read_loop fs fuel LINE_OK
          { s with
            m_read_buf := buf
            m_checked_idx := s.m_checked_idx + (header_block hs []).length
            m_start_line := s.m_checked_idx + (header_block hs []).length
            m_linger := s.m_linger || headers_linger hs
            m_content_length := headers_length hs s.m_content_length
            m_host := host } ∧
        buf.drop (s.m_checked_idx + (header_block hs []).length) = rest ∧
        buf.take s.m_checked_idx = s.m_read_buf.take s.m_checked_idx := by
  induction hs with
  | nil =>
    intro fuel s rest hst hsl hb _ _
    refine ⟨s.m_read_buf, s.m_host, ?_, by simpa [header_block] using hb, rfl⟩
    have e : ({ s with
        m_read_buf := s.m_read_buf
        m_checked_idx := s.m_checked_idx + (header_block [] []).length
        m_start_line := s.m_checked_idx + (header_block [] []).length
        m_linger := s.m_linger || headers_linger []
        m_content_length := headers_length [] s.m_content_length
        m_host := s.m_host } : Conn) = s := by
      cases s
      simp only [header_block, headers_linger, headers_length, List.length_nil, Nat.add_zero,
        List.any_nil, Bool.or_false, List.foldl_nil] at hsl ⊢
      rw [hsl]
    rw [e]
    rfl
  | cons l ls ih =>
    intro fuel s rest hst hsl hb hok hr
    have hlen : s.m_checked_idx ≤ s.m_read_buf.length := by
      by_contra h
      rw [List.drop_of_length_le (by omega)] at hb
      simp [header_block] at hb
    have hpre : (s.m_read_buf.take s.m_checked_idx).length = s.m_checked_idx := by
      simp only [List.length_take]; omega
    have hb' : s.m_read_buf.drop s.m_checked_idx = l ++ 13 :: 10 :: header_block ls rest := hb
    have hr' : s.m_checked_idx + l.length + 2 + (header_block ls []).length ≤ s.m_read_idx := by
      simp only [header_block, List.length_append, List.length_cons] at hr
      omega
    obtain ⟨h, hstep⟩ := header_step fs (fuel + ls.length) s l (header_block ls rest) hst hsl hb'
      (hok l (by simp)) (by omega)
    have hdrop : (s.m_read_buf.take s.m_checked_idx ++
        (l ++ 0 :: 0 :: header_block ls rest)).drop (s.m_checked_idx + l.length + 2)
        = header_block ls rest := by
      have e : s.m_read_buf.take s.m_checked_idx ++ (l ++ 0 :: 0 :: header_block ls rest)
          = (s.m_read_buf.take s.m_checked_idx ++ l ++ [0, 0]) ++ header_block ls rest := by
        simp
      rw [e]
      exact drop_at _ _ _ (by
        simp only [List.length_append, List.length_cons, List.length_nil, hpre])
    obtain ⟨buf, host, hloop, hd, htk⟩ := ih fuel
      { s with
        m_read_buf := s.m_read_buf.take s.m_checked_idx ++ (l ++ 0 :: 0 :: header_block ls rest)
        m_checked_idx := s.m_checked_idx + l.length + 2
        m_start_line := s.m_checked_idx + l.length + 2
        m_linger := s.m_linger || header_linger (c_line l)
        m_content_length := header_length (c_line l) s.m_content_length
        m_host := h } rest hst rfl hdrop (fun x hx => hok x (by simp [hx])) hr'
    have hbl : (header_block (l :: ls) []).length = l.length + 2 + (header_block ls []).length := by
      simp only [header_block, List.length_append, List.length_cons]
      omega
    refine ⟨buf, host, ?_, ?_, ?_⟩
    · have e : fuel + (l :: ls).length = fuel + ls.length + 1 := by simp; omega
      rw [e, hstep, hloop]
      simp only [hbl, headers_linger, headers_length, List.any_cons, List.foldl_cons,
        Bool.or_assoc, Nat.add_assoc]
    · rw [hbl, ← hd]
      simp only [Nat.add_assoc]
    · have := congrArg (List.take s.m_checked_idx) htk
      simp only [List.take_take] at this
      rw [Nat.min_eq_left (by omega)] at this
      rw [this, List.take_append_of_le_length (by omega), List.take_take, Nat.min_self]

/-- The blank line with no body declared: the request is complete. -/
theorem blank_step_get (fs : List Nat → Option Stat) (fuel : Nat) (s : Conn) (rest : List Nat)
    (hst : s.m_check_state = CHECK_STATE_HEADER) (hsl : s.m_start_line = s.m_checked_idx)
    (hb : s.m_read_buf.drop s.m_checked_idx = 13 :: 10 :: rest)
    (hr : s.m_checked_idx + 2 ≤ s.m_read_idx) (hcl : s.m_content_length = 0) :
    process_read_loop fs (fuel + 1) LINE_OK s = do_request fs { s with
      m_read_buf := s.m_read_buf.take s.m_checked_idx ++ 0 :: 0 :: rest
      m_checked_idx := s.m_checked_idx + 2
      m_start_line := s.m_checked_idx + 2 } := by
  have hlen : s.m_checked_idx ≤ s.m_read_buf.length := by
    by_contra h
    rw [List.drop_of_length_le (by omega)] at hb
    simp at hb
  have hpre : (s.m_read_buf.take s.m_checked_idx).length = s.m_checked_idx := by
    simp only [List.length_take]; omega
  rw [loop_line_ok fs fuel s [] rest (by rw [hst]; decide) hb (by simp) (by simpa using hr),
    process_read_body_header fs { s with
      m_read_buf := s.m_read_buf.take s.m_checked_idx ++ ([] ++ 0 :: 0 :: rest)
      m_checked_idx := s.m_checked_idx + ([] : List Nat).length + 2 } hst]
  have hg : (s.m_read_buf.take s.m_checked_idx ++ 0 :: 0 :: rest).getD s.m_checked_idx 0 = 0 :=
    getD_at _ _ _ _ _ hpre.symm
  simp only [hsl, List.nil_append, List.length_nil, Nat.add_zero]
  unfold parse_headers
  simp only [hg, hcl, if_true, ne_eq, not_true_eq_false, if_false]
  rfl

/-- The blank line with a body declared, the body already in the buffer: the state
moves to the body and the next pass finds the request complete. -/
theorem blank_step_body (fs : List Nat → Option Stat) (fuel : Nat) (s : Conn) (rest : List Nat)
    (hst : s.m_check_state = CHECK_STATE_HEADER) (hsl : s.m_start_line = s.m_checked_idx)
    (hb : s.m_read_buf.drop s.m_checked_idx = 13 :: 10 :: rest)
    (hr : s.m_checked_idx + 2 ≤ s.m_read_idx) (hcl : s.m_content_length ≠ 0)
    (hlo : 0 ≤ s.m_content_length) (hR : s.m_read_idx ≤ READ_BUFFER_SIZE)
    (hfit : s.m_content_length + ((s.m_checked_idx + 2 : Nat) : Int) ≤ (s.m_read_idx : Int))
    (hin : ((s.m_checked_idx + 2 : Nat) : Int) + s.m_content_length
      < (s.m_read_buf.length : Int)) :
    ∃ buf, process_read_loop fs (fuel + 2) LINE_OK s = do_request fs { s with
      m_read_buf := buf
      m_checked_idx := s.m_checked_idx + 2
      m_start_line := s.m_checked_idx + 2
      m_check_state := CHECK_STATE_CONTENT } := by
  have hlen : s.m_checked_idx ≤ s.m_read_buf.length := by
    by_contra h
    rw [List.drop_of_length_le (by omega)] at hb
    simp at hb
  have hpre : (s.m_read_buf.take s.m_checked_idx).length = s.m_checked_idx := by
    simp only [List.length_take]; omega
  rw [loop_line_ok fs (fuel + 1) s [] rest (by rw [hst]; decide) hb (by simp) (by simpa using hr),
    process_read_body_header fs { s with
      m_read_buf := s.m_read_buf.take s.m_checked_idx ++ ([] ++ 0 :: 0 :: rest)
      m_checked_idx := s.m_checked_idx + ([] : List Nat).length + 2 } hst]
  have hg : (s.m_read_buf.take s.m_checked_idx ++ 0 :: 0 :: rest).getD s.m_checked_idx 0 = 0 :=
    getD_at _ _ _ _ _ hpre.symm
  simp only [hsl, List.nil_append, List.length_nil, Nat.add_zero]
  have hph : parse_headers { s with
      m_read_buf := s.m_read_buf.take s.m_checked_idx ++ 0 :: 0 :: rest
      m_checked_idx := s.m_checked_idx + 2
      m_start_line := s.m_checked_idx + 2 } s.m_checked_idx = (NO_REQUEST, { s with
      m_read_buf := s.m_read_buf.take s.m_checked_idx ++ 0 :: 0 :: rest
      m_checked_idx := s.m_checked_idx + 2
      m_start_line := s.m_checked_idx + 2
      m_check_state := CHECK_STATE_CONTENT }) := by
    unfold parse_headers
    simp only [hg, hcl, if_true, ne_eq, not_false_eq_true]
  rw [hph]
  simp only [reduceCtorEq, if_false]
  rw [process_read_loop_succ]
  have hcond : process_read_cond LINE_OK { s with
      m_read_buf := s.m_read_buf.take s.m_checked_idx ++ 0 :: 0 :: rest
      m_checked_idx := s.m_checked_idx + 2
      m_start_line := s.m_checked_idx + 2
      m_check_state := CHECK_STATE_CONTENT } = (LINE_OK, { s with
      m_read_buf := s.m_read_buf.take s.m_checked_idx ++ 0 :: 0 :: rest
      m_checked_idx := s.m_checked_idx + 2
      m_start_line := s.m_checked_idx + 2
      m_check_state := CHECK_STATE_CONTENT }) := by
    simp [process_read_cond]
  rw [hcond]
  simp only [ne_eq, not_true_eq_false, if_false]
  rw [process_read_body_content fs _ rfl]
  have hR' : READ_BUFFER_SIZE = 2048 := rfl
  have hblen : (s.m_read_buf.take s.m_checked_idx ++ 0 :: 0 :: rest).length
      = s.m_read_buf.length := by
    have e := congrArg List.length hb
    simp only [List.length_drop, List.length_cons] at e
    simp only [List.length_append, List.length_cons, hpre]
    omega
  have hpc : parse_content { s with
      m_read_buf := s.m_read_buf.take s.m_checked_idx ++ 0 :: 0 :: rest
      m_checked_idx := s.m_checked_idx + 2
      m_start_line := s.m_checked_idx + 2
      m_check_state := CHECK_STATE_CONTENT } (s.m_checked_idx + 2) = some (GET_REQUEST, { s with
      m_read_buf := (s.m_read_buf.take s.m_checked_idx ++ 0 :: 0 :: rest).set
        (((s.m_checked_idx + 2 : Nat) : Int) + s.m_content_length).toNat 0
      m_checked_idx := s.m_checked_idx + 2
      m_start_line := s.m_checked_idx + 2
      m_check_state := CHECK_STATE_CONTENT }) := by
    unfold parse_content
    rw [if_neg (by show ¬ (2 : Int) ^ 31 ≤ s.m_content_length + ((s.m_checked_idx + 2 : Nat) : Int); omega),
      if_pos (by show (s.m_read_idx : Int) ≥ s.m_content_length + ((s.m_checked_idx + 2 : Nat) : Int); omega),
      if_pos (by
        show 0 ≤ ((s.m_checked_idx + 2 : Nat) : Int) + s.m_content_length ∧
          ((s.m_checked_idx + 2 : Nat) : Int) + s.m_content_length
            < ((s.m_read_buf.take s.m_checked_idx ++ 0 :: 0 :: rest).length : Int)
        rw [hblen]
        exact ⟨by omega, hin⟩)]
  rw [hpc]
  exact ⟨_, rfl⟩

/-! ## A whole request read in one delivery -/

theorem c_line_length_le (l : List Nat) : (c_line l).length ≤ l.length :=
  (List.takeWhile_sublist _).length_le

theorem header_block_count (hs : List (List Nat)) (rest : List Nat) :
    hs.length ≤ (header_block hs rest).length := by
  induction hs with
  | nil => simp
  | cons l ls ih =>
    simp only [header_block, List.length_cons, List.length_append]
    omega

theorem to_int_range (i : Int) : -(2 : Int) ^ 31 ≤ to_int i ∧ to_int i < (2 : Int) ^ 31 := by
  unfold to_int
  omega

theorem header_length_lo (line : List Nat) (old : Int) (h : -(2 : Int) ^ 31 ≤ old) :
    -(2 : Int) ^ 31 ≤ header_length line old := by
  unfold header_length
  split
  · exact h
  · split
    · exact (to_int_range _).1
    · exact h

theorem headers_length_lo (hs : List (List Nat)) :
    ∀ old : Int, -(2 : Int) ^ 31 ≤ old → -(2 : Int) ^ 31 ≤ headers_length hs old := by
  induction hs with
  | nil => intro old h; exact h
  | cons l ls ih =>
    intro old h
    exact ih _ (header_length_lo _ _ h)

theorem take_split (P T r : List Nat) (k : Nat) (hk : P.length + T.length < k) :
    (P ++ (T ++ 0 :: r)).take k = P ++ (T ++ 0 :: r.take (k - P.length - T.length - 1)) := by
  obtain ⟨j, hj⟩ : ∃ j, k - P.length - T.length = j + 1 :=
    ⟨k - P.length - T.length - 1, by omega⟩
  rw [List.take_append_eq_append_take, List.take_of_length_le (by omega),
    List.take_append_eq_append_take, List.take_of_length_le (by omega), hj,
    List.take_succ_cons]
  simp

/-- The C string at `w` is the same in two buffers that agree on their first `k` bytes,
when it ends before `k`. -/
theorem cstr_of_take_eq (b b' : List Nat) (w k : Nat) (h : b'.take k = b.take k)
    (hk : k ≤ b.length) (hlt : w + (cstr b w).length < k) :
    cstr b' w = cstr b w := by
  have hw : w ≤ b.length := by omega
  have hnz := cstr_nz b w
  have hdrop : b.drop w = cstr b w ++ (b.drop w).dropWhile (fun c => c != 0) := by
    unfold cstr
    rw [List.takeWhile_append_dropWhile]
  have hdl : (b.drop w).length = b.length - w := List.length_drop _ _
  cases htl : (b.drop w).dropWhile (fun c => c != 0) with
  | nil =>
    rw [htl, List.append_nil] at hdrop
    have := congrArg List.length hdrop
    rw [hdl] at this
    omega
  | cons x r =>
    have hx : x = 0 := by
      have hh := List.head_dropWhile_not (fun c => c != 0) (b.drop w) (by rw [htl]; simp)
      simp only [htl, List.head_cons] at hh
      simpa using hh
    subst hx
    rw [htl] at hdrop
    have hb : b = b.take w ++ (cstr b w ++ 0 :: r) := by
      rw [← hdrop, List.take_append_drop]
    have hpre : (b.take w).length = w := by simp only [List.length_take]; omega
    generalize hT : cstr b w = T at hb hlt hnz ⊢
    generalize b.take w = P at hb hpre
    have hk2 : b.take k = P ++ (T ++ 0 :: r.take (k - P.length - T.length - 1)) := by
      rw [hb]
      exact take_split P T r k (by omega)
    have hb' : b' = P ++ (T ++ 0 :: (r.take (k - P.length - T.length - 1) ++ b'.drop k)) := by
      conv_lhs => rw [← List.take_append_drop k b', h, hk2]
      simp
    rw [hb']
    exact cstr_at _ _ _ _ hpre.symm hnz (by simp [List.takeWhile_cons])

theorem do_request_some (fs : List Nat → Option Stat) (s : Conn) (u : Nat)
    (hu : s.m_url = some u) :
    ∃ code rf st fa, do_request fs s = some (code, { s with
      m_real_file := rf, m_file_stat := st, m_file_address := fa }) ∧ code ≠ NO_REQUEST := by
  unfold do_request
  rw [hu]
  simp only
  split
  · exact ⟨NO_RESOURCE, _, _, _, rfl, by decide⟩
  · split
    · exact ⟨FORBIDDEN_REQUEST, _, _, _, rfl, by decide⟩
    · split
      · exact ⟨BAD_REQUEST, _, _, _, rfl, by decide⟩
      · exact ⟨FILE_REQUEST, _, _, _, rfl, by decide⟩

theorem do_request_file (fs : List Nat → Option Stat) (s : Conn) (u : Nat) (st : Stat)
    (hu : s.m_url = some u) (hlen : s.m_real_file.length = FILENAME_LEN)
    (hlast : s.m_real_file.getD (FILENAME_LEN - 1) 0 = 0)
    (hfs : fs (resolved_path (cstr s.m_read_buf u)) = some st)
    (hr : st.st_mode &&& S_IROTH ≠ 0) (hd : S_ISDIR st.st_mode = false) :
    ∃ rf, do_request fs s = some (FILE_REQUEST, { s with
      m_real_file := rf, m_file_stat := st, m_file_address := some st.st_size }) := by
  unfold do_request
  rw [hu]
  simp only
  rw [real_file_cstr _ _ hlen hlast (cstr_nz _ _), hfs]
  simp only [hr, hd, if_false, Bool.false_eq_true]
  exact ⟨_, rfl⟩

/-- A request read in one delivery: a request line `meth sep target sep version` that
`parse_request_line` accepts, the header lines `hs`, the blank line and a body no
shorter than declared. `process_read` ends in `do_request`, on a state whose linger
flag is the one the header lines ask for; when no body is declared, `m_url` still is
the stripped target. The declared length is not negative, and a body that is declared
leaves a byte of the buffer free (the byte `parse_content` clears after it). -/
theorem read_request (fs : List Nat → Option Stat) (s0 : Conn) (rl : List Nat)
    (hs : List (List Nat)) (body meth target version : List Nat) (sep1 sep2 : Nat)
    (hwf : WF s0) (hrl : ∀ c ∈ rl, c ≠ 13 ∧ c ≠ 10)
    (hcl : c_line rl = meth ++ sep1 :: (target ++ sep2 :: version))
    (hm : eq_ignore_case meth (B "GET")) (h1 : sep1 = 32 ∨ sep1 = 9)
    (h2 : sep2 = 32 ∨ sep2 = 9) (ht : ∀ c ∈ target, c ≠ 32 ∧ c ≠ 9)
    (hv : eq_ignore_case version (B "HTTP/1.1")) (htg : (strip_http target).head? = some 47)
    (hh : ∀ l ∈ hs, header_line_ok l)
    (hbody : 0 ≤ headers_length hs 0 ∧ headers_length hs 0 ≤ (body.length : Int))
    (hfit : (rl ++ 13 :: 10 :: header_block hs (13 :: 10 :: body)).length ≤ READ_BUFFER_SIZE)
    (hroom : headers_length hs 0 = 0 ∨
      (rl ++ 13 :: 10 :: header_block hs (13 :: 10 :: body)).length < READ_BUFFER_SIZE) :
    ∃ sf w, read_event fs (rl ++ 13 :: 10 :: header_block hs (13 :: 10 :: body)) (init s0)
        = do_request fs sf ∧
      sf.m_url = some w ∧ sf.m_linger = headers_linger hs ∧
      sf.m_write_buf = (init s0).m_write_buf ∧ sf.m_write_idx = 0 ∧
      sf.m_real_file = (init s0).m_real_file ∧
      (headers_length hs 0 = 0 → cstr sf.m_read_buf w = strip_http target) := by
  have hR : READ_BUFFER_SIZE = 2048 := rfl
  have hne : rl ++ 13 :: 10 :: header_block hs (13 :: 10 :: body) ≠ [] := by simp
  have hread := read_fresh s0 _ hwf hne hfit
  have hcount := header_block_count hs (13 :: 10 :: body)
  have hbl : (header_block hs (13 :: 10 :: body)).length
      = (header_block hs []).length + (2 + body.length) := by
    rw [header_block_length]; simp only [List.length_cons]; omega
  have hreq : (rl ++ 13 :: 10 :: header_block hs (13 :: 10 :: body)).length
      = rl.length + 2 + ((header_block hs []).length + (2 + body.length)) := by
    simp only [List.length_append, List.length_cons, hbl, List.length_nil]
    omega
  generalize hz : List.replicate
    (READ_BUFFER_SIZE - (rl ++ 13 :: 10 :: header_block hs (13 :: 10 :: body)).length) 0 = zs
    at hread
  -- the state after the read
  generalize hs1 : ({ init s0 with
      m_read_buf := (rl ++ 13 :: 10 :: header_block hs (13 :: 10 :: body)) ++ zs
      m_read_idx := (rl ++ 13 :: 10 :: header_block hs (13 :: 10 :: body)).length } : Conn)
    = s1 at hread
  have h1b : s1.m_read_buf.drop s1.m_checked_idx
      = rl ++ 13 :: 10 :: (header_block hs (13 :: 10 :: body) ++ zs) := by
    rw [← hs1]; simp [init]
  have h1c : s1.m_checked_idx = 0 := by rw [← hs1]; rfl
  have h1s : s1.m_start_line = 0 := by rw [← hs1]; rfl
  have h1r : s1.m_read_idx = (rl ++ 13 :: 10 :: header_block hs (13 :: 10 :: body)).length := by
    rw [← hs1]
  have h1st : s1.m_check_state = CHECK_STATE_REQUESTLINE := by rw [← hs1]; rfl
  have h1l : s1.m_linger = false := by rw [← hs1]; rfl
  have h1cl : s1.m_content_length = 0 := by rw [← hs1]; rfl
  have h1w : s1.m_write_buf = (init s0).m_write_buf ∧ s1.m_write_idx = 0 ∧
      s1.m_real_file = (init s0).m_real_file := by rw [← hs1]; exact ⟨rfl, rfl, rfl⟩
  clear hs1
  obtain ⟨k, hk⟩ : ∃ k, s1.m_read_idx - s1.m_checked_idx + 3 = (k + 2 + hs.length) + 1 :=
    ⟨s1.m_read_idx - hs.length, by rw [h1c, h1r, hreq]; rw [hbl] at hcount; omega⟩
  have hstep := loop_line_ok fs (k + 2 + hs.length) s1 rl _
    (by rw [h1st]; decide) h1b hrl (by rw [h1c, h1r, hreq]; omega)
  rw [h1c] at hstep
  simp only [List.take_zero, List.nil_append, Nat.zero_add] at hstep
  -- the state handed to the loop body for the request line
  generalize hs2 : ({ s1 with
      m_read_buf := rl ++ 0 :: 0 :: (header_block hs (13 :: 10 :: body) ++ zs)
      m_checked_idx := rl.length + 2 } : Conn) = s2 at hstep
  have h2st : s2.m_check_state = CHECK_STATE_REQUESTLINE := by rw [← hs2]; exact h1st
  have h2s : s2.m_start_line = 0 := by rw [← hs2]; exact h1s
  have h2c : s2.m_checked_idx = rl.length + 2 := by rw [← hs2]
  have h2r : s2.m_read_idx = s1.m_read_idx := by rw [← hs2]
  have h2b : s2.m_read_buf = rl ++ 0 :: 0 :: (header_block hs (13 :: 10 :: body) ++ zs) := by
    rw [← hs2]
  have h2l : s2.m_linger = false := by rw [← hs2]; exact h1l
  have h2cl : s2.m_content_length = 0 := by rw [← hs2]; exact h1cl
  have h2w : s2.m_write_buf = (init s0).m_write_buf ∧ s2.m_write_idx = 0 ∧
      s2.m_real_file = (init s0).m_real_file := by rw [← hs2]; exact h1w
  clear hs2
  have h2cs : cstr s2.m_read_buf 0 = c_line rl := by
    rw [h2b]
    exact cstr_line [] rl _ 0 rfl
  have hacc := (parse_request_line_accept { s2 with m_start_line := s2.m_checked_idx } 0
    sep1 sep2 meth target version (by rw [← hcl]; exact h2cs) hm h1 h2 ht).1 ⟨hv, htg⟩
  obtain ⟨buf3, meth3, ver3, url3, cs3, hfr⟩ :=
    parse_request_line_frame { s2 with m_start_line := s2.m_checked_idx } 0
  have hbuf3 := parse_request_line_buf { s2 with m_start_line := s2.m_checked_idx } 0
    (rl.length + 2) (by
      show 0 + (cstr s2.m_read_buf 0).length ≤ rl.length + 2
      rw [h2cs]
      have := c_line_length_le rl
      omega)
  have hbuf3len : (parse_request_line { s2 with m_start_line := s2.m_checked_idx }
      0).2.m_read_buf.length = s2.m_read_buf.length := by
    have e1 := congrArg List.length hbuf3
    have hsub : rl.length + 2 < s2.m_read_buf.length := by
      rw [h2b]; simp only [List.length_append, List.length_cons, hbl]; omega
    have e0 := parse_request_line_buf { s2 with m_start_line := s2.m_checked_idx } 0
      s2.m_read_buf.length (by
        show 0 + (cstr s2.m_read_buf 0).length ≤ s2.m_read_buf.length
        rw [h2cs, h2b]
        have := c_line_length_le rl
        simp only [List.length_append, List.length_cons]
        omega)
    simp only [List.length_drop] at e1
    have e2 := congrArg List.length e0
    simp only [List.length_drop, Nat.sub_self] at e2
    omega
  rw [process_read_body_requestline fs s2 h2st, h2s, hacc.1] at hstep
  simp only [reduceCtorEq, if_false] at hstep
  obtain ⟨w, hw1, hw2, hw3⟩ := hacc.2.2
  -- the state after the request line
  generalize hs3 : (parse_request_line { s2 with m_start_line := s2.m_checked_idx } 0).2 = s3
    at hstep hfr hbuf3 hbuf3len hw1 hw2 hacc
  have h3st : s3.m_check_state = CHECK_STATE_HEADER := hacc.2.1
  have h3c : s3.m_checked_idx = rl.length + 2 := by rw [hfr]; exact h2c
  have h3s : s3.m_start_line = s3.m_checked_idx := by rw [hfr]
  have h3r : s3.m_read_idx = s1.m_read_idx := by rw [hfr]; exact h2r
  have h3l : s3.m_linger = false := by rw [hfr]; exact h2l
  have h3cl : s3.m_content_length = 0 := by rw [hfr]; exact h2cl
  have h3w : s3.m_write_buf = (init s0).m_write_buf ∧ s3.m_write_idx = 0 ∧
      s3.m_real_file = (init s0).m_real_file := by rw [hfr]; exact h2w
  have h3b : s3.m_read_buf.drop s3.m_checked_idx
      = header_block hs (13 :: 10 :: (body ++ zs)) := by
    rw [h3c, hbuf3]
    show s2.m_read_buf.drop (rl.length + 2) = _
    rw [h2b]
    have e : rl ++ 0 :: 0 :: (header_block hs (13 :: 10 :: body) ++ zs)
        = (rl ++ [0, 0]) ++ (header_block hs (13 :: 10 :: body) ++ zs) := by simp
    rw [e, drop_at _ _ _ (by simp)]
    rw [header_block_append hs (13 :: 10 :: body), header_block_append hs (13 :: 10 :: (body ++ zs))]
    simp
  have hbl3 : (header_block hs (13 :: 10 :: (body ++ zs))).length
      = (header_block hs []).length + (2 + (body.length + zs.length)) := by
    rw [header_block_length]; simp only [List.length_cons, List.length_append]; omega
  have hzs : zs.length = READ_BUFFER_SIZE
      - (rl ++ 13 :: 10 :: header_block hs (13 :: 10 :: body)).length := by
    rw [← hz, List.length_replicate]
  have h3len : s3.m_read_buf.length = READ_BUFFER_SIZE := by
    rw [hbuf3len, h2b]
    simp only [List.length_append, List.length_cons, hbl, List.length_nil, hzs, hreq]
    rw [hreq] at hfit
    omega
  obtain ⟨buf4, host4, hloop, hd4, htk4⟩ := headers_loop fs hs (k + 2) s3
    (13 :: 10 :: (body ++ zs)) h3st h3s h3b hh (by
      rw [h3c, h3r, h1r, hreq]
      omega)
  rw [hloop] at hstep
  -- the state at the blank line
  generalize hs4 : ({ s3 with
      m_read_buf := buf4
      m_checked_idx := s3.m_checked_idx + (header_block hs []).length
      m_start_line := s3.m_checked_idx + (header_block hs []).length
      m_linger := s3.m_linger || headers_linger hs
      m_content_length := headers_length hs s3.m_content_length
      m_host := host4 } : Conn) = s4 at hstep
  have h4st : s4.m_check_state = CHECK_STATE_HEADER := by rw [← hs4]; exact h3st
  have h4c : s4.m_checked_idx = rl.length + 2 + (header_block hs []).length := by
    rw [← hs4]; simp only [h3c]
  have h4s : s4.m_start_line = s4.m_checked_idx := by rw [← hs4]
  have h4r : s4.m_read_idx = s1.m_read_idx := by rw [← hs4]; exact h3r
  have h4l : s4.m_linger = headers_linger hs := by rw [← hs4]; simp only [h3l, Bool.false_or]
  have h4cl : s4.m_content_length = headers_length hs 0 := by rw [← hs4]; simp only [h3cl]
  have h4u : s4.m_url = some w := by rw [← hs4]; exact hw1
  have h4w : s4.m_write_buf = (init s0).m_write_buf ∧ s4.m_write_idx = 0 ∧
      s4.m_real_file = (init s0).m_real_file := by rw [← hs4]; exact h3w
  have h4b : s4.m_read_buf = buf4 := by rw [← hs4]
  clear hs4
  rw [h3c] at hd4 htk4
  have h4d : s4.m_read_buf.drop s4.m_checked_idx = 13 :: 10 :: (body ++ zs) := by
    rw [h4b, h4c]; exact hd4
  have h4rr : s4.m_checked_idx + 2 + body.length = s4.m_read_idx := by
    rw [h4c, h4r, h1r, hreq]; omega
  unfold read_event
  rw [hread]
  simp only
  unfold process_read
  rw [hk, hstep]
  by_cases hzero : headers_length hs 0 = 0
  · -- no body declared
    have e : k + 2 = (k + 1) + 1 := rfl
    rw [e, blank_step_get fs (k + 1) s4 _ h4st h4s h4d (by omega) (by rw [h4cl]; exact hzero)]
    refine ⟨_, w, rfl, h4u, h4l, h4w.1, h4w.2.1, h4w.2.2, fun _ => ?_⟩
    show cstr (s4.m_read_buf.take s4.m_checked_idx ++ 0 :: 0 :: (body ++ zs)) w = _
    rw [← hw2]
    have hclen : (c_line rl).length ≤ rl.length := c_line_length_le rl
    have hcl' := congrArg List.length hcl
    simp only [List.length_append, List.length_cons] at hcl'
    apply cstr_of_take_eq _ _ w (rl.length + 2)
    · rw [List.take_append_of_le_length (by
        simp only [List.length_take]
        have := congrArg List.length h4d
        simp only [List.length_drop, List.length_cons] at this
        omega)]
      rw [List.take_take, Nat.min_eq_left (by omega), h4b]
      exact htk4
    · omega
    · rw [hw2]; omega
  · -- a body is declared and is in the buffer
    have e4 := congrArg List.length h4d
    simp only [List.length_drop, List.length_cons, List.length_append] at e4
    have h4len : s4.m_read_buf.length = READ_BUFFER_SIZE := by omega
    have hlt := hroom.resolve_left hzero
    have hb1 := hbody.1
    have hb2 := hbody.2
    have hin : ((s4.m_checked_idx + 2 : Nat) : Int) + s4.m_content_length
        < (s4.m_read_buf.length : Int) := by
      rw [h4cl, h4len]
      omega
    obtain ⟨buf5, h5⟩ := blank_step_body fs k s4 _ h4st h4s h4d (by omega)
      (by rw [h4cl]; exact hzero)
      (by rw [h4cl]; exact hbody.1)
      (by rw [h4r, h1r]; exact hfit)
      (by rw [h4cl]; have := h4rr; omega) hin
    rw [h5]
    exact ⟨_, w, rfl, h4u, h4l, h4w.1, h4w.2.1, h4w.2.2, fun h0 => absurd h0 hzero⟩

/-! ## What building the response leaves of the linger flag -/

theorem unmap_linger (s : Conn) : (unmap s).m_linger = s.m_linger := by
  unfold unmap
  split <;> rfl

theorem add_response_linger (s : Conn) (out : List Nat) :
    (add_response s out).2.m_linger = s.m_linger := by
  unfold add_response
  simp only
  split_ifs <;> rfl

theorem add_headers_linger (s : Conn) (n : Int) : (add_headers s n).m_linger = s.m_linger := by
  unfold add_headers add_blank_line add_linger add_content_type add_content_length
  simp only [add_response_linger]

theorem process_write_linger (s : Conn) (c : HTTP_CODE) :
    (process_write s c).2.m_linger = s.m_linger := by
  have herr : ∀ (status : Int) (title form : List Nat),
      (process_write_error s status title form).2.m_linger = s.m_linger := by
    intro status title form
    unfold process_write_error add_content add_status_line
    simp only
    split_ifs
    · simp only [add_response_linger, add_headers_linger]
    · simp only [process_write_single, add_response_linger, add_headers_linger]
  unfold process_write
  split
  · exact herr _ _ _
  · exact herr _ _ _
  · exact herr _ _ _
  · exact herr _ _ _
  · simp only [add_status_line, add_headers_linger, add_response_linger]
  · rfl

/-! ## C4: the 200 response -/

theorem digitChar_toNat (d : Nat) (h : d < 10) : (Nat.digitChar d).toNat = 48 + d := by
  interval_cases d <;> rfl

theorem dec_digits_eq (f : Nat) : ∀ (n : Nat) (ds : List Char),
    dec_digits f n (ds.map Char.toNat) = (Nat.toDigitsCore 10 f n ds).map Char.toNat := by
  induction f with
  | zero => intro n ds; rfl
  | succ f ih =>
    intro n ds
    have hd := digitChar_toNat (n % 10) (Nat.mod_lt _ (by decide))
    simp only [dec_digits, Nat.toDigitsCore]
    split_ifs with h0
    · simp [hd]
    · rw [← ih]
      simp [hd]

/-- The conversion `%d` prints a non-negative value as its decimal numeral. -/
theorem fmt_d_nat (n : Nat) : fmt_d (n : Int) = B (toString n) := by
  have h := dec_digits_eq (n + 1) n []
  unfold fmt_d
  simp only [Int.natCast_nonneg, not_lt.mpr, if_false, Int.toNat_ofNat]
  exact h

theorem dec_digits_length (f : Nat) : ∀ (k n : Nat) (acc : List Nat), 1 ≤ k → n < 10 ^ k →
    (dec_digits f n acc).length ≤ acc.length + k := by
  induction f with
  | zero => intro k n acc _ _; simp [dec_digits]
  | succ f ih =>
    intro k n acc hk hn
    simp only [dec_digits]
    split_ifs with h0
    · simp only [List.length_cons]; omega
    · have hn10 : 10 ≤ n := by
        by_contra hlt
        exact h0 (Nat.div_eq_of_lt (by omega))
      obtain ⟨j, rfl⟩ : ∃ j, k = j + 1 := ⟨k - 1, by omega⟩
      have hj : 1 ≤ j := by
        by_contra hj0
        have : j = 0 := by omega
        subst this
        simp at hn
        omega
      have hdiv : n / 10 < 10 ^ j := by
        rw [Nat.div_lt_iff_lt_mul (by decide)]
        rw [Nat.pow_succ] at hn
        exact hn
      have := ih j (n / 10) ((48 + n % 10) :: acc) hj hdiv
      simp only [List.length_cons] at this
      omega

theorem digits_length (n : Nat) (h : n < 2 ^ 31) : (B (toString n)).length ≤ 10 := by
  rw [← fmt_d_nat]
  unfold fmt_d
  simp only [Int.natCast_nonneg, not_lt.mpr, if_false, Int.toNat_ofNat]
  have := dec_digits_length (n + 1) 10 n [] (by decide) (by omega)
  simpa using this

theorem to_int_nat (n : Nat) (h : n < 2 ^ 31) : to_int (n : Int) = (n : Int) := by
  unfold to_int
  omega

/-- A call of `add_response` that fits: the text is appended to what the buffer holds. -/
theorem add_response_ok (s : Conn) (out wr : List Nat)
    (hlen : s.m_write_buf.length = WRITE_BUFFER_SIZE)
    (hw : s.m_write_buf.take s.m_write_idx = wr) (hi : s.m_write_idx = wr.length)
    (hfit : wr.length + out.length + 1 < WRITE_BUFFER_SIZE) :
    ∃ buf, add_response s out = (true, { s with
        m_write_buf := buf, m_write_idx := wr.length + out.length }) ∧
      buf.length = WRITE_BUFFER_SIZE ∧ buf.take (wr.length + out.length) = wr ++ out := by
  have hW : WRITE_BUFFER_SIZE = 1024 := rfl
  rw [hW] at hlen hfit
  refine ⟨store s.m_write_buf s.m_write_idx (out ++ [0]), ?_, ?_, ?_⟩
  · unfold add_response
    have h1 : ¬ s.m_write_idx ≥ WRITE_BUFFER_SIZE := by rw [hW]; omega
    have h2 : ¬ WRITE_BUFFER_SIZE - 1 - s.m_write_idx = 0 := by rw [hW]; omega
    have h3 : ¬ out.length ≥ WRITE_BUFFER_SIZE - 1 - s.m_write_idx := by rw [hW]; omega
    have h4 : out.take (WRITE_BUFFER_SIZE - 1 - s.m_write_idx - 1) = out :=
      List.take_of_length_le (by rw [hW]; omega)
    simp only [h1, h2, h3, h4, if_false]
    rw [hi]
  · unfold store
    rw [List.length_take, List.length_append, List.length_append, List.length_take,
      List.length_drop, List.length_append, List.length_singleton, hW]
    omega
  · rw [store_eq _ _ _ (by rw [List.length_append, List.length_singleton]; omega), hw,
      List.append_assoc, List.append_assoc, ← List.append_assoc wr out,
      List.take_append_of_le_length (by rw [List.length_append]),
      List.take_of_length_le (by rw [List.length_append])]

theorem add_linger_close (s : Conn) (hl : s.m_linger = false) :
    add_linger s = add_response s (B "Connection: " ++ B "close" ++ B "\r\n") := by
  unfold add_linger
  rw [hl]
  rfl

/-- The header block `add_headers` appends for a content length `n` on a connection
that is not kept alive. -/
theorem add_headers_ok (s : Conn) (wr : List Nat) (n : Nat)
    (hlen : s.m_write_buf.length = WRITE_BUFFER_SIZE)
    (hw : s.m_write_buf.take s.m_write_idx = wr) (hi : s.m_write_idx = wr.length)
    (hl : s.m_linger = false) (hn : n < 2 ^ 31) (hfit : wr.length + 80 < WRITE_BUFFER_SIZE) :
    ∃ buf, add_headers s (to_int (n : Int)) = { s with
        m_write_buf := buf
        m_write_idx := (wr ++ (B "Content-Length: " ++ B (toString n) ++ B "\r\n" ++
          B "Content-Type:text/html\r\n" ++ B "Connection: close\r\n" ++ B "\r\n")).length } ∧
      buf.length = WRITE_BUFFER_SIZE ∧
      buf.take (wr ++ (B "Content-Length: " ++ B (toString n) ++ B "\r\n" ++
          B "Content-Type:text/html\r\n" ++ B "Connection: close\r\n" ++ B "\r\n")).length
        = wr ++ (B "Content-Length: " ++ B (toString n) ++ B "\r\n" ++
          B "Content-Type:text/html\r\n" ++ B "Connection: close\r\n" ++ B "\r\n") := by
  have hd := digits_length n hn
  have hW : WRITE_BUFFER_SIZE = 1024 := rfl
  have e1 : (B "Content-Length: ").length = 16 := by decide
  have e2 : (B "\r\n").length = 2 := by decide
  have e3 : (B "Content-Type:" ++ B "text/html" ++ B "\r\n").length = 24 := by decide
  have e4 : (B "Connection: " ++ B "close" ++ B "\r\n").length = 19 := by decide
  have e5 : B "Content-Type:" ++ B "text/html" ++ B "\r\n" = B "Content-Type:text/html\r\n" := by
    decide
  have e6 : B "Connection: " ++ B "close" ++ B "\r\n" = B "Connection: close\r\n" := by decide
  unfold add_headers add_blank_line add_content_type add_content_length
  rw [to_int_nat n hn, fmt_d_nat]
  obtain ⟨b1, h1, l1, t1⟩ := add_response_ok s (B "Content-Length: " ++ B (toString n) ++ B "\r\n")
    wr hlen hw hi (by simp only [List.length_append, e1, e2]; omega)
  rw [h1]
  simp only
  obtain ⟨b2, h2, l2, t2⟩ := add_response_ok
    { s with m_write_buf := b1
             m_write_idx := wr.length + (B "Content-Length: " ++ B (toString n) ++ B "\r\n").length }
    (B "Content-Type:" ++ B "text/html" ++ B "\r\n")
    (wr ++ (B "Content-Length: " ++ B (toString n) ++ B "\r\n")) l1 t1
    (by simp only [List.length_append])
    (by rw [e3]; simp only [List.length_append, e1, e2]; omega)
  rw [h2]
  simp only
  rw [add_linger_close { s with
    m_write_buf := b2
    m_write_idx := (wr ++ (B "Content-Length: " ++ B (toString n) ++ B "\r\n")).length
      + (B "Content-Type:" ++ B "text/html" ++ B "\r\n").length } hl]
  obtain ⟨b3, h3, l3, t3⟩ := add_response_ok
    { s with m_write_buf := b2
             m_write_idx := (wr ++ (B "Content-Length: " ++ B (toString n) ++ B "\r\n")).length
               + (B "Content-Type:" ++ B "text/html" ++ B "\r\n").length }
    (B "Connection: " ++ B "close" ++ B "\r\n")
    (wr ++ (B "Content-Length: " ++ B (toString n) ++ B "\r\n") ++
      (B "Content-Type:" ++ B "text/html" ++ B "\r\n")) l2 t2
    (by simp only [List.length_append])
    (by rw [e4]; simp only [List.length_append, e1, e2] at e3 ⊢; omega)
  rw [h3]
  simp only
  obtain ⟨b4, h4, l4, t4⟩ := add_response_ok
    { s with m_write_buf := b3
             m_write_idx := (wr ++ (B "Content-Length: " ++ B (toString n) ++ B "\r\n") ++
               (B "Content-Type:" ++ B "text/html" ++ B "\r\n")).length
               + (B "Connection: " ++ B "close" ++ B "\r\n").length }
    (B "\r\n")
    (wr ++ (B "Content-Length: " ++ B (toString n) ++ B "\r\n") ++
      (B "Content-Type:" ++ B "text/html" ++ B "\r\n") ++
      (B "Connection: " ++ B "close" ++ B "\r\n")) l3 t3
    (by simp only [List.length_append])
    (by simp only [List.length_append, e1, e2] at e3 e4 ⊢; omega)
  rw [h4]
  have efin : wr ++ (B "Content-Length: " ++ B (toString n) ++ B "\r\n") ++
      (B "Content-Type:" ++ B "text/html" ++ B "\r\n") ++
      (B "Connection: " ++ B "close" ++ B "\r\n") ++ B "\r\n"
      = wr ++ (B "Content-Length: " ++ B (toString n) ++ B "\r\n" ++
          B "Content-Type:text/html\r\n" ++ B "Connection: close\r\n" ++ B "\r\n") := by
    rw [e5, e6]
    simp only [List.append_assoc]
  refine ⟨b4, ?_, l4, ?_⟩
  · simp only
    rw [← efin]
    simp only [List.length_append]
  · rw [← efin, List.length_append]
    exact t4

theorem file_header_eq (n : Nat) :
    file_header n = ([] ++ (B "HTTP/1.1" ++ B " " ++ fmt_d 200 ++ B " " ++ ok_200_title ++ B "\r\n"))
      ++ (B "Content-Length: " ++ B (toString n) ++ B "\r\n" ++
          B "Content-Type:text/html\r\n" ++ B "Connection: close\r\n" ++ B "\r\n") := by
  have e1 : B "HTTP/1.1 200 OK\r\nContent-Length: "
      = (B "HTTP/1.1" ++ B " " ++ fmt_d 200 ++ B " " ++ ok_200_title ++ B "\r\n")
        ++ B "Content-Length: " := by decide
  have e2 : B "\r\nContent-Type:text/html\r\nConnection: close\r\n\r\n"
      = B "\r\n" ++ B "Content-Type:text/html\r\n" ++ B "Connection: close\r\n" ++ B "\r\n" := by
    decide
  unfold file_header
  rw [e1, e2]
  simp only [List.append_assoc, List.nil_append]

theorem file_header_length (n : Nat) (hn : n < 2 ^ 31) : (file_header n).length ≤ 107 := by
  have hd := digits_length n hn
  have e1 : (B "HTTP/1.1 200 OK\r\nContent-Length: ").length = 33 := by decide
  have e2 : (B "\r\nContent-Type:text/html\r\nConnection: close\r\n\r\n").length = 47 := by decide
  unfold file_header
  simp only [List.length_append, e1, e2]
  omega

/-- The 200 response `process_write` builds on a connection with an empty write buffer
and the linger flag clear, for a file whose size fits an `int` together with the
header. -/
theorem process_write_file (s : Conn) (hbuf : s.m_write_buf.length = WRITE_BUFFER_SIZE)
    (hidx : s.m_write_idx = 0) (hl : s.m_linger = false)
    (hsz : (file_header s.m_file_stat.st_size).length + s.m_file_stat.st_size < 2 ^ 31) :
    ∃ s2, process_write s FILE_REQUEST = (true, s2) ∧
      s2.m_write_buf.take s2.m_write_idx = file_header s.m_file_stat.st_size ∧
      s2.m_iv_count = 2 ∧
      s2.m_iv0 = { base := 0, len := (file_header s.m_file_stat.st_size).length } ∧
      s2.m_iv1 = { base := 0, len := s.m_file_stat.st_size } ∧
      s2.bytes_to_send
        = (((file_header s.m_file_stat.st_size).length + s.m_file_stat.st_size : Nat) : Int) := by
  have hn : s.m_file_stat.st_size < 2 ^ 31 := by omega
  have hW : WRITE_BUFFER_SIZE = 1024 := rfl
  have eo : (B "HTTP/1.1" ++ B " " ++ fmt_d 200 ++ B " " ++ ok_200_title ++ B "\r\n").length
      = 17 := by decide
  obtain ⟨b1, h1, l1, t1⟩ := add_response_ok s
    (B "HTTP/1.1" ++ B " " ++ fmt_d 200 ++ B " " ++ ok_200_title ++ B "\r\n") []
    hbuf (by rw [hidx]; rfl) (by rw [hidx]; rfl) (by rw [eo, hW]; decide)
  obtain ⟨b2, h2, l2, t2⟩ := add_headers_ok
    { s with
      m_write_buf := b1
      m_write_idx := ([] : List Nat).length
        + (B "HTTP/1.1" ++ B " " ++ fmt_d 200 ++ B " " ++ ok_200_title ++ B "\r\n").length }
    ([] ++ (B "HTTP/1.1" ++ B " " ++ fmt_d 200 ++ B " " ++ ok_200_title ++ B "\r\n"))
    s.m_file_stat.st_size l1 t1 (by simp only [List.length_append]) hl hn
    (by simp only [List.length_append, List.length_nil, Nat.zero_add] at eo ⊢
        rw [hW]; omega)
  have hpw : process_write s FILE_REQUEST = (true, { add_headers (add_status_line s 200 ok_200_title).2
        (to_int (add_status_line s 200 ok_200_title).2.m_file_stat.st_size) with
      m_iv0 := { base := 0, len := (add_headers (add_status_line s 200 ok_200_title).2
        (to_int (add_status_line s 200 ok_200_title).2.m_file_stat.st_size)).m_write_idx }
      m_iv1 := { base := 0, len := (add_headers (add_status_line s 200 ok_200_title).2
        (to_int (add_status_line s 200 ok_200_title).2.m_file_stat.st_size)).m_file_stat.st_size }
      m_iv_count := 2
      bytes_to_send := to_int (((add_headers (add_status_line s 200 ok_200_title).2
        (to_int (add_status_line s 200 ok_200_title).2.m_file_stat.st_size)).m_write_idx : Int)
        + ((add_headers (add_status_line s 200 ok_200_title).2
        (to_int (add_status_line s 200 ok_200_title).2.m_file_stat.st_size)).m_file_stat.st_size
          : Int)) }) := rfl
  have hsl : add_status_line s 200 ok_200_title = add_response s
      (B "HTTP/1.1" ++ B " " ++ fmt_d 200 ++ B " " ++ ok_200_title ++ B "\r\n") := rfl
  rw [hpw, hsl, h1]
  simp only
  rw [h2]
  simp only
  rw [← file_header_eq] at t2 ⊢
  refine ⟨_, rfl, t2, rfl, rfl, rfl, ?_⟩
  show to_int (((file_header s.m_file_stat.st_size).length : Int) + (s.m_file_stat.st_size : Int))
    = _
  have := to_int_nat ((file_header s.m_file_stat.st_size).length + s.m_file_stat.st_size) hsz
  push_cast at this ⊢
  exact this

theorem c_line_append_nz (a b : List Nat) (ha : ∀ c ∈ a, c ≠ 0) : c_line (a ++ b) = a ++ c_line b := by
  unfold c_line
  induction a with
  | nil => rfl
  | cons x xs ih =>
    have hx : (x != 0) = true := by simpa using ha x (by simp)
    rw [List.cons_append, List.takeWhile_cons, hx]
    simp only [if_true, List.cons_append]
    rw [ih (fun c hc => ha c (by simp [hc]))]

theorem c_line_nz (l : List Nat) (h : ∀ c ∈ l, c ≠ 0) : c_line l = l := by
  have := c_line_append_nz l [] h
  simpa [c_line] using this

theorem not_eq_ignore_case_take (x y n : Nat) (l k : List Nat) (h : tolower x ≠ tolower y) :
    ¬ eq_ignore_case ((x :: l).take (n + 1)) (y :: k) := by
  unfold eq_ignore_case
  simp only [List.take_succ_cons, List.map_cons, List.cons.injEq, not_and]
  intro h'
  exact absurd h' h

/-- A `Host` header line neither asks to keep the connection nor declares a body. -/
theorem host_line_facts (h : List Nat) :
    header_linger (c_line (B "Host: " ++ h)) = false ∧
    header_length (c_line (B "Host: " ++ h)) 0 = 0 := by
  have e : B "Host: " = 72 :: B "ost: " := by decide
  have e1 : B "Connection:" = 67 :: B "onnection:" := by decide
  have e2 : B "Content-Length:" = 67 :: B "ontent-Length:" := by decide
  rw [c_line_append_nz _ _ (by decide), e, List.cons_append]
  have n1 := not_eq_ignore_case_take 72 67 10 (B "ost: " ++ c_line h) (B "onnection:") (by decide)
  have n2 := not_eq_ignore_case_take 72 67 14 (B "ost: " ++ c_line h) (B "ontent-Length:")
    (by decide)
  rw [← e1] at n1
  rw [← e2] at n2
  constructor
  · unfold header_linger
    simp only [n1, false_and, decide_False]
  · unfold header_length
    simp only [n1, n2, if_false]

theorem strip_http_slash (target : List Nat) (h : target.head? = some 47) :
    strip_http target = target := by
  cases target with
  | nil => simp at h
  | cons x xs =>
    have hx : x = 47 := by simpa using h
    subst hx
    have e : B "http://" = 104 :: B "ttp://" := by decide
    have n1 := not_eq_ignore_case_take 47 104 6 xs (B "ttp://") (by decide)
    rw [← e] at n1
    unfold strip_http
    simp only [n1, if_false]

theorem getD_replicate_zero (n i : Nat) : (List.replicate n 0).getD i 0 = 0 := by
  rw [List.getD_eq_getElem?_getD]
  by_cases h : i < n
  · simp [List.getElem?_replicate, h]
  · simp [List.getElem?_replicate, h]

/-- C4 (amended). A target that begins with `/`, has no NUL, space, tab, CR or LF and
at most 169 bytes (so that root and target fit `m_real_file`), a host value without CR
or LF, the request `GET target HTTP/1.1`, `Host: h`, blank line on a freshly reset
connection, a filesystem in which root followed by target is a world-readable file
that is not a directory, of a size that together with the header stays below 2^31:
`process_read` returns FILE_REQUEST, with the metadata of the file stored; and in a
build in which the call of `add_headers` returns, `process_write` returns true, the
write buffer holding the 200 header block with the size in decimal, the descriptor the
two segments (header, file) and `bytes_to_send` the header length plus the size. -/
theorem C4_file_response (fs : List Nat → Option Stat) (s0 : Conn) (target h : List Nat)
    (st : Stat) (hwf : WF s0) (htg : target.head? = some 47)
    (ht : ∀ c ∈ target, c ≠ 0 ∧ c ≠ 32 ∧ c ≠ 9 ∧ c ≠ 13 ∧ c ≠ 10)
    (htl : target.length ≤ FILENAME_LEN - doc_root.length - 1)
    (hh : ∀ c ∈ h, c ≠ 13 ∧ c ≠ 10)
    (hfit : (B "GET " ++ target ++ B " HTTP/1.1\r\nHost: " ++ h ++ B "\r\n\r\n").length
      ≤ READ_BUFFER_SIZE)
    (hfs : fs (doc_root ++ target) = some st) (hr : st.st_mode &&& S_IROTH ≠ 0)
    (hd : S_ISDIR st.st_mode = false)
    (hsz : (file_header st.st_size).length + st.st_size < 2 ^ 31) :
    ∃ s1 s2,
      read_event fs (B "GET " ++ target ++ B " HTTP/1.1\r\nHost: " ++ h ++ B "\r\n\r\n") (init s0)
        = some (FILE_REQUEST, s1) ∧
      s1.m_file_stat = st ∧
      process_write_in BUILD.call_returns s1 FILE_REQUEST = some (true, s2) ∧
      s2.m_write_buf.take s2.m_write_idx = file_header st.st_size ∧
      s2.m_iv_count = 2 ∧
      s2.m_iv0 = { base := 0, len := (file_header st.st_size).length } ∧
      s2.m_iv1 = { base := 0, len := st.st_size } ∧
      s2.bytes_to_send = (((file_header st.st_size).length + st.st_size : Nat) : Int) := by
  have hreq : B "GET " ++ target ++ B " HTTP/1.1\r\nHost: " ++ h ++ B "\r\n\r\n"
      = (B "GET" ++ 32 :: (target ++ 32 :: B "HTTP/1.1")) ++ 13 :: 10 ::
        header_block [B "Host: " ++ h] (13 :: 10 :: []) := by
    have e1 : B "GET " = B "GET" ++ [32] := by decide
    have e2 : B " HTTP/1.1\r\nHost: " = 32 :: B "HTTP/1.1" ++ 13 :: 10 :: B "Host: " := by decide
    have e3 : B "\r\n\r\n" = [13, 10, 13, 10] := by decide
    rw [e1, e2, e3]
    simp [header_block]
  rw [hreq] at hfit ⊢
  have hrlnz : ∀ c ∈ B "GET" ++ 32 :: (target ++ 32 :: B "HTTP/1.1"),
      c ≠ 0 ∧ c ≠ 13 ∧ c ≠ 10 := by
    have g1 : ∀ c ∈ B "GET", c ≠ 0 ∧ c ≠ 13 ∧ c ≠ 10 := by decide
    have g2 : ∀ c ∈ B "HTTP/1.1", c ≠ 0 ∧ c ≠ 13 ∧ c ≠ 10 := by decide
    intro c hc
    rcases List.mem_append.mp hc with h' | h'
    · exact g1 c h'
    · rcases List.mem_cons.mp h' with rfl | h'
      · decide
      · rcases List.mem_append.mp h' with h' | h'
        · exact ⟨(ht c h').1, (ht c h').2.2.2.1, (ht c h').2.2.2.2⟩
        · rcases List.mem_cons.mp h' with rfl | h'
          · decide
          · exact g2 c h'
  have hline : header_line_ok (B "Host: " ++ h) := by
    constructor
    · have g : ∀ c ∈ B "Host: ", c ≠ 13 ∧ c ≠ 10 := by decide
      intro c hc
      rcases List.mem_append.mp hc with h' | h'
      · exact g c h'
      · exact hh c h'
    · have e : B "Host: " = 72 :: B "ost: " := by decide
      rw [e]
      simp
  have hfacts := host_line_facts h
  have hlen0 : headers_length [B "Host: " ++ h] 0 = 0 := by
    simp only [headers_length, List.foldl_cons, List.foldl_nil]
    exact hfacts.2
  have hling : headers_linger [B "Host: " ++ h] = false := by
    simp only [headers_linger, List.any_cons, List.any_nil, Bool.or_false]
    exact hfacts.1
  obtain ⟨sf, w, hre, hu, hl, hwb, hwi, hrf, hcs⟩ := read_request fs s0
    (B "GET" ++ 32 :: (target ++ 32 :: B "HTTP/1.1")) [B "Host: " ++ h] [] (B "GET") target
    (B "HTTP/1.1") 32 32 hwf (fun c hc => (hrlnz c hc).2)
    (c_line_nz _ (fun c hc => (hrlnz c hc).1)) (by decide) (Or.inl rfl) (Or.inl rfl)
    (fun c hc => ⟨(ht c hc).2.1, (ht c hc).2.2.1⟩) (by decide)
    (by rw [strip_http_slash target htg]; exact htg)
    (by intro l hl; simp only [List.mem_singleton] at hl; rw [hl]; exact hline)
    ⟨by rw [hlen0], by rw [hlen0]; simp⟩ hfit (Or.inl hlen0)
  have hcs' := hcs hlen0
  rw [strip_http_slash target htg] at hcs'
  obtain ⟨_, hwb0, hrf0⟩ := init_bufs s0 hwf
  have hpath : resolved_path target = doc_root ++ target := by
    unfold resolved_path
    rw [List.take_of_length_le htl]
  obtain ⟨rf, hdo⟩ := do_request_file fs sf w st hu
    (by rw [hrf, hrf0, List.length_replicate])
    (by rw [hrf, hrf0]; exact getD_replicate_zero _ _)
    (by rw [hcs', hpath]; exact hfs) hr hd
  obtain ⟨s2, hp1, hp2, hp3, hp4, hp5, hp6⟩ := process_write_file
    { sf with m_real_file := rf, m_file_stat := st, m_file_address := some st.st_size }
    (by show sf.m_write_buf.length = _; rw [hwb, hwb0, List.length_replicate])
    hwi (by show sf.m_linger = false; rw [hl, hling]) hsz
  exact ⟨_, s2, by rw [hre, hdo], rfl, by rw [process_write_in_returns, hp1],
    hp2, hp3, hp4, hp5, hp6⟩

/-- C4 (counterexample). Requests of the form of the claim for which it fails:
a target of 170 bytes whose file exists, answered NO_RESOURCE because the path is cut
to 199 bytes; a file of 2^31 bytes, whose header says `Content-Length: -2147483648`
with a negative `bytes_to_send` (where the call of `add_headers` returns); a target
holding a NUL byte, answered BAD_REQUEST; and, for `GET /index.html` on the sample
tree, no result of `process_write` where the call of `add_headers` does not return. -/
theorem C4_fails_on_long_big_nul :
    (fs_long (doc_root ++ long_target) = some { st_mode := 0o100644, st_size := 5 } ∧
      (read_event fs_long (B "GET " ++ long_target ++ B " HTTP/1.1\r\nHost: x\r\n\r\n")
        (init conn0)).map (fun r => r.1) = some NO_RESOURCE) ∧
    ((read_event fs_big (B "GET /index.html HTTP/1.1\r\nHost: x\r\n\r\n") (init conn0)).map
        (fun r => (r.1, (process_write r.2 r.1).2.bytes_to_send,
          (process_write r.2 r.1).2.m_write_buf.take 46))
      = some (FILE_REQUEST, -2147483557,
          B "HTTP/1.1 200 OK\r\nContent-Length: -2147483648\r\n")) ∧
    (fs_nul (doc_root ++ [47, 97, 0, 98]) = some { st_mode := 0o100644, st_size := 5 } ∧
      (read_event fs_nul (B "GET " ++ [47, 97, 0, 98] ++ B " HTTP/1.1\r\nHost: x\r\n\r\n")
        (init conn0)).map (fun r => r.1) = some BAD_REQUEST) ∧
    ((read_event fs_sample (B "GET /index.html HTTP/1.1\r\nHost: x\r\n\r\n") (init conn0)).map
        (fun r => (r.1, process_write_in BUILD.call_undefined r.2 r.1))
      = some (FILE_REQUEST, none)) := by
  decide!

/-- C4 (witness): `GET /index.html HTTP/1.1`, `Host: x` on the sample tree. -/
theorem C4_file_response_witness :
    WF conn0 ∧ fs_sample (doc_root ++ B "/index.html") = some { st_mode := 0o100644, st_size := 5 } ∧
    ∃ s1 s2,
      read_event fs_sample
          (B "GET " ++ B "/index.html" ++ B " HTTP/1.1\r\nHost: " ++ B "x" ++ B "\r\n\r\n")
          (init conn0) = some (FILE_REQUEST, s1) ∧
      s1.m_file_stat = { st_mode := 0o100644, st_size := 5 } ∧
      process_write_in BUILD.call_returns s1 FILE_REQUEST = some (true, s2) ∧
      s2.m_write_buf.take s2.m_write_idx = file_header 5 ∧
      s2.m_iv_count = 2 ∧
      s2.m_iv0 = { base := 0, len := (file_header 5).length } ∧
      s2.m_iv1 = { base := 0, len := 5 } ∧
      s2.bytes_to_send = (((file_header 5).length + 5 : Nat) : Int) :=
  ⟨WF_conn0, by decide,
    C4_file_response fs_sample conn0 (B "/index.html") (B "x") { st_mode := 0o100644, st_size := 5 }
      WF_conn0 (by decide) (by decide) (by decide) (by decide) (by decide) (by decide)
      (by decide) (by decide) (by decide)⟩

/-! ## `process_read` returns -/

/-- A line accepted by the scanner moves the parse cursor forward, not beyond the bytes
read; the read cursor, the state and the target are left alone. -/
theorem parse_line_scan_cursor : ∀ (n : Nat) (s : Conn),
    (parse_line_scan n s).1 = LINE_OK →
      s.m_checked_idx < (parse_line_scan n s).2.m_checked_idx ∧
      (parse_line_scan n s).2.m_checked_idx ≤ s.m_read_idx ∧
      (parse_line_scan n s).2.m_read_idx = s.m_read_idx ∧
      (parse_line_scan n s).2.m_check_state = s.m_check_state ∧
      (parse_line_scan n s).2.m_url = s.m_url := by
  intro n
  induction n with
  | zero => intro s h; cases h
  | succ n ih =>
    intro s h
    unfold parse_line_scan at h ⊢
    simp only at h ⊢
    by_cases h1 : s.m_checked_idx < s.m_read_idx
    · rw [if_pos h1] at h ⊢
      by_cases h2 : s.m_read_buf.getD s.m_checked_idx 0 = 13
      · rw [if_pos h2] at h ⊢
        by_cases h3 : s.m_checked_idx + 1 = s.m_read_idx
        · rw [if_pos h3] at h
          cases h
        · rw [if_neg h3] at h ⊢
          by_cases h4 : s.m_read_buf.getD (s.m_checked_idx + 1) 0 = 10
          · rw [if_pos h4]
            refine ⟨?_, ?_, rfl, rfl, rfl⟩
            · show s.m_checked_idx < s.m_checked_idx + 2
              omega
            · show s.m_checked_idx + 2 ≤ s.m_read_idx
              omega
          · rw [if_neg h4] at h
            cases h
      · rw [if_neg h2] at h ⊢
        by_cases h5 : s.m_read_buf.getD s.m_checked_idx 0 = 10
        · rw [if_pos h5] at h ⊢
          by_cases h6 : s.m_checked_idx > 1 ∧ s.m_read_buf.getD (s.m_checked_idx - 1) 0 = 13
          · rw [if_pos h6]
            refine ⟨?_, ?_, rfl, rfl, rfl⟩
            · show s.m_checked_idx < s.m_checked_idx + 1
              omega
            · show s.m_checked_idx + 1 ≤ s.m_read_idx
              omega
          · rw [if_neg h6] at h
            cases h
        · rw [if_neg h5] at h ⊢
          have g := ih { s with m_checked_idx := s.m_checked_idx + 1 } h
          refine ⟨?_, g.2.1, g.2.2.1, g.2.2.2.1, g.2.2.2.2⟩
          have g1 : s.m_checked_idx + 1 <
              (parse_line_scan n { s with m_checked_idx := s.m_checked_idx + 1 }).2.m_checked_idx :=
            g.1
          omega
    · rw [if_neg h1] at h
      cases h

theorem parse_headers_cursor (s : Conn) (text : Nat) :
    (parse_headers s text).2.m_read_idx = s.m_read_idx ∧
    (parse_headers s text).2.m_checked_idx = s.m_checked_idx ∧
    (parse_headers s text).2.m_url = s.m_url := by
  unfold parse_headers
  simp only
  split_ifs <;> exact ⟨rfl, rfl, rfl⟩

/-- Where it is defined, `parse_content` changes the read buffer only. -/
theorem parse_content_frame (s : Conn) (text : Nat) (r : HTTP_CODE × Conn)
    (h : parse_content s text = some r) : ∃ buf, r.2 = { s with m_read_buf := buf } := by
  unfold parse_content at h
  by_cases h1 : (2 : Int) ^ 31 ≤ s.m_content_length + (s.m_checked_idx : Int)
  · rw [if_pos h1] at h
    cases h
  · rw [if_neg h1] at h
    by_cases h2 : (s.m_read_idx : Int) ≥ s.m_content_length + (s.m_checked_idx : Int)
    · rw [if_pos h2] at h
      by_cases h3 : 0 ≤ (text : Int) + s.m_content_length ∧
          (text : Int) + s.m_content_length < (s.m_read_buf.length : Int)
      · rw [if_pos h3] at h
        cases h
        exact ⟨_, rfl⟩
      · rw [if_neg h3] at h
        cases h
    · rw [if_neg h2] at h
      cases h
      exact ⟨s.m_read_buf, rfl⟩

theorem parse_content_cursor (s : Conn) (text : Nat) (r : HTTP_CODE × Conn)
    (h : parse_content s text = some r) :
    r.2.m_read_idx = s.m_read_idx ∧ r.2.m_checked_idx = s.m_checked_idx ∧
    r.2.m_url = s.m_url ∧ r.2.m_check_state = s.m_check_state := by
  obtain ⟨buf, hb⟩ := parse_content_frame s text r h
  rw [hb]
  exact ⟨rfl, rfl, rfl, rfl⟩

theorem parse_request_line_cursor (s : Conn) (text : Nat) :
    (parse_request_line s text).2.m_read_idx = s.m_read_idx ∧
    (parse_request_line s text).2.m_checked_idx = s.m_checked_idx := by
  obtain ⟨buf, meth, ver, url, cs, h⟩ := parse_request_line_frame s text
  rw [h]
  exact ⟨rfl, rfl⟩

theorem parse_request_target_url (s : Conn) (u : Nat)
    (h : (parse_request_target s u).1 ≠ BAD_REQUEST) :
    (parse_request_target s u).2.m_url ≠ none := by
  unfold parse_request_target at h ⊢
  simp only at h ⊢
  by_cases hp : strncasecmp (cstr s.m_read_buf u) (B "http://") 7 = 0
  · rw [if_pos hp] at h ⊢
    simp only at h ⊢
    cases hq : strchr s.m_read_buf (u + 7) 47 with
    | none => rw [hq] at h; exact absurd rfl h
    | some w =>
      rw [hq] at h
      simp only at h ⊢
      split_ifs at h ⊢
      · exact absurd rfl h
      · simp
  · rw [if_neg hp] at h ⊢
    cases hq : s.m_url with
    | none => rw [hq] at h; exact absurd rfl h
    | some w =>
      rw [hq] at h
      simp only at h ⊢
      split_ifs at h ⊢
      · exact absurd rfl h
      · simp [hq]

theorem parse_request_version_url (s : Conn) (u : Nat)
    (h : (parse_request_version s u).1 ≠ BAD_REQUEST) :
    (parse_request_version s u).2.m_url ≠ none := by
  unfold parse_request_version at h ⊢
  simp only at h ⊢
  split at h
  · exact absurd rfl h
  · next v hv =>
    split_ifs at h ⊢
    · exact absurd rfl h
    · exact parse_request_target_url _ _ h

/-- A request line that is not rejected leaves a target. -/
theorem parse_request_line_url (s : Conn) (text : Nat)
    (h : (parse_request_line s text).1 ≠ BAD_REQUEST) :
    (parse_request_line s text).2.m_url ≠ none := by
  unfold parse_request_line at h ⊢
  simp only at h ⊢
  split at h
  · exact absurd rfl h
  · next v hv =>
    split_ifs at h ⊢
    · exact parse_request_version_url _ _ h
    · exact absurd rfl h

theorem do_request_ne_none (fs : List Nat → Option Stat) (s : Conn) (h : s.m_url ≠ none) :
    do_request fs s ≠ none := by
  unfold do_request
  split
  · next heq => exact absurd heq h
  · simp only
    split
    · simp
    · split_ifs <;> simp


theorem loop_bound_le (ls : LINE_STATUS) (s : Conn) :
    loop_bound ls s ≤ s.m_read_idx - s.m_checked_idx + 1 := by
  unfold loop_bound
  split_ifs <;> omega

theorem loop_bound_open (s : Conn) (h : s.m_check_state = CHECK_STATE_CONTENT) :
    loop_bound LINE_OPEN s = s.m_read_idx - s.m_checked_idx := by
  unfold loop_bound
  rw [if_pos ⟨h, by decide⟩]
  rfl

theorem loop_bound_scan (s : Conn) (h : s.m_check_state ≠ CHECK_STATE_CONTENT) (ls : LINE_STATUS) :
    loop_bound ls s = s.m_read_idx - s.m_checked_idx + 1 := by
  unfold loop_bound
  rw [if_neg (fun c => h c.1)]

theorem loop_bound_skip (s : Conn) : loop_bound LINE_OK s = s.m_read_idx - s.m_checked_idx + 1 := by
  unfold loop_bound
  rw [if_neg (fun c => c.2 rfl)]

/-- A pass of the loop of `process_read()` that goes on to the next test of the loop
condition lowers `loop_bound`. -/
theorem loop_bound_step (fs : List Nat → Option Stat) (ls : LINE_STATUS) (s : Conn)
    (x : LINE_STATUS × Conn) (hc : (process_read_cond ls s).1 = LINE_OK)
    (hb : process_read_body fs (process_read_cond ls s).2 = Sum.inr x) :
    loop_bound x.1 x.2 < loop_bound ls s := by
  by_cases hskip : s.m_check_state = CHECK_STATE_CONTENT ∧ ls = LINE_OK
  · have hcond : process_read_cond ls s = (ls, s) := if_pos hskip
    rw [hcond] at hb
    have hls : ls = LINE_OK := hskip.2
    subst hls
    rw [process_read_body_content fs s hskip.1] at hb
    rw [loop_bound_skip]
    cases hpc : parse_content { s with m_start_line := s.m_checked_idx } s.m_start_line with
    | none => rw [hpc] at hb; cases hb
    | some p =>
      rw [hpc] at hb
      have c := parse_content_cursor _ _ p hpc
      simp only at hb
      split_ifs at hb
      · cases hb
        rw [loop_bound_open _ (by rw [c.2.2.2]; exact hskip.1), c.1, c.2.1]
        show s.m_read_idx - s.m_checked_idx < s.m_read_idx - s.m_checked_idx + 1
        omega
  · have hcond : process_read_cond ls s = parse_line s := if_neg hskip
    rw [hcond] at hb hc
    have g : s.m_checked_idx < (parse_line s).2.m_checked_idx ∧
        (parse_line s).2.m_checked_idx ≤ s.m_read_idx ∧
        (parse_line s).2.m_read_idx = s.m_read_idx ∧
        (parse_line s).2.m_check_state = s.m_check_state ∧
        (parse_line s).2.m_url = s.m_url :=
      parse_line_scan_cursor (s.m_read_idx - s.m_checked_idx) s hc
    generalize (parse_line s).2 = s1 at g hb
    obtain ⟨g1, g2, g3, g4, _⟩ := g
    cases hst : s1.m_check_state with
    | CHECK_STATE_REQUESTLINE =>
      rw [process_read_body_requestline fs s1 hst] at hb
      have hcur := parse_request_line_cursor
        { s1 with m_start_line := s1.m_checked_idx } s1.m_start_line
      rw [loop_bound_scan s (by rw [← g4, hst]; decide)]
      generalize parse_request_line
        { s1 with m_start_line := s1.m_checked_idx } s1.m_start_line = r at hcur hb
      split_ifs at hb
      · cases hb
        refine Nat.lt_of_le_of_lt (loop_bound_le _ _) ?_
        rw [hcur.1, hcur.2]
        show s1.m_read_idx - s1.m_checked_idx + 1 < s.m_read_idx - s.m_checked_idx + 1
        omega
    | CHECK_STATE_HEADER =>
      rw [process_read_body_header fs s1 hst] at hb
      have hcur := parse_headers_cursor
        { s1 with m_start_line := s1.m_checked_idx } s1.m_start_line
      rw [loop_bound_scan s (by rw [← g4, hst]; decide)]
      generalize parse_headers
        { s1 with m_start_line := s1.m_checked_idx } s1.m_start_line = r at hcur hb
      split_ifs at hb
      · cases hb
        refine Nat.lt_of_le_of_lt (loop_bound_le _ _) ?_
        rw [hcur.1, hcur.2.1]
        show s1.m_read_idx - s1.m_checked_idx + 1 < s.m_read_idx - s.m_checked_idx + 1
        omega
    | CHECK_STATE_CONTENT =>
      rw [process_read_body_content fs s1 hst] at hb
      have hsc : s.m_check_state = CHECK_STATE_CONTENT := by rw [← g4, hst]
      cases hpc : parse_content { s1 with m_start_line := s1.m_checked_idx } s1.m_start_line with
      | none => rw [hpc] at hb; cases hb
      | some p =>
        rw [hpc] at hb
        have c := parse_content_cursor _ _ p hpc
        simp only at hb
        split_ifs at hb
        · cases hb
          rw [loop_bound_open _ (by rw [c.2.2.2]; exact hst), c.1, c.2.1]
          show s1.m_read_idx - s1.m_checked_idx < loop_bound ls s
          unfold loop_bound
          split_ifs <;> omega

/-- Fuel beyond `loop_bound` is never used: the loop of `process_read()` gives the same
result with any larger amount. -/
theorem process_read_loop_fuel (fs : List Nat → Option Stat) :
    ∀ (n m : Nat) (ls : LINE_STATUS) (s : Conn), loop_bound ls s < n → n ≤ m →
      process_read_loop fs m ls s = process_read_loop fs n ls s := by
  intro n
  induction n with
  | zero => intro m ls s h; exact absurd h (Nat.not_lt_zero _)
  | succ n ih =>
    intro m ls s hb hm
    obtain ⟨k, rfl⟩ : ∃ k, m = k + 1 := ⟨m - 1, by omega⟩
    rw [process_read_loop_succ, process_read_loop_succ]
    by_cases hc : (process_read_cond ls s).1 = LINE_OK
    · rw [if_neg (fun c => c hc), if_neg (fun c => c hc)]
      cases hx : process_read_body fs (process_read_cond ls s).2 with
      | inl r => rfl
      | inr x =>
        have hlt := loop_bound_step fs ls s x hc hx
        exact ih k x.1 x.2 (by omega) (by omega)
    · rw [if_pos hc, if_pos hc]

/-- The fuel `process_read` gives its loop is enough: more fuel gives the same result. -/
theorem process_read_fuel (fs : List Nat → Option Stat) (s : Conn) (k : Nat) :
    process_read_loop fs (s.m_read_idx - s.m_checked_idx + 3 + k) LINE_OK s
      = process_read fs s :=
  process_read_loop_fuel fs _ _ LINE_OK s
    (Nat.lt_of_le_of_lt (loop_bound_le _ _) (by omega)) (by omega)

/-! ## C11: the capacity of the work queue -/

/-- The test of `append`: a request is accepted exactly when the queue holds at most
`m_max_requests` entries; an accepted request goes to the back of the queue, a refused
one leaves the pool as it was. -/
theorem append_accepts (p : threadpool) (request : Nat) (h0 : 0 < p.m_max_requests)
    (h1 : p.m_max_requests < 2 ^ 31) :
    ((append p request).1 = true ↔ p.m_workqueue.length ≤ p.m_max_requests.toNat) ∧
    ((append p request).1 = true →
      (append p request).2.m_workqueue = p.m_workqueue ++ [request]) ∧
    ((append p request).1 = false → (append p request).2 = p) := by
  have hsz : to_size_t p.m_max_requests = p.m_max_requests.toNat := by
    unfold to_size_t
    rw [Int.emod_eq_of_lt (by omega) (by omega)]
  unfold append
  rw [hsz]
  by_cases h : p.m_workqueue.length > p.m_max_requests.toNat
  · rw [if_pos h]
    exact ⟨⟨fun c => Bool.noConfusion c, fun c => absurd c (by omega)⟩,
      fun c => Bool.noConfusion c, fun _ => rfl⟩
  · rw [if_neg h]
    exact ⟨⟨fun _ => (by omega), fun _ => rfl⟩, fun _ => rfl, fun c => Bool.noConfusion c⟩

theorem append_all_cons (p : threadpool) (r : Nat) (rs : List Nat) :
    append_all p (r :: rs) = ((append p r).1 :: (append_all (append p r).2 rs).1,
      (append_all (append p r).2 rs).2) := rfl

/-- With no worker taking entries, every call of `append` that finds at most
`m_max_requests` entries returns true: a queue that is empty at first takes
`m_max_requests + 1` requests. -/
theorem append_all_accepted (m : Int) (h0 : 0 < m) (h1 : m < 2 ^ 31) :
    ∀ (rs : List Nat) (p : threadpool), p.m_max_requests = m →
      p.m_workqueue.length + rs.length ≤ m.toNat + 1 →
      (append_all p rs).1 = List.replicate rs.length true ∧
      (append_all p rs).2.m_workqueue = p.m_workqueue ++ rs := by
  intro rs
  induction rs with
  | nil => intro p _ _; exact ⟨rfl, (List.append_nil _).symm⟩
  | cons r rs ih =>
    intro p hm hl
    have ha := append_accepts p r (by rw [hm]; exact h0) (by rw [hm]; exact h1)
    rw [hm] at ha
    have hlen : p.m_workqueue.length + (rs.length + 1) ≤ m.toNat + 1 := hl
    have ht : (append p r).1 = true := ha.1.mpr (by omega)
    have hq := ha.2.1 ht
    have hm2 : (append p r).2.m_max_requests = m := by
      unfold append
      split_ifs
      · exact hm
      · exact hm
    have g := ih (append p r).2 hm2 (by rw [hq, List.length_append]; simp only [List.length_singleton]; omega)
    rw [append_all_cons, g.1, g.2, ht, hq]
    exact ⟨rfl, by simp⟩

/-- C11 (failing input). A pool with `max_requests` = 2 and no worker taking entries:
the first three calls of `append` return true and the queue then holds three entries;
only the fourth call returns false. -/
theorem C11_queue_holds_one_more :
    (threadpool_ctor 8 2).map (fun p =>
      ((append_all p [101, 102, 103, 104]).1,
        (append_all p [101, 102, 103, 104]).2.m_workqueue,
        (append_all p [101, 102, 103, 104]).2.m_max_requests)) =
      some ([true, true, true, false], [101, 102, 103], 2) := by
  decide

/-! ## C12: what a reset leaves of the file mapping -/

/-- Neither `init()`, nor `close_conn()`, nor `init(sockfd, addr)` touches the mapping:
`m_file_address` and the number of `munmap` calls are what they were. -/
theorem reset_keeps_mapping (s : Conn) (sockfd : Int) :
    ((init s).m_file_address = s.m_file_address ∧ (init s).munmap_calls = s.munmap_calls) ∧
    ((close_conn s).m_file_address = s.m_file_address ∧
      (close_conn s).munmap_calls = s.munmap_calls) ∧
    ((init_sockfd s sockfd).m_file_address = s.m_file_address ∧
      (init_sockfd s sockfd).munmap_calls = s.munmap_calls) := by
  refine ⟨⟨rfl, rfl⟩, ?_, ⟨rfl, rfl⟩⟩
  unfold close_conn
  split_ifs <;> exact ⟨rfl, rfl⟩

/-- C12 (failing input). `GET /index.html` is answered FILE_REQUEST and the file is
mapped; `writev` accepts 10 bytes and then would block, so `write()` returns true with
the mapping held. The peer hangs up: `close_conn()`, and the slot is given to a new
socket by `init(sockfd, addr)`. The cursors and counters are zero and the state is
RequestLine, but `m_file_address` still holds the old mapping and `munmap` was never
called. -/
theorem C12_mapping_survives_reuse :
    unfinished_run.map (fun w => (w.1, w.2.m_file_address, w.2.munmap_calls))
      = some (true, some 5, 0) ∧
    unfinished_run.map (fun w =>
        ((init_sockfd (close_conn w.2) 6).m_check_state,
          (init_sockfd (close_conn w.2) 6).m_read_idx,
          (init_sockfd (close_conn w.2) 6).m_checked_idx,
          (init_sockfd (close_conn w.2) 6).m_start_line))
      = some (CHECK_STATE_REQUESTLINE, 0, 0, 0) ∧
    unfinished_run.map (fun w =>
        ((init_sockfd (close_conn w.2) 6).m_write_idx,
          (init_sockfd (close_conn w.2) 6).bytes_to_send,
          (init_sockfd (close_conn w.2) 6).bytes_have_send))
      = some (0, 0, 0) ∧
    unfinished_run.map (fun w =>
        ((init_sockfd (close_conn w.2) 6).m_file_address,
          (init_sockfd (close_conn w.2) 6).munmap_calls))
      = some (some 5, 0) := by
  decide!

/-! ## C13: the descriptor after a partial write -/

/-- C13 (failing input). A file of 1000 bytes: the header has H = 84 bytes. `writev`
accepts 60 bytes, then 10, then would block. After the first step the descriptor is the
unsent suffix (header from 60, 24 bytes; the whole file). After the second step 70
bytes are sent, fewer than H, yet segment 0 is empty and segment 1 starts at file
offset -14 with length 1014. -/
theorem C13_header_cut_twice :
    (page_run []).map (fun w => (w.2.m_iv0, w.2.m_iv1, w.2.bytes_to_send))
      = some ({ base := 0, len := 84 }, { base := 0, len := 1000 }, 1084) ∧
    (page_run [WRITEV.sent 60, WRITEV.eagain]).map
        (fun w => (w.1, w.2.bytes_have_send, w.2.m_iv0, w.2.m_iv1))
      = some (true, 60, { base := 60, len := 24 }, { base := 0, len := 1000 }) ∧
    (page_run [WRITEV.sent 60, WRITEV.sent 10, WRITEV.eagain]).map
        (fun w => (w.1, w.2.bytes_have_send, w.2.m_iv0.len, w.2.m_iv1))
      = some (true, 70, 0, { base := -14, len := 1014 }) := by
  decide!

/-! ## C14: re-arming after a keep-alive response -/

/-- C14 (failing input). A connection is accepted on socket 5; the read event delivers
`GET /index.html` with `Connection: keep-alive`; `process()` builds the response and
registers write interest. The write event fires and `writev` accepts the 91 bytes:
`write()` resets the connection and returns true, so the socket stays open (5), in the
RequestLine state, with no interest registered. -/
theorem C14_keep_alive_not_rearmed :
    keep_alive_run.map (fun s => (s.epoll_ev, s.bytes_to_send, s.m_linger))
      = some (some EPOLLOUT, 91, true) ∧
    (keep_alive_run.bind (write_event [WRITEV.sent 91])).map
        (fun s => (s.m_sockfd, s.m_check_state, s.bytes_to_send, s.epoll_ev))
      = some (5, CHECK_STATE_REQUESTLINE, 0, none) := by
  decide!

/-! ## C15: the declared body length -/

/-- C15 (failing input). `Content-Length: -5` is stored as -5, and `parse_content` then
clears the byte 5 places before the start of the body (offset 48): offset 43, which held
the digit `5` of the header. `Content-Length: 4294967295` is stored as -1. -/
theorem C15_negative_content_length :
    (read_event fs_sample (B "GET /index.html HTTP/1.1\r\nContent-Length: -5\r\n\r\n")
        (init conn0)).map
      (fun r => (r.1, r.2.m_content_length, r.2.m_start_line, r.2.m_read_buf.getD 43 0)) =
      some (FILE_REQUEST, -5, 48, 0) ∧
    (B "GET /index.html HTTP/1.1\r\nContent-Length: -5\r\n\r\n").getD 43 0 = 53 ∧
    (read_event fs_sample (B "GET /index.html HTTP/1.1\r\nContent-Length: 4294967295\r\n\r\n")
        (init conn0)).map (fun r => (r.1, r.2.m_content_length)) =
      some (FILE_REQUEST, -1) := by
  decide!

/-! ## C16: the cursor invariant -/

theorem cursors_ok_init (s0 : Conn) : cursors_ok (init s0) :=
  ⟨Nat.le_refl 0, Nat.le_refl 0, Nat.zero_le _⟩

theorem cursors_ok_read_append (d : List Nat) (s : Conn) (h : cursors_ok s) :
    cursors_ok (read_append d s) := by
  obtain ⟨h1, h2, h3⟩ := h
  have hl := List.length_take_le (READ_BUFFER_SIZE - s.m_read_idx) d
  refine ⟨h1, ?_, ?_⟩
  · show s.m_checked_idx ≤ s.m_read_idx + (d.take (READ_BUFFER_SIZE - s.m_read_idx)).length
    omega
  · show s.m_read_idx + (d.take (READ_BUFFER_SIZE - s.m_read_idx)).length ≤ READ_BUFFER_SIZE
    omega

theorem read_loop_bytes (d : List Nat) (rs : List RECV) (s : Conn) :
    read_loop (RECV.bytes d :: rs) s =
      if (d.take (READ_BUFFER_SIZE - s.m_read_idx)).length = 0 then some (false, s)
      else read_loop rs (read_append d s) := rfl

theorem cursors_ok_read_loop : ∀ (rs : List RECV) (s : Conn) (r : Bool × Conn),
    cursors_ok s → read_loop rs s = some r → cursors_ok r.2 := by
  intro rs
  induction rs with
  | nil => intro s r _ h; cases h
  | cons x xs ih =>
    intro s r hs h
    cases x with
    | fail => cases h; exact hs
    | eagain => cases h; exact hs
    | bytes d =>
      rw [read_loop_bytes] at h
      split_ifs at h
      · cases h; exact hs
      · exact ih _ r (cursors_ok_read_append d s hs) h

theorem cursors_ok_read (rs : List RECV) (s : Conn) (r : Bool × Conn) (hs : cursors_ok s)
    (h : read rs s = some r) : cursors_ok r.2 := by
  unfold read at h
  split_ifs at h
  · cases h; exact hs
  · exact cursors_ok_read_loop rs s r hs h

/-- Whatever it returns, the scanner leaves the parse cursor between its old value and
the read cursor, and the read cursor and the line start where they were. -/
theorem parse_line_scan_le : ∀ (n : Nat) (s : Conn), s.m_checked_idx ≤ s.m_read_idx →
    s.m_checked_idx ≤ (parse_line_scan n s).2.m_checked_idx ∧
    (parse_line_scan n s).2.m_checked_idx ≤ s.m_read_idx ∧
    (parse_line_scan n s).2.m_read_idx = s.m_read_idx ∧
    (parse_line_scan n s).2.m_start_line = s.m_start_line := by
  intro n
  induction n with
  | zero => intro s h; exact ⟨Nat.le_refl _, h, rfl, rfl⟩
  | succ n ih =>
    intro s h
    unfold parse_line_scan
    simp only
    by_cases h1 : s.m_checked_idx < s.m_read_idx
    · rw [if_pos h1]
      by_cases h2 : s.m_read_buf.getD s.m_checked_idx 0 = 13
      · rw [if_pos h2]
        by_cases h3 : s.m_checked_idx + 1 = s.m_read_idx
        · rw [if_pos h3]
          exact ⟨Nat.le_refl _, h, rfl, rfl⟩
        · rw [if_neg h3]
          by_cases h4 : s.m_read_buf.getD (s.m_checked_idx + 1) 0 = 10
          · rw [if_pos h4]
            refine ⟨?_, ?_, rfl, rfl⟩
            · show s.m_checked_idx ≤ s.m_checked_idx + 2
              omega
            · show s.m_checked_idx + 2 ≤ s.m_read_idx
              omega
          · rw [if_neg h4]
            exact ⟨Nat.le_refl _, h, rfl, rfl⟩
      · rw [if_neg h2]
        by_cases h5 : s.m_read_buf.getD s.m_checked_idx 0 = 10
        · rw [if_pos h5]
          by_cases h6 : s.m_checked_idx > 1 ∧ s.m_read_buf.getD (s.m_checked_idx - 1) 0 = 13
          · rw [if_pos h6]
            refine ⟨?_, ?_, rfl, rfl⟩
            · show s.m_checked_idx ≤ s.m_checked_idx + 1
              omega
            · show s.m_checked_idx + 1 ≤ s.m_read_idx
              omega
          · rw [if_neg h6]
            exact ⟨Nat.le_refl _, h, rfl, rfl⟩
        · rw [if_neg h5]
          have g := ih { s with m_checked_idx := s.m_checked_idx + 1 } h1
          refine ⟨?_, g.2.1, g.2.2.1, g.2.2.2⟩
          have g1 : s.m_checked_idx + 1 ≤
              (parse_line_scan n { s with m_checked_idx := s.m_checked_idx + 1 }).2.m_checked_idx :=
            g.1
          omega
    · rw [if_neg h1]
      exact ⟨Nat.le_refl _, h, rfl, rfl⟩

theorem cursors_ok_parse_line (s : Conn) (h : cursors_ok s) : cursors_ok (parse_line s).2 := by
  obtain ⟨h1, h2, h3⟩ := h
  have g : s.m_checked_idx ≤ (parse_line s).2.m_checked_idx ∧
      (parse_line s).2.m_checked_idx ≤ s.m_read_idx ∧
      (parse_line s).2.m_read_idx = s.m_read_idx ∧
      (parse_line s).2.m_start_line = s.m_start_line :=
    parse_line_scan_le (s.m_read_idx - s.m_checked_idx) s h2
  generalize (parse_line s).2 = s1 at g
  obtain ⟨g1, g2, g3, g4⟩ := g
  unfold cursors_ok
  omega

theorem cursors_ok_cond (ls : LINE_STATUS) (s : Conn) (h : cursors_ok s) :
    cursors_ok (process_read_cond ls s).2 := by
  unfold process_read_cond
  split_ifs
  · exact h
  · exact cursors_ok_parse_line s h

theorem do_request_cursors (fs : List Nat → Option Stat) (s : Conn) (r : HTTP_CODE × Conn)
    (h : do_request fs s = some r) :
    r.2.m_start_line = s.m_start_line ∧ r.2.m_checked_idx = s.m_checked_idx ∧
      r.2.m_read_idx = s.m_read_idx := by
  unfold do_request at h
  split at h
  · cases h
  · simp only at h
    split at h
    · cases h; exact ⟨rfl, rfl, rfl⟩
    · split_ifs at h <;> (cases h; exact ⟨rfl, rfl, rfl⟩)

theorem parse_headers_start (s : Conn) (text : Nat) :
    (parse_headers s text).2.m_start_line = s.m_start_line := by
  unfold parse_headers
  simp only
  split_ifs <;> rfl

theorem parse_content_start (s : Conn) (text : Nat) (r : HTTP_CODE × Conn)
    (h : parse_content s text = some r) : r.2.m_start_line = s.m_start_line := by
  obtain ⟨buf, hb⟩ := parse_content_frame s text r h
  rw [hb]

theorem parse_request_line_start (s : Conn) (text : Nat) :
    (parse_request_line s text).2.m_start_line = s.m_start_line := by
  obtain ⟨buf, meth, ver, url, cs, h⟩ := parse_request_line_frame s text
  rw [h]

/-- One pass of the loop body of `process_read()` keeps the cursor invariant, on each of
its exits. -/
theorem cursors_ok_body (fs : List Nat → Option Stat) (s : Conn) (h : cursors_ok s) :
    (∀ r, process_read_body fs s = Sum.inl (some r) → cursors_ok r.2) ∧
    (∀ n, process_read_body fs s = Sum.inr n → cursors_ok n.2) := by
  obtain ⟨_, h2, h3⟩ := h
  have key : ∀ t : Conn, t.m_start_line = s.m_checked_idx → t.m_checked_idx = s.m_checked_idx →
      t.m_read_idx = s.m_read_idx → cursors_ok t := by
    intro t e1 e2 e3
    unfold cursors_ok
    omega
  cases hst : s.m_check_state with
  | CHECK_STATE_REQUESTLINE =>
    rw [process_read_body_requestline fs s hst]
    have c := parse_request_line_cursor { s with m_start_line := s.m_checked_idx } s.m_start_line
    have c0 := parse_request_line_start { s with m_start_line := s.m_checked_idx } s.m_start_line
    generalize parse_request_line { s with m_start_line := s.m_checked_idx } s.m_start_line = p
      at c c0
    have hp : cursors_ok p.2 := key _ c0 c.2 c.1
    constructor
    · intro r hr
      split_ifs at hr
      · cases hr; exact hp
    · intro n hn
      split_ifs at hn
      · cases hn; exact hp
  | CHECK_STATE_HEADER =>
    rw [process_read_body_header fs s hst]
    have c := parse_headers_cursor { s with m_start_line := s.m_checked_idx } s.m_start_line
    have c0 := parse_headers_start { s with m_start_line := s.m_checked_idx } s.m_start_line
    generalize parse_headers { s with m_start_line := s.m_checked_idx } s.m_start_line = p
      at c c0
    have hp : cursors_ok p.2 := key _ c0 c.2.1 c.1
    constructor
    · intro r hr
      split_ifs at hr
      · cases hr; exact hp
      · have d := do_request_cursors fs p.2 r (Sum.inl.inj hr)
        exact key _ (d.1.trans c0) (d.2.1.trans c.2.1) (d.2.2.trans c.1)
    · intro n hn
      split_ifs at hn
      · cases hn; exact hp
  | CHECK_STATE_CONTENT =>
    rw [process_read_body_content fs s hst]
    cases hpc : parse_content { s with m_start_line := s.m_checked_idx } s.m_start_line with
    | none => exact ⟨fun r hr => (by cases hr), fun n hn => (by cases hn)⟩
    | some p =>
      have c := parse_content_cursor _ _ p hpc
      have c0 := parse_content_start _ _ p hpc
      have hp : cursors_ok p.2 := key _ c0 c.2.1 c.1
      simp only
      constructor
      · intro r hr
        split_ifs at hr
        · have d := do_request_cursors fs p.2 r (Sum.inl.inj hr)
          exact key _ (d.1.trans c0) (d.2.1.trans c.2.1) (d.2.2.trans c.1)
      · intro n hn
        split_ifs at hn
        · cases hn; exact hp

theorem cursors_ok_loop (fs : List Nat → Option Stat) :
    ∀ (fuel : Nat) (ls : LINE_STATUS) (s : Conn) (r : HTTP_CODE × Conn),
      cursors_ok s → process_read_loop fs fuel ls s = some r → cursors_ok r.2 := by
  intro fuel
  induction fuel with
  | zero => intro ls s r _ h; cases h
  | succ n ih =>
    intro ls s r hs h
    rw [process_read_loop_succ] at h
    have hc := cursors_ok_cond ls s hs
    generalize process_read_cond ls s = c at h hc
    split_ifs at h
    · cases h; exact hc
    · have hb := cursors_ok_body fs c.2 hc
      generalize process_read_body fs c.2 = b at h hb
      cases b with
      | inl x =>
        simp only at h
        subst h
        exact hb.1 r rfl
      | inr x =>
        simp only at h
        exact ih _ _ r (hb.2 x rfl) h

/-- C17 (failing input). `init()` zeroes `READ_BUFFER_SIZE` = 2048 bytes starting at
`m_write_buf`, which has `WRITE_BUFFER_SIZE` = 1024: in a memory region made of the
write buffer and the 1024 bytes that follow it, all 2048 bytes are cleared. -/
theorem C17_init_zeroes_past_write_buf :
    init_write_bzero_len = 2048 ∧ WRITE_BUFFER_SIZE = 1024 ∧
    ¬ init_write_bzero_len ≤ WRITE_BUFFER_SIZE ∧
    bzero (List.replicate WRITE_BUFFER_SIZE 1 ++ List.replicate 1024 255) init_write_bzero_len
      = List.replicate 2048 0 := by
  decide!

/-! ## C9: keep-alive at the end of transmission -/

theorem write_sent_frame (temp : Nat) (s : Conn) :
    (write_sent temp s).bytes_to_send = s.bytes_to_send - (temp : Int) ∧
    (write_sent temp s).bytes_have_send = s.bytes_have_send + (temp : Int) ∧
    (write_sent temp s).m_linger = s.m_linger := by
  unfold write_sent
  simp only
  split_ifs <;> exact ⟨rfl, rfl, rfl⟩

/-- The call of `write()` whose `writev` accepts all the `k` bytes that remain: with the
linger flag set it returns true and the connection has been reset by `init()`; with
the flag clear it returns false. -/
theorem write_last_bytes (sw : Conn) (k : Nat) (ws : List WRITEV) (hk : 0 < k)
    (hrem : sw.bytes_to_send = (k : Int)) (h2 : 0 ≤ sw.bytes_have_send)
    (hmap : sw.m_file_address ≠ some 0) :
    (sw.m_linger = true → ∃ sr, write (WRITEV.sent k :: ws) sw = some (true, init sr)) ∧
    (sw.m_linger = false → ∃ sr, write (WRITEV.sent k :: ws) sw = some (false, sr)) := by
  have hne : sw.bytes_to_send ≠ 0 := by omega
  obtain ⟨f1, f2, f3⟩ := write_sent_frame k sw
  have hdone : (write_sent k sw).bytes_to_send ≤ (write_sent k sw).bytes_have_send := by
    rw [f1, f2]; omega
  have hw : write (WRITEV.sent k :: ws) sw =
      if (unmap (write_sent k sw)).m_linger = true then
        some (true, init (unmap (write_sent k sw)))
      else some (false, unmap (write_sent k sw)) := by
    unfold write
    rw [if_neg hne]
    unfold write_loop
    rw [if_neg hmap]
    simp only
    rw [if_pos hdone]
  rw [hw, unmap_linger, f3]
  constructor
  · intro hl
    rw [if_pos hl]
    exact ⟨_, rfl⟩
  · intro hl
    rw [if_neg (by rw [hl]; decide)]
    exact ⟨_, rfl⟩

theorem read_loop_flags : ∀ (rs : List RECV) (s : Conn) (r : Bool × Conn),
    read_loop rs s = some r →
    r.2.m_linger = s.m_linger ∧ r.2.bytes_have_send = s.bytes_have_send := by
  intro rs
  induction rs with
  | nil => intro s r h; cases h
  | cons x xs ih =>
    intro s r h
    cases x with
    | fail => cases h; exact ⟨rfl, rfl⟩
    | eagain => cases h; exact ⟨rfl, rfl⟩
    | bytes d =>
      rw [read_loop_bytes] at h
      split_ifs at h
      · cases h; exact ⟨rfl, rfl⟩
      · exact ih (read_append d s) r h

theorem read_flags (rs : List RECV) (s : Conn) (r : Bool × Conn) (h : read rs s = some r) :
    r.2.m_linger = s.m_linger ∧ r.2.bytes_have_send = s.bytes_have_send := by
  unfold read at h
  split_ifs at h
  · cases h; exact ⟨rfl, rfl⟩
  · exact read_loop_flags rs s r h

/-- The scanner changes the read buffer and the parse cursor only. -/
theorem parse_line_scan_frame : ∀ (n : Nat) (s : Conn),
    ∃ buf c, (parse_line_scan n s).2 = { s with m_read_buf := buf, m_checked_idx := c } := by
  intro n
  induction n with
  | zero => intro s; exact ⟨s.m_read_buf, s.m_checked_idx, rfl⟩
  | succ n ih =>
    intro s
    unfold parse_line_scan
    simp only
    by_cases h1 : s.m_checked_idx < s.m_read_idx
    · rw [if_pos h1]
      by_cases h2 : s.m_read_buf.getD s.m_checked_idx 0 = 13
      · rw [if_pos h2]
        by_cases h3 : s.m_checked_idx + 1 = s.m_read_idx
        · rw [if_pos h3]
          exact ⟨s.m_read_buf, s.m_checked_idx, rfl⟩
        · rw [if_neg h3]
          by_cases h4 : s.m_read_buf.getD (s.m_checked_idx + 1) 0 = 10
          · rw [if_pos h4]
            exact ⟨_, _, rfl⟩
          · rw [if_neg h4]
            exact ⟨s.m_read_buf, s.m_checked_idx, rfl⟩
      · rw [if_neg h2]
        by_cases h5 : s.m_read_buf.getD s.m_checked_idx 0 = 10
        · rw [if_pos h5]
          by_cases h6 : s.m_checked_idx > 1 ∧ s.m_read_buf.getD (s.m_checked_idx - 1) 0 = 13
          · rw [if_pos h6]
            exact ⟨_, _, rfl⟩
          · rw [if_neg h6]
            exact ⟨s.m_read_buf, s.m_checked_idx, rfl⟩
        · rw [if_neg h5]
          obtain ⟨buf, c, e⟩ := ih { s with m_checked_idx := s.m_checked_idx + 1 }
          rw [e]
          exact ⟨buf, c, rfl⟩
    · rw [if_neg h1]
      exact ⟨s.m_read_buf, s.m_checked_idx, rfl⟩

theorem parse_line_flags (s : Conn) :
    (parse_line s).2.m_linger = s.m_linger ∧
    (parse_line s).2.bytes_have_send = s.bytes_have_send := by
  obtain ⟨buf, c, e⟩ := parse_line_scan_frame (s.m_read_idx - s.m_checked_idx) s
  unfold parse_line
  rw [e]
  exact ⟨rfl, rfl⟩

theorem cstr_at_nul (buf : List Nat) (p : Nat) (h : buf.getD p 0 = 0) : cstr buf p = [] := by
  unfold cstr
  by_cases hp : p < buf.length
  · rw [List.drop_eq_getElem_cons hp, List.takeWhile_cons]
    have e : buf[p] = 0 := by
      rw [List.getD_eq_getElem?_getD, List.getElem?_eq_getElem hp] at h
      exact h
    rw [e]
    rfl
  · rw [List.drop_of_length_le (by omega)]
    rfl

/-- The linger flag after `parse_headers`: set by a header line `Connection: keep-alive`,
kept by every other line. -/
theorem parse_headers_flags (s : Conn) (text : Nat) :
    (parse_headers s text).2.m_linger
      = (s.m_linger || header_linger (cstr s.m_read_buf text)) ∧
    (parse_headers s text).2.bytes_have_send = s.bytes_have_send := by
  by_cases hne : s.m_read_buf.getD text 0 = 0
  · have hc : header_linger (cstr s.m_read_buf text) = false := by
      rw [cstr_at_nul _ _ hne]
      decide
    rw [hc, Bool.or_false]
    unfold parse_headers
    simp only [hne, if_true]
    split_ifs <;> exact ⟨rfl, rfl⟩
  · obtain ⟨h, e⟩ := parse_headers_line s text hne
    rw [e]
    exact ⟨rfl, rfl⟩

theorem do_request_flags (fs : List Nat → Option Stat) (s : Conn) (r : HTTP_CODE × Conn)
    (h : do_request fs s = some r) :
    r.2.m_linger = s.m_linger ∧ r.2.bytes_have_send = s.bytes_have_send := by
  unfold do_request at h
  split at h
  · cases h
  · simp only at h
    split at h
    · cases h; exact ⟨rfl, rfl⟩
    · split_ifs at h <;> (cases h; exact ⟨rfl, rfl⟩)

/-- One pass of the loop body of `process_read()`: the linger flag is set when the pass
hands a header line `Connection: keep-alive` to `parse_headers`, and kept otherwise. -/
theorem body_flags (fs : List Nat → Option Stat) (s : Conn) :
    (∀ r, process_read_body fs s = Sum.inl (some r) →
      r.2.m_linger = (s.m_linger || pass_linger s) ∧
      r.2.bytes_have_send = s.bytes_have_send) ∧
    (∀ n, process_read_body fs s = Sum.inr n →
      n.2.m_linger = (s.m_linger || pass_linger s) ∧
      n.2.bytes_have_send = s.bytes_have_send) := by
  cases hst : s.m_check_state with
  | CHECK_STATE_REQUESTLINE =>
    have hp : pass_linger s = false := by
      unfold pass_linger
      rw [hst]
      rfl
    rw [hp, Bool.or_false, process_read_body_requestline fs s hst]
    obtain ⟨buf, meth, ver, url, cs, e⟩ :=
      parse_request_line_frame { s with m_start_line := s.m_checked_idx } s.m_start_line
    generalize parse_request_line { s with m_start_line := s.m_checked_idx } s.m_start_line = p
      at e
    have hp2 : p.2.m_linger = s.m_linger ∧ p.2.bytes_have_send = s.bytes_have_send := by
      rw [e]; exact ⟨rfl, rfl⟩
    constructor
    · intro r hr
      split_ifs at hr
      · cases hr; exact hp2
    · intro n hn
      split_ifs at hn
      · cases hn; exact hp2
  | CHECK_STATE_HEADER =>
    have hp : pass_linger s = header_linger (cstr s.m_read_buf s.m_start_line) := by
      unfold pass_linger
      rw [hst]
      simp
    rw [hp, process_read_body_header fs s hst]
    have e := parse_headers_flags { s with m_start_line := s.m_checked_idx } s.m_start_line
    generalize parse_headers { s with m_start_line := s.m_checked_idx } s.m_start_line = p at e
    have hp2 : p.2.m_linger = (s.m_linger || header_linger (cstr s.m_read_buf s.m_start_line)) ∧
        p.2.bytes_have_send = s.bytes_have_send := e
    constructor
    · intro r hr
      split_ifs at hr
      · cases hr; exact hp2
      · have d := do_request_flags fs p.2 r (Sum.inl.inj hr)
        exact ⟨d.1.trans hp2.1, d.2.trans hp2.2⟩
    · intro n hn
      split_ifs at hn
      · cases hn; exact hp2
  | CHECK_STATE_CONTENT =>
    have hp : pass_linger s = false := by
      unfold pass_linger
      rw [hst]
      rfl
    rw [hp, Bool.or_false, process_read_body_content fs s hst]
    cases hpc : parse_content { s with m_start_line := s.m_checked_idx } s.m_start_line with
    | none => exact ⟨fun r hr => (by cases hr), fun n hn => (by cases hn)⟩
    | some p =>
      obtain ⟨buf, e⟩ := parse_content_frame _ _ p hpc
      have hp2 : p.2.m_linger = s.m_linger ∧ p.2.bytes_have_send = s.bytes_have_send := by
        rw [e]; exact ⟨rfl, rfl⟩
      simp only
      constructor
      · intro r hr
        split_ifs at hr
        · have d := do_request_flags fs p.2 r (Sum.inl.inj hr)
          exact ⟨d.1.trans hp2.1, d.2.trans hp2.2⟩
      · intro n hn
        split_ifs at hn
        · cases hn; exact hp2

theorem add_response_have (s : Conn) (out : List Nat) :
    (add_response s out).2.bytes_have_send = s.bytes_have_send := by
  unfold add_response
  simp only
  split_ifs <;> rfl

theorem add_headers_have (s : Conn) (n : Int) :
    (add_headers s n).bytes_have_send = s.bytes_have_send := by
  unfold add_headers add_blank_line add_linger add_content_type add_content_length
  simp only [add_response_have]

theorem process_write_have (s : Conn) (c : HTTP_CODE) :
    (process_write s c).2.bytes_have_send = s.bytes_have_send := by
  have herr : ∀ (status : Int) (title form : List Nat),
      (process_write_error s status title form).2.bytes_have_send = s.bytes_have_send := by
    intro status title form
    unfold process_write_error add_content add_status_line
    simp only
    split_ifs
    · simp only [add_response_have, add_headers_have]
    · simp only [process_write_single, add_response_have, add_headers_have]
  unfold process_write
  split
  · exact herr _ _ _
  · exact herr _ _ _
  · exact herr _ _ _
  · exact herr _ _ _
  · simp only [add_status_line, add_headers_have, add_response_have]
  · rfl

theorem process_write_in_flags (b : BUILD) (s : Conn) (code : HTTP_CODE) (r : Bool × Conn)
    (h : process_write_in b s code = some r) :
    r.2.m_linger = s.m_linger ∧ r.2.bytes_have_send = s.bytes_have_send := by
  cases b with
  | call_returns =>
    rw [process_write_in_returns] at h
    cases h
    exact ⟨process_write_linger s code, process_write_have s code⟩
  | call_undefined =>
    rw [process_write_in_undefined] at h
    split_ifs at h
    · cases h; exact ⟨rfl, rfl⟩

/-- In the course of a connection the linger flag is set exactly when a header line
`Connection: keep-alive` has been handed to `parse_headers` since the reset, and the
count of bytes sent is not negative. -/
theorem serving_flags (s : Conn) (ka : Bool) (h : Serving s ka) :
    s.m_linger = ka ∧ 0 ≤ s.bytes_have_send := by
  induction h with
  | init s0 => exact ⟨rfl, Int.le_refl 0⟩
  | recv d s ka _ ih => exact ih
  | read rs s r ka _ hr ih =>
    obtain ⟨e1, e2⟩ := read_flags rs s r hr
    exact ⟨e1.trans ih.1, by rw [e2]; exact ih.2⟩
  | parse_line s ka _ ih =>
    obtain ⟨e1, e2⟩ := parse_line_flags s
    exact ⟨e1.trans ih.1, by rw [e2]; exact ih.2⟩
  | loop_body fs s n ka _ hn ih =>
    obtain ⟨e1, e2⟩ := (body_flags fs s).2 n hn
    exact ⟨by rw [e1, ih.1], by rw [e2]; exact ih.2⟩
  | loop_return fs s r ka _ hr ih =>
    obtain ⟨e1, e2⟩ := (body_flags fs s).1 r hr
    exact ⟨by rw [e1, ih.1], by rw [e2]; exact ih.2⟩
  | process_write b s code r ka _ hr ih =>
    obtain ⟨e1, e2⟩ := process_write_in_flags b s code r hr
    exact ⟨e1.trans ih.1, by rw [e2]; exact ih.2⟩
  | modfd s ev ka _ ih =>
    unfold modfd
    split_ifs
    · exact ih
    · exact ih
  | fired s ka _ ih => exact ih
  | sent temp s ka _ ih =>
    obtain ⟨_, e2, e3⟩ := write_sent_frame temp s
    exact ⟨e3.trans ih.1, by rw [e2]; have := ih.2; omega⟩

theorem serving_self (s : Conn) (ka : Bool) (h : Serving s ka) : Serving s s.m_linger := by
  rw [(serving_flags s ka h).1]
  exact h

/-- A call of `process_read()` in the course of a connection is made of calls of
`parse_line()` and passes of the loop body. -/
theorem serving_loop (fs : List Nat → Option Stat) :
    ∀ (fuel : Nat) (ls : LINE_STATUS) (s : Conn) (r : HTTP_CODE × Conn) (ka : Bool),
      Serving s ka → process_read_loop fs fuel ls s = some r → Serving r.2 r.2.m_linger := by
  intro fuel
  induction fuel with
  | zero => intro ls s r ka _ h; cases h
  | succ n ih =>
    intro ls s r ka hs h
    rw [process_read_loop_succ] at h
    have hc : Serving (process_read_cond ls s).2 ka := by
      unfold process_read_cond
      split_ifs
      · exact hs
      · exact Serving.parse_line s ka hs
    generalize process_read_cond ls s = c at h hc
    split_ifs at h
    · cases h
      exact serving_self _ _ hc
    · cases hb : process_read_body fs c.2 with
      | inl x =>
        rw [hb] at h
        simp only at h
        subst h
        exact serving_self _ _ (Serving.loop_return fs c.2 r ka hc hb)
      | inr x =>
        rw [hb] at h
        simp only at h
        exact ih _ _ r _ (Serving.loop_body fs c.2 x ka hc hb) h

theorem serving_read_event (fs : List Nat → Option Stat) (chunk : List Nat) (s : Conn)
    (r : HTTP_CODE × Conn) (ka : Bool) (hs : Serving s ka)
    (h : read_event fs chunk s = some r) : Serving r.2 r.2.m_linger := by
  unfold read_event at h
  cases hr : read [RECV.bytes chunk, RECV.eagain] s with
  | none => rw [hr] at h; cases h
  | some x =>
    rw [hr] at h
    obtain ⟨b, s1⟩ := x
    cases b with
    | false => cases h
    | true =>
      simp only at h
      exact serving_loop fs _ _ s1 r ka (Serving.read _ s (true, s1) ka hs hr) h

theorem serving_read_events (fs : List Nat → Option Stat) :
    ∀ (chunks : List (List Nat)) (s : Conn) (r : HTTP_CODE × Conn) (ka : Bool),
      Serving s ka → read_events fs chunks s = some r → Serving r.2 r.2.m_linger := by
  intro chunks
  induction chunks with
  | nil =>
    intro s r ka hs h
    cases h
    exact serving_self _ _ hs
  | cons c cs ih =>
    intro s r ka hs h
    unfold read_events at h
    cases he : read_event fs c s with
    | none => rw [he] at h; cases h
    | some x =>
      have hx := serving_read_event fs c s x ka hs he
      rw [he] at h
      obtain ⟨code, s1⟩ := x
      cases code <;> simp only at h
      all_goals first
        | (cases h; exact hx)
        | (split_ifs at h
           · cases h; exact hx
           · exact ih _ r _ hx h)


theorem two_reads_eq :
    read_events fs_sample
      [B "GET /index.html HTTP/1.1\r\nConnec", B "tion: keep-alive\r\n\r\n"] (init conn0)
      = some two_reads := by
  decide!

theorem serving_two_reads : Serving (process_write two_reads.2 two_reads.1).2 true := by
  have h2 := serving_read_events fs_sample _ (init conn0) two_reads false
    (Serving.init conn0) two_reads_eq
  have h3 : two_reads.2.m_linger = true := by decide!
  rw [h3] at h2
  exact Serving.process_write BUILD.call_returns two_reads.2 two_reads.1
    (process_write two_reads.2 two_reads.1) true h2 (process_write_in_returns _ _)

/-- A request read in one delivery (request line accepted, header lines `hs`, blank
line, a body as declared): `process_read` produces a result other than NO_REQUEST, in
a state of the course of the connection in which a header line `Connection: keep-alive`
has been parsed exactly when `hs` holds one. -/
theorem serving_request (fs : List Nat → Option Stat) (s0 : Conn) (rl : List Nat)
    (hs : List (List Nat)) (body meth target version : List Nat) (sep1 sep2 : Nat)
    (hwf : WF s0) (hrl : ∀ c ∈ rl, c ≠ 13 ∧ c ≠ 10)
    (hcl : c_line rl = meth ++ sep1 :: (target ++ sep2 :: version))
    (hm : eq_ignore_case meth (B "GET")) (h1 : sep1 = 32 ∨ sep1 = 9)
    (h2 : sep2 = 32 ∨ sep2 = 9) (ht : ∀ c ∈ target, c ≠ 32 ∧ c ≠ 9)
    (hv : eq_ignore_case version (B "HTTP/1.1")) (htg : (strip_http target).head? = some 47)
    (hh : ∀ l ∈ hs, header_line_ok l)
    (hbody : 0 ≤ headers_length hs 0 ∧ headers_length hs 0 ≤ (body.length : Int))
    (hfit : (rl ++ 13 :: 10 :: header_block hs (13 :: 10 :: body)).length ≤ READ_BUFFER_SIZE)
    (hroom : headers_length hs 0 = 0 ∨
      (rl ++ 13 :: 10 :: header_block hs (13 :: 10 :: body)).length < READ_BUFFER_SIZE) :
    ∃ code s1,
      read_event fs (rl ++ 13 :: 10 :: header_block hs (13 :: 10 :: body)) (init s0)
        = some (code, s1) ∧
      code ≠ NO_REQUEST ∧ Serving s1 (headers_linger hs) := by
  obtain ⟨sf, w, hre, hu, hl, _, _, _, _⟩ := read_request fs s0 rl hs body meth target version
    sep1 sep2 hwf hrl hcl hm h1 h2 ht hv htg hh hbody hfit hroom
  obtain ⟨code, rf, st, fa, hdo, hcode⟩ := do_request_some fs sf w hu
  have hev : read_event fs (rl ++ 13 :: 10 :: header_block hs (13 :: 10 :: body)) (init s0)
      = some (code, { sf with m_real_file := rf, m_file_stat := st, m_file_address := fa }) := by
    rw [hre, hdo]
  have hlin : ({ sf with m_real_file := rf, m_file_stat := st, m_file_address := fa } : Conn).m_linger
      = headers_linger hs := hl
  generalize ({ sf with m_real_file := rf, m_file_stat := st, m_file_address := fa } : Conn) = S
    at hev hlin
  have hserv : Serving S S.m_linger :=
    serving_read_event fs _ (init s0) (code, S) false (Serving.init s0) hev
  rw [hlin] at hserv
  exact ⟨code, S, hev, hcode, hserv⟩

/-- After `init()` both segments of the descriptor and the segment count are zero. -/
theorem init_clears_descriptor (s : Conn) :
    (init s).m_iv0 = { base := 0, len := 0 } ∧ (init s).m_iv1 = { base := 0, len := 0 } ∧
      (init s).m_iv_count = 0 :=
  ⟨rfl, rfl, rfl⟩

/-- `Content-Length: -100` after a request line of 26 bytes: the byte `parse_content`
clears lies before the start of the read buffer, and `process_read` has no defined
result. `Content-Length: 2147483647`: the `int` sum with the parse cursor overflows. -/
theorem content_length_outside_buffer :
    read_event fs_sample (B "GET /index.html HTTP/1.1\r\nContent-Length: -100\r\n\r\n")
      (init conn0) = none ∧
    read_event fs_sample (B "GET /index.html HTTP/1.1\r\nContent-Length: 2147483647\r\n\r\n")
      (init conn0) = none := by
  decide!

end WebServer
